import Mathlib

/-!
# The Go generator of the Thrift compiler (`t_go_generator.cc`)

A shallow embedding of the translation engine of
`compiler/cpp/src/thrift/generate/t_go_generator.cc` and the properties proved about it.

Conventions of the embedding:

* a `std::string` is a `List Char` (one `Char` per byte, "C" locale);
* a C++ function that can `throw`, or whose behaviour is undefined on some input,
  returns `Except Failure`;
* `size_t` arithmetic that can wrap is written out modulo `2 ^ 64`;
* loops are recursive functions on an explicit iteration budget; running out of the
  budget is the distinct outcome `Failure.out_of_fuel`, and every result theorem
  shows an `Except.ok` value;
* where the generator emits Go source text, the embedding follows the same decisions
  of the generator and gives the emitted Go function by its meaning on Go values.

Part I holds the definitions, Part II the lemmas and theorems.
-/

namespace GoGen

/-! ## Part I. Definitions -/

/-! ### Outcomes and `std::string` primitives -/

/-- Ways in which a C++ function of the generator fails to return a value. -/
inductive Failure where
  /-- A C++ `throw` with the thrown text. -/
  | thrown (msg : List Char)
  /-- An `operator[]` access past the end of a `std::string`. -/
  | undefined_behaviour
  /-- The iteration budget of a loop of the embedding ran out. -/
  | out_of_fuel
  deriving DecidableEq, Repr

deriving instance DecidableEq for Except

/-- Largest `size_t` value (64-bit target). -/
def SIZE_MAX : Nat := 2 ^ 64 - 1

/-- The value of `std::numeric_limits<int>().max()`. -/
def INT_MAX : Nat := 2 ^ 31 - 1

/-- The C function `islower` in the "C" locale. -/
def islower (c : Char) : Bool := 97 ≤ c.toNat && c.toNat ≤ 122

/-- The C function `isupper` in the "C" locale. -/
def isupper (c : Char) : Bool := 65 ≤ c.toNat && c.toNat ≤ 90

/-- The C function `toupper` in the "C" locale. -/
def toupper (c : Char) : Char := if islower c then Char.ofNat (c.toNat - 32) else c

/-- The C function `tolower` in the "C" locale. -/
def tolower (c : Char) : Char := if isupper c then Char.ofNat (c.toNat + 32) else c

/-- The call `s.find(c, pos)` of `std::string`: the index of the first `c` at or after
`pos`; `none` stands for `npos`. -/
def find (s : List Char) (c : Char) (pos : Nat) : Option Nat :=
  if c ∈ s.drop pos then some (pos + ((s.drop pos).takeWhile (fun x => x != c)).length) else none

/-- The call `s.rfind(c)` of `std::string`: the index of the last `c`; `none` stands for `npos`. -/
def rfind (s : List Char) (c : Char) : Option Nat :=
  if c ∈ s then some (s.length - 1 - (s.reverse.takeWhile (fun x => x != c)).length) else none

/-- The call `s.substr(pos, len)` of `std::string` for `pos ≤ s.size()`; `len = none` stands
for `npos` (to the end of the string). -/
def substr (s : List Char) (pos : Nat) (len : Option Nat) : List Char :=
  match len with
  | none => s.drop pos
  | some n => (s.drop pos).take n

/-- The call `s.replace(pos, len, r)` of `std::string` for `pos ≤ s.size()`. -/
def replace (s : List Char) (pos len : Nat) (r : List Char) : List Char :=
  s.take pos ++ r ++ s.drop (pos + len)

/-! ### The input tree: types, constants, fields, structs -/

/-- Modelled from the spec: the base types of `t_base_type::t_base` (declared in
`t_base_type.h`, which is not part of the sources); a binary is a `TYPE_STRING` whose binary
flag is set. -/
inductive t_base where
  | TYPE_VOID
  | TYPE_STRING
  | TYPE_BOOL
  | TYPE_I8
  | TYPE_I16
  | TYPE_I32
  | TYPE_I64
  | TYPE_DOUBLE
  deriving DecidableEq, Repr

/-- Modelled from the spec: the closed variant of types of the input tree (`t_type` and its
subclasses, declared outside the sources). A struct or exception is referred to by name, with
its exception flag; a typedef carries the type it names. -/
inductive t_type where
  | base_type (base : t_base) (binary : Bool)
  | enum (name : List Char)
  | struct (name : List Char) (is_xception : Bool)
  | map (key_type val_type : t_type)
  | set (elem_type : t_type)
  | list (elem_type : t_type)
  | typedef (symbolic : List Char) (type : t_type)
  deriving DecidableEq, Repr

namespace t_type

/-- The method `get_true_type()`: the type behind all typedefs. -/
def get_true_type : t_type → t_type
  | typedef _ t => get_true_type t
  | t => t

/-- The method `is_base_type()`. -/
def is_base_type : t_type → Bool
  | base_type _ _ => true
  | _ => false

/-- The method `is_binary()`: a string base type with the binary flag. -/
def is_binary : t_type → Bool
  | base_type .TYPE_STRING b => b
  | _ => false

/-- The method `is_void()`. -/
def is_void : t_type → Bool
  | base_type .TYPE_VOID _ => true
  | _ => false

/-- The method `is_enum()`. -/
def is_enum : t_type → Bool
  | enum _ => true
  | _ => false

/-- The method `is_struct()`: a struct that is not an exception. -/
def is_struct : t_type → Bool
  | struct _ x => !x
  | _ => false

/-- The method `is_xception()`. -/
def is_xception : t_type → Bool
  | struct _ x => x
  | _ => false

/-- The method `is_map()`. -/
def is_map : t_type → Bool
  | map _ _ => true
  | _ => false

/-- The method `is_set()`. -/
def is_set : t_type → Bool
  | set _ => true
  | _ => false

/-- The method `is_list()`. -/
def is_list : t_type → Bool
  | list _ => true
  | _ => false

/-- The method `is_container()`. -/
def is_container (t : t_type) : Bool := t.is_map || t.is_set || t.is_list

/-- The method `is_typedef()`. -/
def is_typedef : t_type → Bool
  | typedef _ _ => true
  | _ => false

/-- The method `get_name()`; containers and base types have the names of the IDL. -/
def get_name : t_type → List Char
  | base_type .TYPE_VOID _ => "void".toList
  | base_type .TYPE_STRING _ => "string".toList
  | base_type .TYPE_BOOL _ => "bool".toList
  | base_type .TYPE_I8 _ => "i8".toList
  | base_type .TYPE_I16 _ => "i16".toList
  | base_type .TYPE_I32 _ => "i32".toList
  | base_type .TYPE_I64 _ => "i64".toList
  | base_type .TYPE_DOUBLE _ => "double".toList
  | enum n => n
  | struct n _ => n
  | map _ _ => []
  | set _ => []
  | list _ => []
  | typedef n _ => n

/-- The base of a base type (`((t_base_type*)type)->get_base()`). -/
def get_base : t_type → t_base
  | base_type b _ => b
  | _ => .TYPE_VOID

end t_type

/-- Modelled from the spec: the value of a `double`, as a rational number; NaN and the
infinities are outside the model. -/
abbrev cdouble : Type := ℚ

/-- Modelled from the spec: a constant value of the input tree (`t_const_value`, declared
outside the sources), by the kind of value it holds. -/
inductive t_const_value where
  | CV_INTEGER (intVal_ : Int)
  | CV_DOUBLE (doubleVal_ : cdouble)
  | CV_STRING (stringVal_ : List Char)
  | CV_MAP (mapVal_ : List (t_const_value × t_const_value))
  | CV_LIST (listVal_ : List t_const_value)
  | CV_IDENTIFIER (identifierVal_ : List Char) (enum_value : Int)

namespace t_const_value

/-- The accessor `get_integer()`: the integer held, for an identifier the value of the enum
constant it names, and 0 for the other kinds. -/
def get_integer : t_const_value → Int
  | CV_INTEGER n => n
  | CV_IDENTIFIER _ n => n
  | _ => 0

/-- The accessor `get_string()`: the string held, empty for the other kinds. -/
def get_string : t_const_value → List Char
  | CV_STRING s => s
  | _ => []

/-- The accessor `get_double()`: the double held, 0 for the other kinds. -/
def get_double : t_const_value → cdouble
  | CV_DOUBLE d => d
  | _ => 0

/-- The test `get_type() == CV_INTEGER`. -/
def is_integer : t_const_value → Bool
  | CV_INTEGER _ => true
  | _ => false

end t_const_value

/-- Modelled from the spec: the requiredness of a field (`t_field::e_req`). -/
inductive e_req where
  | T_REQUIRED
  | T_OPTIONAL
  | T_OPT_IN_REQ_OUT
  deriving DecidableEq, Repr

/-- Modelled from the spec: a field of the input tree (`t_field`): name, wire id, type,
requiredness, optional default value and raw annotations. -/
structure t_field where
  name_ : List Char
  key_ : Int
  type_ : t_type
  req_ : e_req
  value_ : Option t_const_value
  annotations_ : List (List Char × List Char)

namespace t_field

/-- The call `annotations_.count(key)` of the annotation map. -/
def annotations_count (f : t_field) (key : List Char) : Nat :=
  if (f.annotations_.map Prod.fst).contains key then 1 else 0

/-- The method `set_req(req)`. -/
def set_req (f : t_field) (req : e_req) : t_field := { f with req_ := req }

end t_field

/-- Modelled from the spec: a struct, exception or union of the input tree (`t_struct`):
name, members in declaration order, and the union and exception flags. -/
structure t_struct where
  name_ : List Char
  members_ : List t_field
  is_union_ : Bool
  is_xception_ : Bool

/-- The wire id of the member at a position of a member list (0 past the end). -/
def key_at (members : List t_field) (pos : Nat) : Int :=
  match members[pos]? with
  | some m => m.key_
  | none => 0

namespace t_struct

/-- Modelled from the spec: the view of the members sorted by wire id
(`get_sorted_members()`), as the positions of the members in declaration order; the struct
holds pointers to its fields, so both views name the same field objects. -/
def sorted_positions (s : t_struct) : List Nat :=
  (List.range s.members_.length).insertionSort
    (fun i j => key_at s.members_ i ≤ key_at s.members_ j)

/-- The members in wire-id order (`get_sorted_members()`), read from a member list. -/
def get_sorted_members (s : t_struct) (members : List t_field) : List t_field :=
  s.sorted_positions.filterMap (fun pos => members[pos]?)

/-- The test of line 1457 of `generate_go_struct_definition`: the struct has no members or
its smallest wire id is not negative. The fields of such a struct are emitted with their
pointer types and tags (lines 1458–1517); the fields of any other struct are emitted by
`type_to_go_type`, without tags (lines 1518–1523). -/
def tagged_branch (s : t_struct) : Bool :=
  s.sorted_positions.isEmpty || decide (key_at s.members_ (s.sorted_positions.headD 0) ≥ 0)

/-- Modelled from the spec: the invariant of the input tree that every member of a union is
OPTIONAL: the parser sets the requiredness of a member when it adds the member to a union
(`t_struct::validate_union_member`, outside the sources). -/
def union_members_parsed (s : t_struct) : Bool :=
  !s.is_union_ || s.members_.all (fun m => m.req_ == e_req.T_OPTIONAL)

end t_struct

/-- The function `is_pointer_field(tfield)` (lines 387–439). -/
def is_pointer_field (tfield : t_field) : Except Failure Bool :=
  if tfield.annotations_count "cpp.ref".toList != 0 then .ok true
  else
    let type := tfield.type_.get_true_type
    if type.is_struct || type.is_xception then .ok true
    else if !(tfield.req_ == e_req.T_OPTIONAL) then .ok false
    else
      let has_default := tfield.value_.isSome
      if type.is_base_type then
        match type.get_base with
        | .TYPE_VOID => .error (.thrown [])
        | .TYPE_STRING => if type.is_binary then .ok false else .ok (!has_default)
        | .TYPE_BOOL => .ok (!has_default)
        | .TYPE_I8 => .ok (!has_default)
        | .TYPE_I16 => .ok (!has_default)
        | .TYPE_I32 => .ok (!has_default)
        | .TYPE_I64 => .ok (!has_default)
        | .TYPE_DOUBLE => .ok (!has_default)
      else if type.is_enum then .ok (!has_default)
      else if type.is_struct || type.is_xception then .ok true
      else if type.is_map then .ok has_default
      else if type.is_set then .ok has_default
      else if type.is_list then .ok has_default
      else if type.is_typedef then .ok has_default
      else .error (.thrown ("INVALID TYPE IN type_to_go_type: ".toList ++ type.get_name))

/-! ### Generator state -/

/-- The members of `class t_go_generator` that the naming functions read. -/
structure t_go_generator where
  /-- Option `ignore_initialisms`. -/
  ignore_initialisms_ : Bool
  /-- The set `commonInitialisms`. -/
  commonInitialisms : List (List Char)
  /-- The member `service_name_` of the base generator. -/
  service_name_ : List Char

/-- The initialisms that `init_generator` inserts into `commonInitialisms` (lines 695–729). -/
def initialisms : List (List Char) :=
  ["API", "ASCII", "CPU", "CSS", "DNS", "EOF", "GUID", "HTML", "HTTP", "HTTPS", "ID", "IP",
   "JSON", "LHS", "QPS", "RAM", "RHS", "RPC", "SLA", "SMTP", "SSH", "TCP", "TLS", "TTL", "UDP",
   "UI", "UID", "UUID", "URI", "URL", "UTF8", "VM", "XML", "XSRF", "XSS"].map String.toList

/-- The part of `init_generator` that fills `commonInitialisms`. -/
def init_generator (g : t_go_generator) : t_go_generator :=
  { g with commonInitialisms := g.commonInitialisms ++ initialisms }

/-! ### NameMangler: `camelcase`, `fix_common_initialism`, `publicize` -/

/-- The function `fix_common_initialism(value, i)` (lines 468–480), called with
`i ≤ value.size()`: when the word starting at `i` (up to the next underscore) is, upper-cased,
a common initialism, it is replaced by its upper-case spelling. -/
def fix_common_initialism (g : t_go_generator) (value : List Char) (i : Nat) : List Char :=
  if !g.ignore_initialisms_ then
    let wordLen : Option Nat := (find value '_' i).map (fun p => p - i)
    let word := (substr value i wordLen).map toupper
    if word ∈ g.commonInitialisms then replace value i word.length word else value
  else value

/-- The `for` loop of `camelcase` (lines 450–461) from index `i` on, with an iteration budget.
The bound `value2.size() - 1` is computed in `size_t`, so it wraps for the empty string. -/
def camelcase_loop (g : t_go_generator) :
    Nat → Nat → List Char → Except Failure (List Char)
  | 0, _, _ => .error .out_of_fuel
  | fuel + 1, i, value2 =>
    if i < (value2.length + SIZE_MAX) % (SIZE_MAX + 1) then
      match value2[i]? with
      | none => .error .undefined_behaviour
      | some c =>
        if c = '_' then
          match value2[i + 1]? with
          | none => .error .undefined_behaviour
          | some d =>
            let value2 := if islower d then replace value2 i 2 [toupper d] else value2
            if i > INT_MAX then
              .error (.thrown "integer overflow in t_go_generator::camelcase".toList)
            else
              camelcase_loop g fuel (i + 1) (fix_common_initialism g value2 i)
        else camelcase_loop g fuel (i + 1) value2
    else .ok value2

/-- The function `camelcase(value)` (lines 441–464). The loop runs fewer than `value.size()`
times, which is the budget given to it. -/
def camelcase (g : t_go_generator) (value : List Char) : Except Failure (List Char) :=
  camelcase_loop g (value.length + 1) 1 (fix_common_initialism g value 0)

/-- The statement `if (!isupper(value2[0])) value2[0] = toupper(value2[0])` of `publicize`;
on the empty string `value2[0]` is the terminating null, which is left as it is. -/
def upcase_first (value2 : List Char) : List Char :=
  match value2 with
  | [] => []
  | c :: cs => (if !isupper c then toupper c else c) :: cs

/-- The module qualifier that `publicize` splits off (lines 489–493): the text up to and
including the last dot, and the rest. -/
def split_qualifier (value : List Char) : List Char × List Char :=
  match rfind value '.' with
  | some dot_pos => (substr value 0 (some (dot_pos + 1)), substr value (dot_pos + 1) none)
  | none => ([], value)

/-- Lines 501–520 of `publicize`: the underscore appended to a camel-cased name that starts
with "New", and the one appended, unless `is_args_or_result`, to a name that ends with "Args"
or "Result"; both tests look at the first `len_before` characters. -/
def append_underscores (is_args_or_result : Bool) (camel : List Char) : List Char :=
  let len_before := camel.length
  let value2 :=
    if len_before ≥ 3 ∧ substr camel 0 (some 3) = "New".toList then camel ++ ['_'] else camel
  if !is_args_or_result then
    let ends_with_args :=
      decide (len_before ≥ 4) && (substr value2 (len_before - 4) (some 4) == "Args".toList)
    let ends_with_rslt :=
      decide (len_before ≥ 6) && (substr value2 (len_before - 6) (some 6) == "Result".toList)
    if ends_with_args || ends_with_rslt then value2 ++ ['_'] else value2
  else value2

/-- The body of the three-argument `publicize` (lines 482–528); `nested` is the value of the
call `publicize(service_name)` of line 524, which is evaluated only when
`is_args_or_result` holds. -/
def publicize_body (g : t_go_generator) (value : List Char) (is_args_or_result : Bool)
    (nested : Except Failure (List Char)) : Except Failure (List Char) :=
  if value.length ≤ 0 then .ok value
  else
    (camelcase g (upcase_first (split_qualifier value).2)).bind fun camel =>
      if is_args_or_result then
        nested.bind fun svc =>
          .ok (((split_qualifier value).1 ++ svc) ++ append_underscores is_args_or_result camel)
      else .ok ((split_qualifier value).1 ++ append_underscores is_args_or_result camel)

/-- The two-argument overload `publicize(value, is_args_or_result)` on the path on which
`is_args_or_result` is false, as called from line 524: no further nested call is made. -/
def publicize_plain (g : t_go_generator) (value : List Char) : Except Failure (List Char) :=
  publicize_body g value false (.ok [])

/-- The function `publicize(value, is_args_or_result, service_name)` (lines 482–528). -/
def publicize (g : t_go_generator) (value : List Char) (is_args_or_result : Bool)
    (service_name : List Char) : Except Failure (List Char) :=
  publicize_body g value is_args_or_result (publicize_plain g service_name)

/-- The overload `publicize(value, is_args_or_result)` (lines 530–532), which passes the
generator's current `service_name_`. -/
def publicize2 (g : t_go_generator) (value : List Char) (is_args_or_result : Bool) :
    Except Failure (List Char) :=
  publicize g value is_args_or_result g.service_name_

/-! ### StructEmitter: what `generate_go_struct_definition` decides per field -/

/-- What the loop of lines 1460–1517 computes for the struct line of one member, from the
member as it stands at that moment: the pointer-ness used for its Go type (line 1479), whether
the json tag gets `,omitempty` (line 1489) and whether the thrift tag gets `,required`
(line 1511). -/
structure struct_line where
  field : t_field
  pointer : Except Failure Bool
  omitempty : Bool
  required : Bool

/-- The struct line computed from a member (lines 1478–1515). -/
def struct_line_of (m : t_field) : struct_line :=
  { field := m
    pointer := is_pointer_field m
    omitempty := (m.req_ == e_req.T_OPTIONAL) && !m.value_.isSome
    required := m.req_ == e_req.T_REQUIRED }

/-- The loop of lines 1460–1517 over the positions of the sorted members: each member is
first set to OPTIONAL when the struct is a union (lines 1463–1464, a write through the field
pointer, seen by both member views), then its struct line is computed. -/
def definition_loop (is_union : Bool) :
    List Nat → List t_field → List struct_line → List t_field × List struct_line
  | [], members, lines => (members, lines)
  | pos :: rest, members, lines =>
    match members[pos]? with
    | none => definition_loop is_union rest members lines
    | some m0 =>
      let m := if is_union then m0.set_req e_req.T_OPTIONAL else m0
      definition_loop is_union rest (members.set pos m) (lines ++ [struct_line_of m])

/-- Lines 1456–1524 of `generate_go_struct_definition`: the members as they stand after the
field lines of the struct are emitted, and the tagged struct lines. When the smallest wire id
is negative (the `else` of line 1518) the fields are emitted untagged by
`type_to_go_type` and no member is touched. -/
def definition_fields (s : t_struct) : List t_field × List struct_line :=
  let sorted := s.sorted_positions
  if sorted.isEmpty || decide (key_at s.members_ (sorted.headD 0) ≥ 0) then
    definition_loop s.is_union_ sorted s.members_ []
  else (s.members_, [])

/-- The members that the rest of `generate_go_struct_definition` (from line 1526 on: the
constructor, default holders, getters, IsSet helpers, reader and writer) sees. -/
def definition_members (s : t_struct) : List t_field := (definition_fields s).1

/-- The test that counts a member as setable (line 1551). -/
def is_setable (m : t_field) : Except Failure Bool :=
  (is_pointer_field m).bind fun p =>
    let type := m.type_.get_true_type
    .ok (p || type.is_map || type.is_set || type.is_list || type.is_binary)

/-- The number `num_setable` that the loop of lines 1533–1572 computes. -/
def num_setable : List t_field → Except Failure Nat
  | [] => .ok 0
  | m :: rest =>
    (is_setable m).bind fun b =>
      (num_setable rest).bind fun n => .ok (if b then n + 1 else n)

/-- The default holder `<Struct>_<Field>_DEFAULT` of a member (lines 1540–1546): `none` when
it is not declared, `some none` when it is declared without an initializer, `some (some v)`
when it is initialized with the rendering of the default `v`. -/
def default_holder (m : t_field) : Except Failure (Option (Option t_const_value)) :=
  if m.req_ == e_req.T_OPTIONAL then .ok (some m.value_)
  else (is_pointer_field m).bind fun p => .ok (if p then some m.value_ else none)

/-- The getter of a member (lines 1555–1571): true when it is the guarded getter, which
returns the default holder when IsSet is false, and false for the plain getter. -/
def getter_is_guarded (m : t_field) : Except Failure Bool := is_pointer_field m

/-- The function `omit_initialization(tfield)` (lines 338–374). -/
def omit_initialization (tfield : t_field) : Except Failure Bool :=
  match tfield.value_ with
  | none => .ok true
  | some value =>
    let type := tfield.type_.get_true_type
    if type.is_base_type then
      match type.get_base with
      | .TYPE_VOID => .error (.thrown [])
      | .TYPE_STRING =>
        if type.is_binary then .ok false
        else .ok value.get_string.isEmpty
      | .TYPE_BOOL => .ok (value.get_integer == 0)
      | .TYPE_I8 => .ok (value.get_integer == 0)
      | .TYPE_I16 => .ok (value.get_integer == 0)
      | .TYPE_I32 => .ok (value.get_integer == 0)
      | .TYPE_I64 => .ok (value.get_integer == 0)
      | .TYPE_DOUBLE =>
        if value.is_integer then .ok (value.get_integer == 0)
        else .ok (value.get_double == 0)
    else .ok false

/-- Whether `generate_go_struct_initializer` emits an initializer for a member
(line 1404). -/
def initializer_emitted (member : t_field) : Except Failure Bool :=
  (is_pointer_field member).bind fun pointer_field =>
    if !pointer_field && member.value_.isSome then
      (omit_initialization member).bind fun o => .ok (!o)
    else .ok false

/-- The comparison in the body of an emitted IsSet helper (lines 1633–1642). -/
inductive isset_body where
  /-- The text `return p.F != nil`. -/
  | ne_nil
  /-- The text `return !bytes.Equal(p.F, S_F_DEFAULT)`. -/
  | not_bytes_equal_default
  /-- The text `return p.F != S_F_DEFAULT`. -/
  | ne_default
  deriving DecidableEq, Repr

/-- The IsSet helper that `generate_isset_helpers` emits for a member (lines 1623–1647);
`none` when no helper is emitted. -/
def isset_helper (m : t_field) : Except Failure (Option isset_body) :=
  let body : Except Failure (Option isset_body) :=
    let ttype := m.type_.get_true_type
    let is_byteslice := ttype.is_binary
    let compare_to_nil_only :=
      ttype.is_set || ttype.is_list || ttype.is_map || (is_byteslice && !m.value_.isSome)
    (is_pointer_field m).bind fun p =>
      if p || compare_to_nil_only then .ok (some .ne_nil)
      else if is_byteslice then .ok (some .not_bytes_equal_default)
      else .ok (some .ne_default)
  if m.req_ == e_req.T_OPTIONAL then body
  else (is_pointer_field m).bind fun p => if p then body else .ok none

/-- The members on which the emitted `CountSetFields` calls the IsSet helper
(lines 1666–1682). -/
def countsetfields_members : List t_field → Except Failure (List t_field)
  | [] => .ok []
  | m :: rest =>
    if m.req_ == e_req.T_REQUIRED then countsetfields_members rest
    else
      (is_setable m).bind fun b =>
        (countsetfields_members rest).bind fun l => .ok (if b then m :: l else l)

/-! ### The emitted Go code, by its meaning -/

/-- The wire-type constants of the Go library that `type_to_enum` names, and the two that
the emitted reader tests for (`thrift.STOP`) or the generator compares with
(`thrift.BINARY`). -/
inductive TType where
  | STOP
  | BOOL
  | BYTE
  | I16
  | I32
  | I64
  | DOUBLE
  | STRING
  | BINARY
  | STRUCT
  | MAP
  | SET
  | LIST
  deriving DecidableEq, Repr

/-- The function `type_to_enum(type)` (lines 4034–4083). -/
def type_to_enum (type : t_type) : Except Failure TType :=
  let type := type.get_true_type
  if type.is_base_type then
    match type.get_base with
    | .TYPE_VOID => .error (.thrown "NO T_VOID CONSTRUCT".toList)
    | .TYPE_STRING => .ok .STRING
    | .TYPE_BOOL => .ok .BOOL
    | .TYPE_I8 => .ok .BYTE
    | .TYPE_I16 => .ok .I16
    | .TYPE_I32 => .ok .I32
    | .TYPE_I64 => .ok .I64
    | .TYPE_DOUBLE => .ok .DOUBLE
  else if type.is_enum then .ok .I32
  else if type.is_struct || type.is_xception then .ok .STRUCT
  else if type.is_map then .ok .MAP
  else if type.is_set then .ok .SET
  else if type.is_list then .ok .LIST
  else .error (.thrown ("INVALID TYPE IN type_to_enum: ".toList ++ type.get_name))

/-- The errors that the emitted Go functions of this development return. -/
inductive go_error where
  /-- The text `%T write union: exactly one field must be set (%d set)` with the count. -/
  | union_count (c : Nat)
  /-- The `thrift.INVALID_DATA` protocol exception `Required field F is not set`, where F
  is the publicized name of the member at position `pos` in declaration order. -/
  | required_field_not_set (pos : Nat)
  /-- The text `not a valid E string` of an enum `E`. -/
  | not_a_valid_enum_string
  /-- An error returned by a call of the protocol (a lower-level error). -/
  | protocol
  /-- The text `map size is negative`, `set size is negative` or `list size is negative`. -/
  | negative_size
  /-- The text `%T error writing set field: slice is not unique`. -/
  | slice_not_unique
  deriving DecidableEq, Repr

/-- Modelled from the spec: the wire protocol (`thrift.TProtocol`, outside the sources) as
the sequence of the items written: each `Write…` call of the emitted code appends one item
and each `Read…` call takes the matching item from the front. Strings and binaries travel as
the same item. -/
inductive tok where
  | StructBegin (name : List Char)
  | StructEnd
  | FieldBegin (name : List Char) (typeId : TType) (id : Int)
  | FieldEnd
  | FieldStop
  | MapBegin (keyType valueType : TType) (size : Int)
  | MapEnd
  | ListBegin (elemType : TType) (size : Int)
  | ListEnd
  | SetBegin (elemType : TType) (size : Int)
  | SetEnd
  | Bool (b : Bool)
  | Byte (n : Int)
  | I16 (n : Int)
  | I32 (n : Int)
  | I64 (n : Int)
  | Double (d : cdouble)
  | String (s : List Char)
  deriving DecidableEq

/-- The emitted `CountSetFields` (lines 1662–1686) on a receiver whose IsSet helpers return
`IsSet m` for the member `m`: the number of the members it tests whose helper returns true. -/
def generated_CountSetFields (members : List t_field) (IsSet : t_field → Bool) :
    Except Failure Nat :=
  (countsetfields_members members).bind fun l => .ok (l.filter IsSet).length

/-- The start of the emitted `Write` (lines 1856–1867), on a receiver whose IsSet helpers
return `IsSet m`: the protocol calls made so far and the error returned, if any. The union
check is emitted when the struct is a union and `uses_countsetfields` holds; it comes
before the call of `WriteStructBegin`. -/
def generated_Write_begin (s : t_struct) (members : List t_field) (uses_countsetfields : Bool)
    (IsSet : t_field → Bool) : Except Failure (List tok × Option go_error) :=
  if s.is_union_ && uses_countsetfields then
    (generated_CountSetFields members IsSet).bind fun c =>
      if c != 1 then .ok ([], some (.union_count c))
      else .ok ([tok.StructBegin s.name_], none)
  else .ok ([tok.StructBegin s.name_], none)

/-- The start of the `Write` method that `generate_go_struct_definition` emits for a struct:
the writer is generated from the members as they stand after the struct lines, with
`uses_countsetfields` being `num_setable > 0` (line 1580). -/
def struct_Write_begin (s : t_struct) (IsSet : t_field → Bool) :
    Except Failure (List tok × Option go_error) :=
  (num_setable (definition_members s)).bind fun n =>
    generated_Write_begin s (definition_members s) (decide (n > 0)) IsSet

/-- A field header as `ReadFieldBegin` returns it: the wire type and the field id. -/
structure field_header where
  fieldTypeId : TType
  fieldId : Int
  deriving DecidableEq, Repr

/-- The wire type that the emitted reader expects for a member (lines 1754–1758). -/
def expected_wire_type (m : t_field) : Except Failure TType :=
  (type_to_enum m.type_).bind fun thriftFieldTypeId =>
    .ok (if thriftFieldTypeId == TType.BINARY then TType.STRING else thriftFieldTypeId)

/-- The `case` lines of the emitted `switch fieldId` (lines 1740–1780), one per member in
declaration order: the field id, the expected wire type, and whether the member is
REQUIRED (its seen-flag is then set after the field is read). -/
def reader_cases : List t_field → Except Failure (List (Int × TType × Bool))
  | [] => .ok []
  | m :: rest =>
    (expected_wire_type m).bind fun ty =>
      (reader_cases rest).bind fun l => .ok ((m.key_, ty, m.req_ == e_req.T_REQUIRED) :: l)

/-- The position of the first `case` whose field id is `fieldId` (the case that the Go
`switch` runs), if any. -/
def switch_case : List (Int × TType × Bool) → Int → Option Nat
  | [], _ => none
  | c :: rest, fieldId =>
    if c.1 == fieldId then some 0 else (switch_case rest fieldId).map (fun i => i + 1)

/-- The seen-flags after one pass of the emitted read loop (lines 1718–1804) for a field
header that is not STOP, when the body of the round returns without error; `isset` holds the
seen-flags by member position. -/
def read_field (cases : List (Int × TType × Bool)) (isset : List Bool) (h : field_header) :
    List Bool :=
  match switch_case cases h.fieldId with
  | some i =>
    match cases[i]? with
    | some (_, ty, required) =>
      if h.fieldTypeId == ty then
        if required then isset.set i true else isset
      else isset
    | none => isset
  | none => isset

/-- One round of the emitted read loop as the loop sees it: the field header that
`ReadFieldBegin` delivers and, for a header that is not STOP, the error `failed` that the
body of the round returns, if any: the error of the per-field read routine `ReadField<N>`
(lines 1761–1764; a nested struct's own `Read`, a negative container size, a protocol
error), of `Skip` (lines 1773–1775 and 1789–1791) or of `ReadFieldEnd` (lines 1800–1802). -/
structure field_read where
  header : field_header
  failed : Option go_error
  deriving DecidableEq, Repr

/-- A round of the read loop whose body returns without error. -/
def field_read.passed (h : field_header) : field_read := ⟨h, none⟩

/-- The emitted read loop on the rounds that successive calls of `ReadFieldBegin` start: it
ends at the first STOP header; a round whose body returns an error ends `Read` with that
error, before any later round and before the required check; when the headers run out the
protocol returns an error. -/
def read_loop (cases : List (Int × TType × Bool)) :
    List field_read → List Bool → Except go_error (List Bool)
  | [], _ => .error .protocol
  | r :: rest, isset =>
    if r.header.fieldTypeId == TType.STOP then .ok isset
    else
      match r.failed with
      | some e => .error e
      | none => read_loop cases rest (read_field cases isset r.header)

/-- The final checks of the emitted `Read` (lines 1811–1819): the position of the first
REQUIRED member in declaration order whose seen-flag is unset. -/
def first_missing : List (Int × TType × Bool) → List Bool → Option Nat
  | [], _ => none
  | c :: rest, isset =>
    if c.2.2 && !(isset.headD false) then some 0
    else (first_missing rest isset.tail).map (fun i => i + 1)

/-- The `Read` method that `generate_go_struct_reader` emits for the members `fields`
(lines 1700–1823), run on the rounds of its read loop: the field headers delivered by the
protocol, each with the error that the body of its round returns, if any. The calls
`ReadStructBegin` and `ReadStructEnd` return without error; `none` is the return of
`nil`. -/
def generated_Read (fields : List t_field) (reads : List field_read) :
    Except Failure (Option go_error) :=
  (reader_cases fields).bind fun cases =>
    match read_loop cases reads (List.replicate cases.length false) with
    | .error e => .ok (some e)
    | .ok isset =>
      match first_missing cases isset with
      | some i => .ok (some (.required_field_not_set i))
      | none => .ok none

/-- A Go value of the Go type of a field, of a container element or of a default holder.
A value of a struct type `*S` is nil or `struct_ptr` with the values of the fields in
declaration order; a slice or map is nil or holds its elements, a map in the order in which
`range` visits it. Pointer identity is not part of the model. -/
inductive go_value where
  /-- The nil pointer, slice or map. -/
  | nil
  | bool (b : Bool)
  /-- A value of an integer type or of an enum type. -/
  | int (n : Int)
  | float64 (d : cdouble)
  | string (s : List Char)
  /-- A non-nil byte slice. -/
  | bytes (b : List Char)
  /-- The pointer `&v` to a scalar or to a container. -/
  | pointer_to (v : go_value)
  /-- A non-nil pointer to a struct with the given field values. -/
  | struct_ptr (fields : List go_value)
  /-- A non-nil slice. -/
  | slice (elems : List go_value)
  /-- A non-nil map. -/
  | map (entries : List (go_value × go_value))

/-- The Go test `v == nil`. -/
def go_value.is_nil : go_value → Bool
  | .nil => true
  | _ => false

/-- The Go operator `a != b` on two values of one comparable scalar type (bool, integer,
float64 without NaN, string). -/
def go_ne (a b : go_value) : Bool :=
  match a, b with
  | .bool x, .bool y => x != y
  | .int x, .int y => x != y
  | .float64 x, .float64 y => x != y
  | .string x, .string y => x != y
  | _, _ => true

/-- The zero value of the Go type that `type_to_go_type_with_opt(type, pointer)` names: nil
for a pointer type, a struct (always a pointer), a container and a binary; otherwise the zero
of the scalar type. -/
def go_zero_value (type : t_type) (pointer : Bool) : go_value :=
  if pointer then .nil
  else
    match type.get_true_type with
    | .base_type .TYPE_BOOL _ => .bool false
    | .base_type .TYPE_STRING binary => if binary then .nil else .string []
    | .base_type .TYPE_DOUBLE _ => .float64 0
    | .base_type .TYPE_I8 _ => .int 0
    | .base_type .TYPE_I16 _ => .int 0
    | .base_type .TYPE_I32 _ => .int 0
    | .base_type .TYPE_I64 _ => .int 0
    | .enum _ => .int 0
    | _ => .nil

/-- The value of a member in the struct that the emitted constructor `New<Struct>()`
returns (lines 1528–1531 with `generate_go_struct_initializer`): the value `init` of the
emitted initializer when there is one, else the zero value of the field's Go type. The Go
type is `type_to_go_type_with_opt(fieldType, is_pointer_field)` when the struct takes the
branch of line 1457 (`tagged`, line 1479) and `type_to_go_type(fieldType)` when it does not
(line 1522), where no field is emitted as a pointer to a scalar. -/
def new_field_value (tagged : Bool) (m : t_field) (init : go_value) :
    Except Failure go_value :=
  (initializer_emitted m).bind fun e =>
    if e then .ok init
    else (is_pointer_field m).bind fun p => .ok (go_zero_value m.type_ (tagged && p))

/-- The value of the default holder of a member (lines 1538–1546), when it is declared: the
value `rendered` of its initializer when there is one, else the zero value of its Go type
`type_to_go_type_with_opt(fieldType, false)`. -/
def default_holder_value (m : t_field) (rendered : go_value) :
    Except Failure (Option go_value) :=
  (default_holder m).bind fun d =>
    .ok (d.map fun v =>
      match v with
      | some _ => rendered
      | none => go_zero_value m.type_ false)

/-- The Go function `bytes.Equal`: equal contents, a nil slice being empty. -/
def bytes_Equal (a b : go_value) : Bool :=
  let content : go_value → List Char := fun v =>
    match v with
    | .bytes l => l
    | _ => []
  content a == content b

/-- The value of the body of an emitted IsSet helper on a field value `field`, with `dflt`
the value of the default holder. -/
def eval_isset (body : isset_body) (field dflt : go_value) : Bool :=
  match body with
  | .ne_nil => !field.is_nil
  | .not_bytes_equal_default => !bytes_Equal field dflt
  | .ne_default => go_ne field dflt

/-- The emitted helper `IsSet<Field>()` of a member on a field value; `none` when no helper
is emitted. -/
def generated_IsSet (m : t_field) (field dflt : go_value) : Except Failure (Option Bool) :=
  (isset_helper m).bind fun b => .ok (b.map fun body => eval_isset body field dflt)

/-- The emitted getter `Get<Field>()` of a member (lines 1555–1571) on a field value;
`returned` is the value of the return expression of the last line (the field, dereferenced
when the getter's type asks for it). The guarded getter returns the default holder when
IsSet is false. -/
def generated_Get (m : t_field) (field dflt returned : go_value) : Except Failure go_value :=
  (getter_is_guarded m).bind fun guarded =>
    if guarded then
      (generated_IsSet m field dflt).bind fun set =>
        if set == some false then .ok dflt else .ok returned
    else .ok returned

/-! ### EnumEmitter -/

/-- Modelled from the spec: a value of an enum (`t_enum_value`): name and integer value. -/
structure t_enum_value where
  name_ : List Char
  value_ : Int
  deriving DecidableEq, Repr

/-- Modelled from the spec: an enum (`t_enum`): name and constants in declaration order. -/
structure t_enum where
  name_ : List Char
  constants_ : List t_enum_value
  deriving DecidableEq, Repr

/-- What `generate_enum` emits for one constant (lines 1051–1070): the value of the Go
constant, the text of the string literal that `String()` returns for it, and the texts of
the string literals of its `case` in `FromString`. -/
structure enum_case where
  value : Int
  to_string : List Char
  from_labels : List (List Char)
  deriving DecidableEq, Repr

/-- The loop of `generate_enum` over the constants (lines 1051–1070); `escape_string` is the
escaping function of the base generator, which is not part of the sources. -/
def generate_enum_cases (escape_string : List Char → List Char) (tenum : t_enum) :
    List enum_case :=
  tenum.constants_.map fun c =>
    let value : Int := c.value_
    let iter_std_name := escape_string c.name_
    let iter_name := c.name_
    { value := value
      to_string := iter_std_name
      from_labels :=
        if iter_std_name ≠ escape_string iter_name then [iter_std_name, escape_string iter_name]
        else [iter_std_name] }

/-- The emitted method `String()` (lines 1040–1074) on the value `p`: the literal of the first
`case` whose constant equals `p`, else the literal `<UNSET>`; `go_literal` gives the string
value of a Go string literal from its text. -/
def generated_String (go_literal : List Char → List Char) (cases : List enum_case) (p : Int) :
    List Char :=
  match cases.find? (fun c => c.value == p) with
  | some c => go_literal c.to_string
  | none => go_literal "<UNSET>".toList

/-- The emitted function `<Enum>FromString(s)` (lines 1043–1078): the constant of the first
`case` one of whose literals equals `s`, else the zero value and the error. -/
def generated_FromString (go_literal : List Char → List Char) (cases : List enum_case)
    (s : List Char) : Int × Option go_error :=
  match cases.find? (fun c => c.from_labels.any (fun l => go_literal l == s)) with
  | some c => (c.value, none)
  | none => (0, some .not_a_valid_enum_string)

/-! ### Inputs and vocabulary of the struct properties -/

/-- The union with no members. -/
def union_empty : t_struct :=
  { name_ := "U".toList, members_ := [], is_union_ := true, is_xception_ := false }

/-- A union whose only member is an `i32` with the default 5. -/
def union_default_only : t_struct :=
  { name_ := "U".toList
    members_ := [⟨"x".toList, 1, .base_type .TYPE_I32 false, .T_OPT_IN_REQ_OUT,
      some (.CV_INTEGER 5), []⟩]
    is_union_ := true
    is_xception_ := false }

/-- A union of an `i32` and a string, both without default. -/
def union_two : t_struct :=
  { name_ := "U".toList
    members_ := [⟨"a".toList, 1, .base_type .TYPE_I32 false, .T_OPT_IN_REQ_OUT, none, []⟩,
                 ⟨"b".toList, 2, .base_type .TYPE_STRING false, .T_OPT_IN_REQ_OUT, none, []⟩]
    is_union_ := true
    is_xception_ := false }

/-- Whether a member is setable, when the test of line 1551 returns. -/
def setable (m : t_field) : Bool :=
  match is_setable m with
  | .ok b => b
  | .error _ => false

/-- The members that `CountSetFields` counts when set: not REQUIRED and setable. -/
def counted (m : t_field) : Bool := !(m.req_ == e_req.T_REQUIRED) && setable m

/-- A REQUIRED member at position `i` whose wire id does not occur with its expected wire
type among the headers `hs`. -/
def missing_required (fields : List t_field) (hs : List field_header) (i : Nat) : Prop :=
  ∃ m, fields[i]? = some m ∧ m.req_ = e_req.T_REQUIRED ∧
    ∀ h ∈ hs, ¬ (h.fieldId = m.key_ ∧ expected_wire_type m = .ok h.fieldTypeId)

/-- Whether the header `h` makes the emitted reader set the seen-flag of the case `c`:
same field id, the expected wire type, and a REQUIRED member. -/
def sets_flag (h : field_header) (c : Int × TType × Bool) : Bool :=
  c.1 == h.fieldId && h.fieldTypeId == c.2.1 && c.2.2

/-- The seen-flags `isset` with the flag of every case that satisfies `f` set. -/
def or_flags : List (Int × TType × Bool) → List Bool → ((Int × TType × Bool) → Bool) → List Bool
  | [], bs, _ => bs
  | _ :: _, [], _ => []
  | c :: cs, b :: bs, f => (b || f c) :: or_flags cs bs f

/-- The position of the first element of a list that satisfies `p`. -/
def find_first {α : Type} (p : α → Bool) : List α → Option Nat
  | [] => none
  | x :: xs => if p x then some 0 else (find_first p xs).map (fun i => i + 1)

/-- The `case` line of a member whose expected wire type is computed. -/
def case_of (m : t_field) : Int × TType × Bool :=
  (m.key_,
   (match expected_wire_type m with
    | .ok t => t
    | .error _ => TType.STOP),
   m.req_ == e_req.T_REQUIRED)

/-- Two REQUIRED members: `a` with id 1 of type `i32`, `b` with id 2 of type string. -/
def read_example_fields : List t_field :=
  [⟨"a".toList, 1, .base_type .TYPE_I32 false, .T_REQUIRED, none, []⟩,
   ⟨"b".toList, 2, .base_type .TYPE_STRING false, .T_REQUIRED, none, []⟩]

/-- The headers (I32, 1) and (I32, 2). -/
def read_example_headers : List field_header := [⟨TType.I32, 1⟩, ⟨TType.I32, 2⟩]

/-- The member at a position, if any, is OPTIONAL. -/
def optional_at (members : List t_field) (i : Nat) : Prop :=
  ∀ m, members[i]? = some m → m.req_ = e_req.T_OPTIONAL

/-! ### The emitted codec of a struct: `Write`, `Read` and `Equals` by their meaning -/

/-- Outcomes of the emitted codec other than a returned value. -/
inductive codec_failure where
  /-- The generator throws: no Go code is emitted. -/
  | generation (f : Failure)
  /-- The emitted code calls a helper that is not emitted. -/
  | go_compile_error
  /-- The Go function returns this error. -/
  | returned (e : go_error)
  /-- A nil pointer is dereferenced, or a slice is indexed out of range, at run time. -/
  | panic
  /-- The value is not of the Go type of the field. -/
  | ill_typed
  /-- The iteration budget of the embedding ran out. -/
  | out_of_fuel
  deriving DecidableEq

/-- A generator outcome as a codec outcome. -/
def lift_generation {α : Type} (x : Except Failure α) : Except codec_failure α :=
  match x with
  | .ok a => .ok a
  | .error f => .error (.generation f)

/-- The struct of the program that a struct type refers to. -/
def find_struct (structs : List t_struct) (name : List Char) : Option t_struct :=
  structs.find? (fun s => s.name_ == name)

/-- Whether an integer is a value of the signed Go integer type of `bits` bits. -/
def in_int_range (bits : Nat) (n : Int) : Bool :=
  decide (-(2 : Int) ^ (bits - 1) ≤ n) && decide (n < (2 : Int) ^ (bits - 1))

/-- The Go conversion of an integer to the signed integer type of `bits` bits. -/
def go_int_conv (bits : Nat) (n : Int) : Int :=
  (n + (2 : Int) ^ (bits - 1)) % (2 : Int) ^ bits - (2 : Int) ^ (bits - 1)

/-- The element type of a list or set type (`get_elem_type()`); the generator calls it on
lists and sets only, and another type is returned as it is. -/
def t_type.get_elem_type : t_type → t_type
  | .list e => e
  | .set e => e
  | t => t

/-- The key type of a map type (`get_key_type()`); the generator calls it on maps only, and
another type is returned as it is. -/
def t_type.get_key_type : t_type → t_type
  | .map k _ => k
  | t => t

/-- The value type of a map type (`get_val_type()`); the generator calls it on maps only,
and another type is returned as it is. -/
def t_type.get_val_type : t_type → t_type
  | .map _ v => v
  | t => t

/-- The field that the container code makes for an element, a key or a value:
`t_field efield(elem_type, "")` with `set_req(T_OPT_IN_REQ_OUT)` (lines 3699–3722 and
3455–3490). -/
def elem_field (type : t_type) : t_field :=
  ⟨[], 0, type, e_req.T_OPT_IN_REQ_OUT, none, []⟩

/-- The Go value of the expression that `render_const_value(type, value, name)` renders for
a constant of a base or enum type (lines 1233–1284, `opt` false); the text rendered for a
string constant is taken to denote the string of the constant. -/
def const_go_value (type : t_type) (value : t_const_value) : Except Failure go_value :=
  let type := type.get_true_type
  if type.is_base_type then
    match type.get_base with
    | .TYPE_STRING =>
      if type.is_binary then .ok (.bytes value.get_string) else .ok (.string value.get_string)
    | .TYPE_BOOL => .ok (.bool (decide (value.get_integer > 0)))
    | .TYPE_I8 => .ok (.int value.get_integer)
    | .TYPE_I16 => .ok (.int value.get_integer)
    | .TYPE_I32 => .ok (.int value.get_integer)
    | .TYPE_I64 => .ok (.int value.get_integer)
    | .TYPE_DOUBLE =>
      if value.is_integer then .ok (.float64 value.get_integer)
      else .ok (.float64 value.get_double)
    | .TYPE_VOID => .error (.thrown "compiler error: no const of base type void".toList)
  else .ok (.int value.get_integer)

/-- The Go value of the expression rendered for the default of a member, in its initializer
and in its default holder: for a base or enum type by `const_go_value`; for a container or
struct type it is the value `render m` (no emitted code compares such a default). -/
def rendered_default (render : t_field → go_value) (m : t_field) : Except Failure go_value :=
  match m.value_ with
  | none => .ok .nil
  | some value =>
    if m.type_.get_true_type.is_base_type || m.type_.get_true_type.is_enum then
      const_go_value m.type_ value
    else .ok (render m)

/-- The field values of the struct literal that `generate_go_struct_initializer` emits
(lines 1394–1412), in declaration order; `tagged` tells the branch of line 1457 that the
struct takes. -/
def new_fields (tagged : Bool) (render : t_field → go_value) :
    List t_field → Except Failure (List go_value)
  | [] => .ok []
  | m :: rest =>
    (rendered_default render m).bind fun init =>
      (new_field_value tagged m init).bind fun v =>
        (new_fields tagged render rest).bind fun vs => .ok (v :: vs)

/-- The result of the emitted helper `IsSet<Field>()` of a member on the value of the field;
the default holder holds the rendered default. -/
def field_IsSet (render : t_field → go_value) (m : t_field) (field : go_value) :
    Except codec_failure Bool :=
  (lift_generation (rendered_default render m)).bind fun r =>
    (lift_generation (default_holder_value m r)).bind fun d =>
      (lift_generation (generated_IsSet m field (d.getD .nil))).bind fun b =>
        match b with
        | some b => .ok b
        | none => .error .go_compile_error

/-- The Go operator `==` on two map keys: the keys of one comparable scalar type are
compared by value; pointers are distinct objects. -/
def go_key_eq (a b : go_value) : Bool :=
  match a, b with
  | .bool x, .bool y => x == y
  | .int x, .int y => x == y
  | .float64 x, .float64 y => x == y
  | .string x, .string y => x == y
  | _, _ => false

/-- The Go expression `m[k]` on the entries of a map: the value of the entry with that key,
else the zero value of the value type. -/
def go_map_index (zero : go_value) : List (go_value × go_value) → go_value → go_value
  | [], _ => zero
  | (key, val) :: rest, k => if go_key_eq key k then val else go_map_index zero rest k

/-- The Go statement `m[k] = v` on the entries of a map. -/
def go_map_assign : List (go_value × go_value) → go_value → go_value →
    List (go_value × go_value)
  | [], k, v => [(k, v)]
  | (key, val) :: rest, k, v =>
    if go_key_eq key k then (key, v) :: rest else (key, val) :: go_map_assign rest k v

/-- The comparison that `generate_go_equals` emits for a base or enum type (lines
3740–3773), as the value of the emitted test `tgt != src`; `ttype` is the resolved type. -/
def differs_scalar (ttype : t_type) (tgt src : go_value) : Except codec_failure Bool :=
  if ttype.is_base_type then
    match ttype.get_base with
    | .TYPE_VOID => .error (.generation (.thrown "compiler error: cannot equals void".toList))
    | .TYPE_STRING =>
      if ttype.is_binary then .ok (!bytes_Equal tgt src) else .ok (go_ne tgt src)
    | _ => .ok (go_ne tgt src)
  else if ttype.is_enum then .ok (go_ne tgt src)
  else .error (.generation (.thrown "compiler error: Invalid type in generate_go_equals".toList))

/-- The members of the struct that a struct type refers to, as the emitted code of the
struct was generated from them (none when the program has no such struct). -/
def struct_members (structs : List t_struct) (type : t_type) : List t_field :=
  match find_struct structs type.get_name with
  | some s => definition_members s
  | none => []

/-- The fields of a non-nil struct value. -/
def go_fields : go_value → List go_value
  | .struct_ptr fields => fields
  | _ => []

/-- The elements of a slice value (none for the nil slice). -/
def go_elems : go_value → List go_value
  | .slice elems => elems
  | _ => []

/-- The entries of a map value (none for the nil map). -/
def go_entries : go_value → List (go_value × go_value)
  | .map entries => entries
  | _ => []

/-- What a pointer points to. -/
def go_deref : go_value → go_value
  | .pointer_to x => x
  | _ => .nil

/-- The Go expression `len(v)` of a slice or map. -/
def go_len (v : go_value) : Nat := (go_elems v).length + (go_entries v).length

/-- The emitted statements `if … { return false }` of the members in wire-id order, from
the results of the single members: `.ok false` is the return of false. -/
def all_in_order (results : List (Except codec_failure Bool)) :
    List Nat → Except codec_failure Bool
  | [] => .ok true
  | pos :: rest =>
    match results[pos]? with
    | none => .error .ill_typed
    | some r => r.bind fun b => if b then all_in_order results rest else .ok false

/-- The emitted method `Equals` (lines 1959–2005) on a non-nil receiver with the fields
`tfs`, from the results of the comparisons of the members: the two pointers are tested
first (two non-nil pointers point to distinct objects). -/
def equals_struct_ptr (structs : List t_struct) (ori_type : t_type) (tfs : List go_value)
    (src : go_value) (results : List (Except codec_failure Bool)) : Except codec_failure Bool :=
  let ttype := ori_type.get_true_type
  if ttype.is_struct || ttype.is_xception then
    match find_struct structs ttype.get_name with
    | none => .error .ill_typed
    | some s =>
      match src with
      | .nil => .ok false
      | .struct_ptr sfs =>
        if tfs.length != (definition_members s).length
            || sfs.length != (definition_members s).length then .error .ill_typed
        else all_in_order results s.sorted_positions
      | _ => .error .ill_typed
  else .error .ill_typed

/-- The code of `generate_go_equals_container` (lines 3795–3828) on a non-nil slice `txs`,
from the result of the loop over its elements. -/
def equals_slice (ori_type : t_type) (txs : List go_value) (src : go_value)
    (loop : Except codec_failure Bool) : Except codec_failure Bool :=
  let ttype := ori_type.get_true_type
  if ttype.is_list || ttype.is_set then
    match src with
    | .nil => .ok (txs.length == 0)
    | .slice sxs => if txs.length != sxs.length then .ok false else loop
    | _ => .error .ill_typed
  else .error .ill_typed

/-- The code of `generate_go_equals_container` (lines 3795–3828) on a non-nil map `tes`, from
the result of the loop over its entries. -/
def equals_map (ori_type : t_type) (tes : List (go_value × go_value)) (src : go_value)
    (loop : Except codec_failure Bool) : Except codec_failure Bool :=
  let ttype := ori_type.get_true_type
  if ttype.is_map then
    match src with
    | .nil => .ok (tes.length == 0)
    | .map ses => if tes.length != ses.length then .ok false else loop
    | _ => .error .ill_typed
  else .error .ill_typed

/-- The code of `generate_go_equals` on a base or enum value (lines 3740–3773): control
passes when the emitted test `tgt != src` is false. -/
def equals_scalar (ori_type : t_type) (tgt src : go_value) : Except codec_failure Bool :=
  (differs_scalar ori_type.get_true_type tgt src).bind fun d => .ok (!d)

/-- The code of `generate_go_equals` on a nil `tgt`: a nil struct pointer (the receiver of
`Equals`), a nil slice or map, or a nil binary. -/
def equals_nil (ori_type : t_type) (src : go_value) : Except codec_failure Bool :=
  let ttype := ori_type.get_true_type
  if ttype.is_struct || ttype.is_xception then
    match src with
    | .nil => .ok true
    | .struct_ptr _ => .ok false
    | _ => .error .ill_typed
  else if ttype.is_container then .ok (go_len src == 0)
  else equals_scalar ori_type .nil src

/-- The comparison of a non-nil pointer field with `src` (lines 1989–1998), from the result
of the comparison of what the two point to. -/
def equals_deref (src : go_value) (deref : Except codec_failure Bool) :
    Except codec_failure Bool :=
  match src with
  | .nil => .ok false
  | .pointer_to _ => deref
  | _ => .error .ill_typed

/-- The comparison of a nil pointer field with `src` (lines 1989–1995). -/
def equals_nil_pointer (src : go_value) : Except codec_failure Bool :=
  match src with
  | .nil => .ok true
  | .pointer_to _ => .ok false
  | _ => .error .ill_typed

/-- The comparison that `generate_go_struct_equals` emits for a member (lines 1979–2001),
from the results of the two forms: a pointer field of a base, enum or container type is
compared as a pointer and then by what it points to (`as_pointer`), every other field by
`generate_go_equals` (`direct`). -/
def equals_field_with (m : t_field) (as_pointer direct : Except codec_failure Bool) :
    Except codec_failure Bool :=
  (lift_generation (is_pointer_field m)).bind fun pointer =>
    let ttype := m.type_.get_true_type
    if pointer && (ttype.is_base_type || ttype.is_enum || ttype.is_container) then as_pointer
    else direct

mutual

/-- The statements that `generate_go_equals(ori_type, tgt, src)` emits (lines 3728–3828), on
the values of `tgt` and `src`: `.ok false` when they return false, `.ok true` when control
passes them. A struct is compared by its emitted `Equals` method. -/
def equals_value (structs : List t_struct) (ori_type : t_type) :
    go_value → go_value → Except codec_failure Bool
  | .struct_ptr tfs, src =>
    equals_struct_ptr structs ori_type tfs src
      (equals_fields structs (struct_members structs ori_type.get_true_type) tfs (go_fields src))
  | .slice txs, src =>
    equals_slice ori_type txs src
      (equals_elems structs ori_type.get_true_type.get_elem_type txs (go_elems src))
  | .map tes, src =>
    equals_map ori_type tes src
      (equals_entries structs ori_type.get_true_type.get_val_type (go_entries src) tes)
  | .pointer_to _, _ => .error .ill_typed
  | .nil, src => equals_nil ori_type src
  | .bool b, src => equals_scalar ori_type (.bool b) src
  | .int n, src => equals_scalar ori_type (.int n) src
  | .float64 x, src => equals_scalar ori_type (.float64 x) src
  | .string s, src => equals_scalar ori_type (.string s) src
  | .bytes b, src => equals_scalar ori_type (.bytes b) src
termination_by structural tgt _ => tgt

/-- The comparison of a pointer field of a base, enum or container type with `src` (lines
1987–1998). -/
def equals_pointer (structs : List t_struct) (ori_type : t_type) :
    go_value → go_value → Except codec_failure Bool
  | .pointer_to x, src => equals_deref src (equals_value structs ori_type x (go_deref src))
  | .nil, src => equals_nil_pointer src
  | .struct_ptr _, _ => .error .ill_typed
  | .slice _, _ => .error .ill_typed
  | .map _, _ => .error .ill_typed
  | .bool _, _ => .error .ill_typed
  | .int _, _ => .error .ill_typed
  | .float64 _, _ => .error .ill_typed
  | .string _, _ => .error .ill_typed
  | .bytes _, _ => .error .ill_typed
termination_by structural tgt _ => tgt

/-- The comparisons of the single members that `generate_go_struct_equals` emits (lines
1975–2002), in declaration order. -/
def equals_fields (structs : List t_struct) :
    List t_field → List go_value → List go_value → List (Except codec_failure Bool)
  | m :: ms, t :: ts, s :: ss =>
    equals_field_with m (equals_pointer structs m.type_ t s) (equals_value structs m.type_ t s)
      :: equals_fields structs ms ts ss
  | _, _, _ => []
termination_by structural _ ts _ => ts

/-- The loop `for i, _tgt := range tgt` over a list or set (lines 3818–3824); the lengths
have been compared before. -/
def equals_elems (structs : List t_struct) (elem : t_type) :
    List go_value → List go_value → Except codec_failure Bool
  | [], _ => .ok true
  | _ :: _, [] => .error .panic
  | t :: ts, s :: ss =>
    (equals_value structs elem t s).bind fun b =>
      if b then equals_elems structs elem ts ss else .ok false
termination_by structural ts _ => ts

/-- The loop `for k, _tgt := range tgt` over a map (lines 3802–3808): the value of each
entry is compared with `src[k]`. -/
def equals_entries (structs : List t_struct) (val : t_type) (src : List (go_value × go_value)) :
    List (go_value × go_value) → Except codec_failure Bool
  | [] => .ok true
  | (k, t) :: rest =>
    (equals_value structs val t (go_map_index (go_zero_value val false) src k)).bind fun b =>
      if b then equals_entries structs val src rest else .ok false
termination_by structural es => es

end

/-- The emitted method `Equals` of the struct `s` (lines 1959–2005): `p.Equals(other)`. -/
def struct_Equals (structs : List t_struct) (s : t_struct) (p other : go_value) :
    Except codec_failure Bool :=
  equals_value structs (.struct s.name_ s.is_xception_) p other

/-- The protocol call that `generate_serialize_field` emits for a value of a base or enum
type (lines 3516–3574), on the value written; `type` is the resolved type. The argument is
converted to the Go type of the call. -/
def write_scalar (type : t_type) (inkey : Bool) (v : go_value) :
    Except codec_failure (List tok) :=
  if type.is_base_type then
    match type.get_base with
    | .TYPE_VOID =>
      .error (.generation (.thrown "compiler error: cannot serialize void field".toList))
    | .TYPE_STRING =>
      if type.is_binary && !inkey then
        match v with
        | .bytes b => .ok [tok.String b]
        | .nil => .ok [tok.String []]
        | _ => .error .ill_typed
      else
        match v with
        | .string s => .ok [tok.String s]
        | _ => .error .ill_typed
    | .TYPE_BOOL =>
      match v with
      | .bool b => .ok [tok.Bool b]
      | _ => .error .ill_typed
    | .TYPE_I8 =>
      match v with
      | .int n => if in_int_range 8 n then .ok [tok.Byte (go_int_conv 8 n)] else .error .ill_typed
      | _ => .error .ill_typed
    | .TYPE_I16 =>
      match v with
      | .int n => if in_int_range 16 n then .ok [tok.I16 (go_int_conv 16 n)] else .error .ill_typed
      | _ => .error .ill_typed
    | .TYPE_I32 =>
      match v with
      | .int n => if in_int_range 32 n then .ok [tok.I32 (go_int_conv 32 n)] else .error .ill_typed
      | _ => .error .ill_typed
    | .TYPE_I64 =>
      match v with
      | .int n => if in_int_range 64 n then .ok [tok.I64 (go_int_conv 64 n)] else .error .ill_typed
      | _ => .error .ill_typed
    | .TYPE_DOUBLE =>
      match v with
      | .float64 d => .ok [tok.Double d]
      | _ => .error .ill_typed
  else if type.is_enum then
    match v with
    | .int n => if in_int_range 64 n then .ok [tok.I32 (go_int_conv 32 n)] else .error .ill_typed
    | _ => .error .ill_typed
  else
    .error (.generation (.thrown "compiler error: Invalid type in generate_serialize_field".toList))

/-- The calls of the per-field write routines in the emitted `Write` (lines 1878–1892), in
wire-id order, from the items that each routine writes: the first failing routine ends the
writing. -/
def collect_chunks (chunks : List (Except codec_failure (List tok))) :
    List Nat → Except codec_failure (List tok)
  | [] => .ok []
  | pos :: rest =>
    match chunks[pos]? with
    | none => .error .ill_typed
    | some c => c.bind fun a => (collect_chunks chunks rest).bind fun b => .ok (a ++ b)

/-- The emitted `CountSetFields` (lines 1662–1686) on a receiver with the given fields. -/
def receiver_CountSetFields (render : t_field → go_value) :
    List t_field → List go_value → Except codec_failure Nat
  | m :: ms, f :: fs =>
    if m.req_ == e_req.T_REQUIRED then receiver_CountSetFields render ms fs
    else
      (lift_generation (is_setable m)).bind fun b =>
        if b then
          (field_IsSet render m f).bind fun set =>
            (receiver_CountSetFields render ms fs).bind fun n => .ok (if set then n + 1 else n)
        else receiver_CountSetFields render ms fs
  | _, _ => .ok 0

/-- The union check at the start of the emitted `Write` (lines 1858–1864) on a non-nil
receiver: the error returned, if any. -/
def union_check (render : t_field → go_value) (s : t_struct) (fields : List go_value) :
    Except codec_failure (Option go_error) :=
  (lift_generation (num_setable (definition_members s))).bind fun n =>
    if s.is_union_ && decide (n > 0) then
      (receiver_CountSetFields render (definition_members s) fields).bind fun c =>
        if c != 1 then .ok (some (.union_count c)) else .ok none
    else .ok none

/-- The emitted `Write` of a struct (lines 1856–1902) on a non-nil receiver with the given
fields, from the items that the per-field write routines write. -/
def write_struct_with (render : t_field → go_value) (s : t_struct) (fields : List go_value)
    (chunks : List (Except codec_failure (List tok))) : Except codec_failure (List tok) :=
  if fields.length != (definition_members s).length then .error .ill_typed
  else
    (union_check render s fields).bind fun r =>
      match r with
      | some e => .error (.returned e)
      | none =>
        (collect_chunks chunks s.sorted_positions).bind fun body =>
          .ok ([tok.StructBegin s.name_] ++ body ++ [tok.FieldStop, tok.StructEnd])

/-- Whether one of the members has no IsSet helper (lines 1623–1647). -/
def missing_isset_helper : List t_field → Except Failure Bool
  | [] => .ok false
  | m :: rest =>
    (isset_helper m).bind fun h =>
      (missing_isset_helper rest).bind fun b => .ok (h.isNone || b)

/-- The emitted `Write` of a struct on the nil receiver: the union check calls
`CountSetFields`, whose IsSet helpers dereference the receiver, and which does not compile
when it calls a helper that is not emitted; without the check the struct is written with no
fields (line 1875). -/
def write_struct_nil (s : t_struct) : Except codec_failure (List tok) :=
  (lift_generation (num_setable (definition_members s))).bind fun n =>
    (lift_generation (countsetfields_members (definition_members s))).bind fun cm =>
      if s.is_union_ && decide (n > 0) then
        (lift_generation (missing_isset_helper cm)).bind fun missing =>
          if missing then .error .go_compile_error
          else if cm.isEmpty then .error (.returned (.union_count 0)) else .error .panic
      else .ok [tok.StructBegin s.name_, tok.FieldStop, tok.StructEnd]

/-- The per-field write routine of a member (lines 1920–1949) around the items `body` that
the code of `generate_serialize_field` writes for the field; the name of the field header
stands for the Go string literal that `escape_string` makes of the field name. -/
def write_field_frame (render : t_field → go_value) (m : t_field) (field : go_value)
    (body : Except codec_failure (List tok)) : Except codec_failure (List tok) :=
  let frame : Except codec_failure (List tok) :=
    (lift_generation (type_to_enum m.type_)).bind fun ty =>
      body.bind fun b => .ok ([tok.FieldBegin m.name_ ty m.key_] ++ b ++ [tok.FieldEnd])
  if m.req_ == e_req.T_OPTIONAL then
    (field_IsSet render m field).bind fun set => if set then frame else .ok []
  else frame

/-- The items around the elements of a list (lines 3616–3620 and 3685–3687). -/
def list_frame (elem : t_type) (size : Nat) (body : Except codec_failure (List tok)) :
    Except codec_failure (List tok) :=
  (lift_generation (type_to_enum elem)).bind fun ty =>
    body.bind fun b => .ok ([tok.ListBegin ty size] ++ b ++ [tok.ListEnd])

/-- The items around the elements of a set (lines 3610–3614 and 3681–3683). -/
def set_frame (elem : t_type) (size : Nat) (body : Except codec_failure (List tok)) :
    Except codec_failure (List tok) :=
  (lift_generation (type_to_enum elem)).bind fun ty =>
    body.bind fun b => .ok ([tok.SetBegin ty size] ++ b ++ [tok.SetEnd])

/-- The items around the entries of a map (lines 3603–3608 and 3677–3679). -/
def map_frame (key val : t_type) (size : Nat) (body : Except codec_failure (List tok)) :
    Except codec_failure (List tok) :=
  (lift_generation (type_to_enum key)).bind fun kt =>
    (lift_generation (type_to_enum val)).bind fun vt =>
      body.bind fun b => .ok ([tok.MapBegin kt vt size] ++ b ++ [tok.MapEnd])

/-- Whether `x` equals, by the emitted comparison, one of the elements after it. -/
def equals_any (structs : List t_struct) (elem : t_type) (x : go_value) :
    List go_value → Except codec_failure Bool
  | [] => .ok false
  | y :: ys =>
    (equals_value structs elem x y).bind fun b =>
      if b then .ok true else equals_any structs elem x ys

/-- The uniqueness check that the emitted code runs before it writes a set (lines
3635–3660): the error returned, if any. -/
def set_check (structs : List t_struct) (elem : t_type) :
    List go_value → Except codec_failure (Option go_error)
  | [] => .ok none
  | x :: xs =>
    (equals_any structs elem x xs).bind fun b =>
      if b then .ok (some .slice_not_unique) else set_check structs elem xs

/-- The call of the emitted `Write` method of a struct-typed field or element (lines
3587–3593) on a non-nil pointer, from the items that the per-field write routines write. -/
def write_struct_ptr (structs : List t_struct) (render : t_field → go_value) (tfield : t_field)
    (fields : List go_value) (chunks : List (Except codec_failure (List tok))) :
    Except codec_failure (List tok) :=
  let type := tfield.type_.get_true_type
  if type.is_struct || type.is_xception then
    match find_struct structs type.get_name with
    | none => .error .ill_typed
    | some s => write_struct_with render s fields chunks
  else .error .ill_typed

/-- The code of `generate_serialize_container` (lines 3595–3689) on a non-nil slice, from the
items `body` that the loop over its elements writes; `type` is the resolved type. -/
def container_slice (structs : List t_struct) (type : t_type) (elems : List go_value)
    (body : Except codec_failure (List tok)) : Except codec_failure (List tok) :=
  match type with
  | .list e => list_frame e elems.length body
  | .set e =>
    (set_check structs e elems).bind fun r =>
      match r with
      | some err => .error (.returned err)
      | none => set_frame e elems.length body
  | _ => .error .ill_typed

/-- The code of `generate_serialize_container` on a non-nil map with `size` entries. -/
def container_map (type : t_type) (size : Nat) (body : Except codec_failure (List tok)) :
    Except codec_failure (List tok) :=
  match type with
  | .map k v => map_frame k v size body
  | _ => .error .ill_typed

/-- The code of `generate_serialize_container` on a nil slice or map: its length is 0 and
the loop runs over nothing. -/
def container_nil (type : t_type) : Except codec_failure (List tok) :=
  match type with
  | .list e => list_frame e 0 (.ok [])
  | .set e => set_frame e 0 (.ok [])
  | .map k v => map_frame k v 0 (.ok [])
  | _ => .error .ill_typed

/-- A value that is no pointer is a value of the Go type of the field only when the field
is no pointer field; `items` is what the emitted code then writes. -/
def unless_pointer (tfield : t_field) (items : Except codec_failure (List tok)) :
    Except codec_failure (List tok) :=
  (lift_generation (is_pointer_field tfield)).bind fun pointer =>
    if pointer then .error .ill_typed else items

/-- The code of `generate_serialize_field` on the non-nil value `&x` of a pointer field of a
container, base or enum type: the value is dereferenced (lines 3519–3521 and 3599–3601);
`container` is what the container code writes for `x`. -/
def write_pointer (tfield : t_field) (inkey : Bool) (x : go_value)
    (container : Except codec_failure (List tok)) : Except codec_failure (List tok) :=
  let type := tfield.type_.get_true_type
  if type.is_struct || type.is_xception then .error .ill_typed
  else
    (lift_generation (is_pointer_field tfield)).bind fun pointer =>
      if !pointer then .error .ill_typed
      else if type.is_container then container
      else write_scalar type inkey x

/-- The code of `generate_serialize_field` on a nil value: the emitted `Write` of a struct
is called on the nil receiver, a nil pointer is dereferenced, a nil slice or map is written
as an empty one, a nil binary as an empty one. -/
def write_nil (structs : List t_struct) (tfield : t_field) (inkey : Bool) :
    Except codec_failure (List tok) :=
  let type := tfield.type_.get_true_type
  if type.is_struct || type.is_xception then
    match find_struct structs type.get_name with
    | none => .error .ill_typed
    | some s => write_struct_nil s
  else
    (lift_generation (is_pointer_field tfield)).bind fun pointer =>
      if pointer then .error .panic
      else if type.is_container then container_nil type
      else write_scalar type inkey .nil

mutual

/-- The code that `generate_serialize_field(tfield, prefix, inkey)` emits (lines 3500–3579),
on the value of the field or element: the items it writes. A struct is written by its
emitted `Write` method (lines 1856–1902), a container by the code of
`generate_serialize_container`, a base or enum value by one protocol call; the value of a
pointer field is dereferenced. -/
def write_value (structs : List t_struct) (render : t_field → go_value) (tfield : t_field)
    (inkey : Bool) : go_value → Except codec_failure (List tok)
  | .struct_ptr fields =>
    write_struct_ptr structs render tfield fields
      (write_fields structs render (struct_members structs tfield.type_.get_true_type) fields)
  | .pointer_to x =>
    write_pointer tfield inkey x (write_container structs render tfield.type_.get_true_type x)
  | .slice elems =>
    unless_pointer tfield
      (container_slice structs tfield.type_.get_true_type elems
        (write_elems structs render tfield.type_.get_true_type.get_elem_type elems))
  | .map entries =>
    unless_pointer tfield
      (container_map tfield.type_.get_true_type entries.length
        (write_entries structs render tfield.type_.get_true_type.get_key_type
          tfield.type_.get_true_type.get_val_type entries))
  | .nil => write_nil structs tfield inkey
  | .bool b => unless_pointer tfield (write_scalar tfield.type_.get_true_type inkey (.bool b))
  | .int n => unless_pointer tfield (write_scalar tfield.type_.get_true_type inkey (.int n))
  | .float64 d =>
    unless_pointer tfield (write_scalar tfield.type_.get_true_type inkey (.float64 d))
  | .string s => unless_pointer tfield (write_scalar tfield.type_.get_true_type inkey (.string s))
  | .bytes b => unless_pointer tfield (write_scalar tfield.type_.get_true_type inkey (.bytes b))
termination_by structural v => v

/-- The code that `generate_serialize_container` emits (lines 3595–3689), on the
dereferenced container of a pointer field; `type` is the resolved type. -/
def write_container (structs : List t_struct) (render : t_field → go_value) (type : t_type) :
    go_value → Except codec_failure (List tok)
  | .slice elems =>
    container_slice structs type elems (write_elems structs render type.get_elem_type elems)
  | .map entries =>
    container_map type entries.length
      (write_entries structs render type.get_key_type type.get_val_type entries)
  | .nil => container_nil type
  | .struct_ptr _ => .error .ill_typed
  | .pointer_to _ => .error .ill_typed
  | .bool _ => .error .ill_typed
  | .int _ => .error .ill_typed
  | .float64 _ => .error .ill_typed
  | .string _ => .error .ill_typed
  | .bytes _ => .error .ill_typed
termination_by structural v => v

/-- The items that the per-field write routines of the members write for the fields of a
receiver, in declaration order. -/
def write_fields (structs : List t_struct) (render : t_field → go_value) :
    List t_field → List go_value → List (Except codec_failure (List tok))
  | m :: ms, field :: fields =>
    write_field_frame render m field (write_value structs render m false field)
      :: write_fields structs render ms fields
  | _, _ => []
termination_by structural _ fields => fields

/-- The loop over the elements of a list or set (lines 3661–3673). -/
def write_elems (structs : List t_struct) (render : t_field → go_value) (elem : t_type) :
    List go_value → Except codec_failure (List tok)
  | [] => .ok []
  | x :: xs =>
    (write_value structs render (elem_field elem) false x).bind fun a =>
      (write_elems structs render elem xs).bind fun b => .ok (a ++ b)
termination_by structural xs => xs

/-- The loop over the entries of a map (lines 3626–3632 with 3695–3705), in the order in
which `range` visits them. -/
def write_entries (structs : List t_struct) (render : t_field → go_value) (key val : t_type) :
    List (go_value × go_value) → Except codec_failure (List tok)
  | [] => .ok []
  | (k, v) :: rest =>
    (write_value structs render (elem_field key) true k).bind fun a =>
      (write_value structs render (elem_field val) false v).bind fun b =>
        (write_entries structs render key val rest).bind fun c => .ok (a ++ b ++ c)
termination_by structural es => es

end

/-- The outcome of emitted reading code: the value read and the items left. -/
abbrev reading (α : Type) : Type := Except codec_failure (α × List tok)

/-- The protocol call that `generate_deserialize_field` emits for a base or enum type (lines
3263–3311) on the next item, with the conversion of lines 3320–3324: the value assigned. A
call that does not match the item returns an error. -/
def read_call (type : t_type) (inkey : Bool) (t : tok) : Except codec_failure go_value :=
  if type.is_base_type then
    match type.get_base with
    | .TYPE_VOID =>
      .error (.generation (.thrown "compiler error: cannot serialize void field".toList))
    | .TYPE_STRING =>
      match t with
      | .String s => .ok (if type.is_binary && !inkey then .bytes s else .string s)
      | _ => .error (.returned .protocol)
    | .TYPE_BOOL =>
      match t with
      | .Bool b => .ok (.bool b)
      | _ => .error (.returned .protocol)
    | .TYPE_I8 =>
      match t with
      | .Byte n => .ok (.int (go_int_conv 8 n))
      | _ => .error (.returned .protocol)
    | .TYPE_I16 =>
      match t with
      | .I16 n => .ok (.int (go_int_conv 16 n))
      | _ => .error (.returned .protocol)
    | .TYPE_I32 =>
      match t with
      | .I32 n => .ok (.int (go_int_conv 32 n))
      | _ => .error (.returned .protocol)
    | .TYPE_I64 =>
      match t with
      | .I64 n => .ok (.int (go_int_conv 64 n))
      | _ => .error (.returned .protocol)
    | .TYPE_DOUBLE =>
      match t with
      | .Double d => .ok (.float64 d)
      | _ => .error (.returned .protocol)
  else if type.is_enum then
    match t with
    | .I32 n => .ok (.int (go_int_conv 32 n))
    | _ => .error (.returned .protocol)
  else .error (.generation (.thrown "INVALID TYPE IN generate_deserialize_field".toList))

/-- The code that `generate_deserialize_field` emits for a base or enum type (lines
3254–3334): the value assigned to the field or variable, the address of the value read for
a pointer field. -/
def read_scalar (tfield : t_field) (inkey : Bool) : List tok → reading go_value
  | [] => .error (.returned .protocol)
  | t :: rest =>
    (read_call tfield.type_.get_true_type inkey t).bind fun v =>
      (lift_generation (is_pointer_field tfield)).bind fun pointer =>
        .ok (if pointer then .pointer_to v else v, rest)

/-- The loop `for i := 0; i < size; i++` of a list or set (lines 3412–3427 with 3467–3492):
each element is read and appended. -/
def read_elems (read : t_field → Bool → List tok → reading go_value) (elem : t_type) :
    Nat → List go_value → List tok → reading (List go_value)
  | 0, acc, toks => .ok (acc, toks)
  | n + 1, acc, toks =>
    (read (elem_field elem) false toks).bind fun r =>
      read_elems read elem n (acc ++ [r.1]) r.2

/-- The loop `for i := 0; i < size; i++` of a map (lines 3412–3427 with 3448–3462): a key and
a value are read and assigned to the map. -/
def read_entries (read : t_field → Bool → List tok → reading go_value) (key val : t_type) :
    Nat → List (go_value × go_value) → List tok → reading (List (go_value × go_value))
  | 0, acc, toks => .ok (acc, toks)
  | n + 1, acc, toks =>
    (read (elem_field key) true toks).bind fun rk =>
      (read (elem_field val) false rk.2).bind fun rv =>
        read_entries read key val n (go_map_assign acc rk.1 rv.1) rv.2

/-- The code that `generate_deserialize_container` emits (lines 3363–3443); `type` is the
resolved type, `read` the code emitted for an element, key or value. -/
def read_container (read : t_field → Bool → List tok → reading go_value) (type : t_type)
    (pointer_field : Bool) : List tok → reading go_value
  | [] => .error (.returned .protocol)
  | t :: rest =>
    let address : go_value → go_value := fun v => if pointer_field then .pointer_to v else v
    match type, t with
    | .map k v, .MapBegin _ _ size =>
      if size < 0 then .error (.returned .negative_size)
      else
        (read_entries read k v size.toNat [] rest).bind fun r =>
          match r.2 with
          | .MapEnd :: rest2 => .ok (address (.map r.1), rest2)
          | _ => .error (.returned .protocol)
    | .set e, .SetBegin _ size =>
      if size < 0 then .error (.returned .negative_size)
      else
        (read_elems read e size.toNat [] rest).bind fun r =>
          match r.2 with
          | .SetEnd :: rest2 => .ok (address (.slice r.1), rest2)
          | _ => .error (.returned .protocol)
    | .list e, .ListBegin _ size =>
      if size < 0 then .error (.returned .negative_size)
      else
        (read_elems read e size.toNat [] rest).bind fun r =>
          match r.2 with
          | .ListEnd :: rest2 => .ok (address (.slice r.1), rest2)
          | _ => .error (.returned .protocol)
    | .map _ _, _ => .error (.returned .protocol)
    | .set _, _ => .error (.returned .protocol)
    | .list _, _ => .error (.returned .protocol)
    | _, _ => .error (.generation (.thrown "INVALID TYPE IN generate_deserialize_container".toList))

/-- The field header that `ReadFieldBegin` returns on the next item, if it is one. -/
def read_field_begin : tok → Option field_header
  | .FieldStop => some ⟨TType.STOP, 0⟩
  | .FieldBegin _ typeId id => some ⟨typeId, id⟩
  | _ => none

/-- The body of the emitted `switch fieldId` (lines 1733–1797) for one field header: the
per-field read routine of the member when the wire type is the expected one, else `Skip`.
The state is the fields of the receiver. -/
def read_switch (read : t_field → Bool → List tok → reading go_value)
    (skip : TType → List tok → Except codec_failure (List tok))
    (members : List t_field) (cases : List (Int × TType × Bool)) (h : field_header)
    (fields : List go_value) (toks : List tok) : reading (List go_value) :=
  match switch_case cases h.fieldId with
  | some i =>
    match cases[i]?, members[i]? with
    | some (_, ty, _), some m =>
      if h.fieldTypeId == ty then
        (read m false toks).bind fun r => .ok (fields.set i r.1, r.2)
      else (skip h.fieldTypeId toks).bind fun rest => .ok (fields, rest)
    | _, _ => .error .ill_typed
  | none => (skip h.fieldTypeId toks).bind fun rest => .ok (fields, rest)

/-- The emitted read loop (lines 1718–1804); the state is the fields of the receiver and the
seen-flags of the REQUIRED members. -/
def read_fields_loop (read : t_field → Bool → List tok → reading go_value)
    (skip : TType → List tok → Except codec_failure (List tok))
    (members : List t_field) (cases : List (Int × TType × Bool)) :
    Nat → List go_value → List Bool → List tok → reading (List go_value × List Bool)
  | 0, _, _, _ => .error .out_of_fuel
  | _ + 1, _, _, [] => .error (.returned .protocol)
  | n + 1, fields, isset, t :: rest =>
    match read_field_begin t with
    | none => .error (.returned .protocol)
    | some h =>
      if h.fieldTypeId == TType.STOP then .ok ((fields, isset), rest)
      else
        (read_switch read skip members cases h fields rest).bind fun r =>
          match r.2 with
          | .FieldEnd :: rest2 =>
            read_fields_loop read skip members cases n r.1 (read_field cases isset h) rest2
          | _ => .error (.returned .protocol)

/-- The emitted `Read` of a struct (lines 1700–1823) on a receiver with the fields `init`;
the loop is run for at most one round more than there are items. -/
def read_struct_with (read : t_field → Bool → List tok → reading go_value)
    (skip : TType → List tok → Except codec_failure (List tok))
    (s : t_struct) (init : List go_value) : List tok → reading go_value
  | .StructBegin _ :: rest =>
    (lift_generation (reader_cases (definition_members s))).bind fun cases =>
      (read_fields_loop read skip (definition_members s) cases (rest.length + 1) init
          (List.replicate cases.length false) rest).bind fun r =>
        match r.2 with
        | .StructEnd :: rest2 =>
          match first_missing cases r.1.2 with
          | some i => .error (.returned (.required_field_not_set i))
          | none => .ok (.struct_ptr r.1.1, rest2)
        | _ => .error (.returned .protocol)
  | _ => .error (.returned .protocol)

/-- The code that `generate_deserialize_field(tfield, …, inkey)` emits (lines 3228–3339), on
the items delivered by the protocol: the value assigned and the items left. A struct is made
by its initializer and read by its emitted `Read` method (lines 3344–3357); `skip` is the
library function `Skip`. The nesting of the values read is bounded by `fuel`. -/
def read_value (structs : List t_struct) (render : t_field → go_value)
    (skip : TType → List tok → Except codec_failure (List tok)) :
    Nat → t_field → Bool → List tok → reading go_value
  | 0, _, _, _ => .error .out_of_fuel
  | fuel + 1, tfield, inkey, toks =>
    let type := tfield.type_.get_true_type
    if type.is_void then
      .error (.generation (.thrown "CANNOT GENERATE DESERIALIZE CODE FOR void TYPE".toList))
    else if type.is_struct || type.is_xception then
      match find_struct structs type.get_name with
      | none => .error .ill_typed
      | some s =>
        (lift_generation (new_fields s.tagged_branch render (definition_members s))).bind
          fun init => read_struct_with (read_value structs render skip fuel) skip s init toks
    else if type.is_container then
      (lift_generation (is_pointer_field tfield)).bind fun pointer =>
        read_container (read_value structs render skip fuel) type pointer toks
    else read_scalar tfield inkey toks

/-- The loop of `Skip` over the fields of a struct, up to the stop item. -/
def skip_fields (skip_one : TType → List tok → Except codec_failure (List tok)) :
    Nat → List tok → Except codec_failure (List tok)
  | 0, _ => .error .out_of_fuel
  | _ + 1, [] => .error (.returned .protocol)
  | n + 1, t :: rest =>
    match read_field_begin t with
    | none => .error (.returned .protocol)
    | some h =>
      if h.fieldTypeId == TType.STOP then .ok rest
      else
        (skip_one h.fieldTypeId rest).bind fun r =>
          match r with
          | .FieldEnd :: rest2 => skip_fields skip_one n rest2
          | _ => .error (.returned .protocol)

/-- The loop of `Skip` over the elements of a container. -/
def skip_many (skip_one : List tok → Except codec_failure (List tok)) :
    Nat → List tok → Except codec_failure (List tok)
  | 0, toks => .ok toks
  | n + 1, toks => (skip_one toks).bind fun r => skip_many skip_one n r

/-- The items left after one value of the given wire type; the nesting is bounded by
`fuel`. -/
def skip_value : Nat → TType → List tok → Except codec_failure (List tok)
  | 0, _, _ => .error .out_of_fuel
  | fuel + 1, ty, toks =>
    match ty, toks with
    | .BOOL, .Bool _ :: rest => .ok rest
    | .BYTE, .Byte _ :: rest => .ok rest
    | .I16, .I16 _ :: rest => .ok rest
    | .I32, .I32 _ :: rest => .ok rest
    | .I64, .I64 _ :: rest => .ok rest
    | .DOUBLE, .Double _ :: rest => .ok rest
    | .STRING, .String _ :: rest => .ok rest
    | .STRUCT, .StructBegin _ :: rest =>
      (skip_fields (skip_value fuel) (rest.length + 1) rest).bind fun r =>
        match r with
        | .StructEnd :: rest2 => .ok rest2
        | _ => .error (.returned .protocol)
    | .MAP, .MapBegin kt vt size :: rest =>
      (skip_many (fun t => (skip_value fuel kt t).bind (skip_value fuel vt)) size.toNat
          rest).bind fun r =>
        match r with
        | .MapEnd :: rest2 => .ok rest2
        | _ => .error (.returned .protocol)
    | .SET, .SetBegin et size :: rest =>
      (skip_many (skip_value fuel et) size.toNat rest).bind fun r =>
        match r with
        | .SetEnd :: rest2 => .ok rest2
        | _ => .error (.returned .protocol)
    | .LIST, .ListBegin et size :: rest =>
      (skip_many (skip_value fuel et) size.toNat rest).bind fun r =>
        match r with
        | .ListEnd :: rest2 => .ok rest2
        | _ => .error (.returned .protocol)
    | _, _ => .error (.returned .protocol)

/-- Modelled from the spec: the function `Skip` of the wire-protocol library (outside the
sources), which the emitted reader calls on a field it does not know: it reads one value of
the given wire type and drops it. -/
def protocol_Skip (ty : TType) (toks : List tok) : Except codec_failure (List tok) :=
  skip_value (toks.length + 1) ty toks

/-- The emitted method `Read` of the struct `s` on the struct that `New<Struct>()` returns
(lines 1528–1531 and 1700–1823): the struct read and the items left. -/
def struct_Read (structs : List t_struct) (render : t_field → go_value)
    (skip : TType → List tok → Except codec_failure (List tok)) (s : t_struct)
    (toks : List tok) : reading go_value :=
  read_value structs render skip (toks.length + 1) (elem_field (.struct s.name_ s.is_xception_))
    false toks

/-! ### Inputs and vocabulary of the round trip through `Write` and `Read` -/

/-- The comparison of one member in the emitted `Equals`: the entry of `equals_fields` for
the member. -/
def equals_field (structs : List t_struct) (m : t_field) (t s : go_value) :
    Except codec_failure Bool :=
  equals_field_with m (equals_pointer structs m.type_ t s) (equals_value structs m.type_ t s)

/-- Whether the keys of the entries of a map differ pairwise, as the keys of every Go map
do. -/
def distinct_keys : List (go_value × go_value) → Bool
  | [] => true
  | (k, _) :: rest => rest.all (fun e => !go_key_eq k e.1) && distinct_keys rest

/-- A scalar that the round trip restores: an enum value is a value of `int32`. -/
def restorable_scalar (type : t_type) : go_value → Bool
  | .int n => !type.is_enum || in_int_range 32 n
  | _ => true

/-- Whether a map type has keys of a base or enum type; `type` is the resolved type. -/
def scalar_keys (type : t_type) : Bool :=
  type.is_map
    && (type.get_key_type.get_true_type.is_base_type || type.get_key_type.get_true_type.is_enum)

mutual

/-- The values of a field or element that the round trip restores: no struct is nil where
the writer writes it (a nil struct is written as a struct without fields), no type is a set
type, every enum value is a value of `int32`, and every map has keys of a base or enum
type. -/
def restorable (structs : List t_struct) (tfield : t_field) : go_value → Bool
  | .struct_ptr fields =>
    restorable_fields structs (struct_members structs tfield.type_.get_true_type) fields
  | .pointer_to x => restorable_deref structs tfield.type_.get_true_type x
  | .slice elems =>
    tfield.type_.get_true_type.is_list
      && restorable_elems structs tfield.type_.get_true_type.get_elem_type elems
  | .map entries =>
    scalar_keys tfield.type_.get_true_type && distinct_keys entries
      && restorable_entries structs tfield.type_.get_true_type.get_key_type
        tfield.type_.get_true_type.get_val_type entries
  | .nil =>
    !(tfield.type_.get_true_type.is_struct || tfield.type_.get_true_type.is_xception)
      && !tfield.type_.get_true_type.is_set
  | .int n => restorable_scalar tfield.type_.get_true_type (.int n)
  | .bool _ => true
  | .float64 _ => true
  | .string _ => true
  | .bytes _ => true
termination_by structural v => v

/-- The restorable values that a pointer field points to; `type` is the resolved type. -/
def restorable_deref (structs : List t_struct) (type : t_type) : go_value → Bool
  | .slice elems => type.is_list && restorable_elems structs type.get_elem_type elems
  | .map entries =>
    scalar_keys type && distinct_keys entries
      && restorable_entries structs type.get_key_type type.get_val_type entries
  | .nil => !type.is_set
  | .int n => restorable_scalar type (.int n)
  | .bool _ => true
  | .float64 _ => true
  | .string _ => true
  | .bytes _ => true
  | .struct_ptr _ => true
  | .pointer_to _ => true
termination_by structural v => v

/-- The restorable fields of a struct: no member has the type void, and a struct-typed field
may be nil when the member is OPTIONAL (the writer then leaves it out). -/
def restorable_fields (structs : List t_struct) : List t_field → List go_value → Bool
  | m :: ms, f :: fs =>
    !m.type_.get_true_type.is_void
      && ((f.is_nil && m.req_ == e_req.T_OPTIONAL && !m.type_.get_true_type.is_set)
        || restorable structs m f)
      && restorable_fields structs ms fs
  | _, _ => true
termination_by structural _ fs => fs

/-- The restorable elements of a list. -/
def restorable_elems (structs : List t_struct) (elem : t_type) : List go_value → Bool
  | [] => true
  | x :: xs => restorable structs (elem_field elem) x && restorable_elems structs elem xs
termination_by structural xs => xs

/-- The restorable entries of a map. -/
def restorable_entries (structs : List t_struct) (key val : t_type) :
    List (go_value × go_value) → Bool
  | [] => true
  | (k, v) :: rest =>
    restorable structs (elem_field key) k && restorable structs (elem_field val) v
      && restorable_entries structs key val rest
termination_by structural es => es

end

/-- The struct `Inner {}`. -/
def Inner : t_struct := ⟨"Inner".toList, [], false, false⟩

/-- The struct `Outer { 1: Inner inner }`. -/
def Outer : t_struct :=
  ⟨"Outer".toList,
    [⟨"inner".toList, 1, .struct ("Inner".toList) false, e_req.T_OPT_IN_REQ_OUT, none, []⟩],
    false, false⟩

/-- The struct `Point { 1: required i32 x, 2: optional string label }`. -/
def Point : t_struct :=
  ⟨"Point".toList,
    [⟨"x".toList, 1, .base_type .TYPE_I32 false, e_req.T_REQUIRED, none, []⟩,
      ⟨"label".toList, 2, .base_type .TYPE_STRING false, e_req.T_OPTIONAL, none, []⟩],
    false, false⟩

/-- The struct
`Bag { 1: list<Point> points, 2: map<string, i32> counts, 3: optional Inner inner,
4: binary blob }`. -/
def Bag : t_struct :=
  ⟨"Bag".toList,
    [⟨"points".toList, 1, .list (.struct ("Point".toList) false), e_req.T_OPT_IN_REQ_OUT, none,
        []⟩,
      ⟨"counts".toList, 2, .map (.base_type .TYPE_STRING false) (.base_type .TYPE_I32 false),
        e_req.T_OPT_IN_REQ_OUT, none, []⟩,
      ⟨"inner".toList, 3, .struct ("Inner".toList) false, e_req.T_OPTIONAL, none, []⟩,
      ⟨"blob".toList, 4, .base_type .TYPE_STRING true, e_req.T_OPT_IN_REQ_OUT, none, []⟩],
    false, false⟩

/-- The program of the round-trip examples. -/
def round_trip_program : List t_struct := [Inner, Outer, Point, Bag]

/-- A rendering of container and struct defaults (the examples have none). -/
def no_defaults : t_field → go_value := fun _ => .nil

/-- The C function `isdigit`. -/
def isdigit (c : Char) : Bool := 48 ≤ c.toNat && c.toNat ≤ 57

/-- A word of an identifier: a lower-case ASCII letter followed by lower-case letters or
digits. -/
def is_word (w : List Char) : Bool :=
  match w with
  | [] => false
  | c :: cs => islower c && cs.all (fun d => islower d || isdigit d)

/-- The spelling the naming rules give one word: all upper-case when the upper-cased word is
a common initialism, else only the first letter upper-cased. -/
def camel_word (g : t_go_generator) (w : List Char) : List Char :=
  if w.map toupper ∈ g.commonInitialisms then w.map toupper else upcase_first w

/-- The concatenation of the spellings of the words. -/
def camel_words (g : t_go_generator) (ws : List (List Char)) : List Char :=
  (ws.map (camel_word g)).flatten

/-- Each word preceded by an underscore. -/
def underscored (ws : List (List Char)) : List Char :=
  (ws.map (fun w => '_' :: w)).flatten

/-- The underscores of rules (5) and (6) of `publicize` for a camel-cased name `c`: one when
`c` starts with "New", and one when `c` ends with "Args" or "Result". -/
def name_suffix (c : List Char) : List Char :=
  (if c.take 3 = "New".toList then ['_'] else []) ++
  (if c.drop (c.length - 4) = "Args".toList ∨ c.drop (c.length - 6) = "Result".toList
   then ['_'] else [])

/-- The tail of an identifier after a word: empty, or starting with an underscore. -/
def tail_ok (T : List Char) : Prop := T = [] ∨ ∃ T1, T = '_' :: T1

/-! ### `variable_name_to_go_name` -/

/-- The words that `variable_name_to_go_name` compares the lower-cased identifier with in
the `case` of its `switch` that the first character of the identifier selects (lines
570–674); `none` stands for the `default` case. -/
def switch_words (c : Char) : Option (List (List Char)) :=
  if c = 'b' ∨ c = 'B' then some ["break".toList]
  else if c = 'c' ∨ c = 'C' then
    some ["case".toList, "chan".toList, "const".toList, "continue".toList]
  else if c = 'd' ∨ c = 'D' then some ["default".toList, "defer".toList]
  else if c = 'e' ∨ c = 'E' then some ["else".toList, "error".toList]
  else if c = 'f' ∨ c = 'F' then some ["fallthrough".toList, "for".toList, "func".toList]
  else if c = 'g' ∨ c = 'G' then some ["go".toList, "goto".toList]
  else if c = 'i' ∨ c = 'I' then some ["if".toList, "import".toList, "interface".toList]
  else if c = 'm' ∨ c = 'M' then some ["map".toList]
  else if c = 'p' ∨ c = 'P' then some ["package".toList]
  else if c = 'r' ∨ c = 'R' then some ["range".toList, "return".toList]
  else if c = 's' ∨ c = 'S' then some ["select".toList, "struct".toList, "switch".toList]
  else if c = 't' ∨ c = 'T' then some ["type".toList]
  else if c = 'v' ∨ c = 'V' then some ["var".toList]
  else none

/-- The function `variable_name_to_go_name(value)` (lines 562–680): in each `case` the
identifier is returned as it is when its lower-cased form `value2` differs from every word of
the case; after the `switch`, `value2 + "_a1"` is returned. -/
def variable_name_to_go_name (value : List Char) : List Char :=
  match value with
  | [] => value
  | c :: _ =>
    let value2 := value.map tolower
    match switch_words c with
    | none => value
    | some words =>
      if words.all (fun w => value2 != w) then value else value2 ++ "_a1".toList

/-! ### TypeMapper: the Go type of a type of the input tree -/

/-- Modelled from the spec: what the type mapper reads of the program besides the shape of
a type, from declarations outside the sources: the generator state, the Go package
identifier `module_name(ttype)` of the program that declares a type (empty for the program
being generated) and the flag `is_forward_typedef()` of a typedef. -/
structure type_context where
  g : t_go_generator
  module_name : t_type → List Char
  is_forward_typedef : t_type → Bool

/-- The function `type_name(ttype)` (lines 4007–4014). -/
def type_name (c : type_context) (ttype : t_type) : List Char :=
  let module := c.module_name ttype
  if !module.isEmpty then module ++ ".".toList ++ ttype.get_name else ttype.get_name

/-- The string `maybe_pointer` of `type_to_go_type_with_opt` (line 4119). -/
def maybe_pointer (optional_field : Bool) : List Char :=
  if optional_field then "*".toList else []

/-- The loop of `type_to_go_key_type` that resolves its argument (lines 4090–4094): the body
assigns the true type of the aliased type, which is no typedef, so the loop runs at most
once. -/
def key_resolved_type : t_type → t_type
  | .typedef _ t => t.get_true_type
  | t => t

/-- The function `type_to_go_key_type(type)` (lines 4089–4104), from the outcome `go_type` of
the call `type_to_go_type(type)`, which is made to build the thrown text and for the value
returned in the end. -/
def go_key_type_of (type : t_type) (go_type : Except Failure (List Char)) :
    Except Failure (List Char) :=
  let resolved_type := key_resolved_type type
  if resolved_type.is_map || resolved_type.is_list || resolved_type.is_set then
    go_type.bind fun text =>
      .error (.thrown
        ("Cannot produce a valid type for a Go map key: ".toList ++ text ++ " - aborting.".toList))
  else if resolved_type.is_binary then .ok "string".toList
  else go_type

/-- The function `type_to_go_type_with_opt(type, optional_field)` (lines 4117–4179) from the
point where a forward typedef is replaced by its true type (lines 4121–4123): `resolving` is
set while `get_true_type()` steps through the typedefs of a forward typedef. -/
def type_to_go_type_from (c : type_context) : Bool → t_type → Bool → Except Failure (List Char)
  | resolving, .typedef symbolic t, optional_field =>
    if resolving || c.is_forward_typedef (.typedef symbolic t) then
      type_to_go_type_from c true t optional_field
    else
      (publicize2 c.g (type_name c (.typedef symbolic t)) false).bind fun name =>
        .ok (maybe_pointer optional_field ++ name)
  | _, .base_type tbase binary, optional_field =>
    match tbase with
    | .TYPE_VOID => .error (.thrown [])
    | .TYPE_STRING =>
      if binary then .ok (maybe_pointer optional_field ++ "[]byte".toList)
      else .ok (maybe_pointer optional_field ++ "string".toList)
    | .TYPE_BOOL => .ok (maybe_pointer optional_field ++ "bool".toList)
    | .TYPE_I8 => .ok (maybe_pointer optional_field ++ "int8".toList)
    | .TYPE_I16 => .ok (maybe_pointer optional_field ++ "int16".toList)
    | .TYPE_I32 => .ok (maybe_pointer optional_field ++ "int32".toList)
    | .TYPE_I64 => .ok (maybe_pointer optional_field ++ "int64".toList)
    | .TYPE_DOUBLE => .ok (maybe_pointer optional_field ++ "float64".toList)
  | _, .enum name, optional_field =>
    (publicize2 c.g (type_name c (.enum name)) false).bind fun text =>
      .ok (maybe_pointer optional_field ++ text)
  | _, .struct name x, _ =>
    (publicize2 c.g (type_name c (.struct name x)) false).bind fun text =>
      .ok ("*".toList ++ text)
  | _, .map key_type val_type, optional_field =>
    (go_key_type_of key_type (type_to_go_type_from c false key_type false)).bind fun keyType =>
      (type_to_go_type_from c false val_type false).bind fun valueType =>
        .ok (maybe_pointer optional_field ++ "map[".toList ++ keyType ++ "]".toList ++ valueType)
  | _, .set elem_type, optional_field =>
    (type_to_go_type_from c false elem_type false).bind fun elemType =>
      .ok (maybe_pointer optional_field ++ "[]".toList ++ elemType)
  | _, .list elem_type, optional_field =>
    (type_to_go_type_from c false elem_type false).bind fun elemType =>
      .ok (maybe_pointer optional_field ++ "[]".toList ++ elemType)

/-- The function `type_to_go_type_with_opt(type, optional_field)` (lines 4117–4179). -/
def type_to_go_type_with_opt (c : type_context) (type : t_type) (optional_field : Bool) :
    Except Failure (List Char) :=
  type_to_go_type_from c false type optional_field

/-- The function `type_to_go_type(type)` (lines 4109–4111). -/
def type_to_go_type (c : type_context) (type : t_type) : Except Failure (List Char) :=
  type_to_go_type_with_opt c type false

/-- The function `type_to_go_key_type(type)` (lines 4089–4104). -/
def type_to_go_key_type (c : type_context) (type : t_type) : Except Failure (List Char) :=
  go_key_type_of type (type_to_go_type c type)

/-- The Go type of the struct field of a member (lines 1478–1479):
`type_to_go_type_with_opt(fieldType, is_pointer_field(member))`. -/
def field_go_type (c : type_context) (m : t_field) : Except Failure (List Char) :=
  (is_pointer_field m).bind fun pointer => type_to_go_type_with_opt c m.type_ pointer

/-! ### Inputs and vocabulary of the naming and type properties -/

/-- The words of all the cases of the `switch` of `variable_name_to_go_name`: the reserved
words of the generator. -/
def reserved_words : List (List Char) :=
  ["break", "case", "chan", "const", "continue", "default", "defer", "else", "error",
   "fallthrough", "for", "func", "go", "goto", "if", "import", "interface", "map", "package",
   "range", "return", "select", "struct", "switch", "type", "var"].map String.toList

/-- The generator as `init_generator` leaves it, with initialism correction enabled. -/
def a_generator : t_go_generator := init_generator ⟨false, [], []⟩

/-- A type context in which every type is declared by the program being generated and no
typedef is a forward typedef. -/
def local_types : type_context := ⟨a_generator, fun _ => [], fun _ => false⟩

/-- The binary type. -/
def binary_type : t_type := .base_type .TYPE_STRING true

/-- A binary field with default requiredness and the `cpp.ref` annotation. -/
def binary_ref_field : t_field :=
  ⟨"data".toList, 1, binary_type, .T_OPT_IN_REQ_OUT, none, [("cpp.ref".toList, [])]⟩

/-- An OPTIONAL binary field without annotations. -/
def binary_optional_field : t_field :=
  ⟨"data".toList, 1, binary_type, .T_OPTIONAL, none, []⟩

/-- Whether the numeric value of a constant is zero, as `omit_initialization` tests it for a
double (lines 365–369). -/
def is_zero_number (value : t_const_value) : Bool :=
  if value.is_integer then value.get_integer == 0 else value.get_double == 0

/-! ### Inputs and vocabulary of `CountSetFields` and of the uniqueness check of a set -/

/-- Whether the emitted IsSet helper of a member returns true on the value of the field. -/
def isset_true (render : t_field → go_value) (m : t_field) (field : go_value) : Bool :=
  match field_IsSet render m field with
  | .ok b => b
  | .error _ => false

/-- The number of the members that satisfy `p` and whose IsSet helper returns true on the
receiver with the given fields. -/
def isset_count (render : t_field → go_value) (p : t_field → Bool) :
    List t_field → List go_value → Nat
  | m :: ms, f :: fs =>
    (if p m && isset_true render m f then 1 else 0) + isset_count render p ms fs
  | _, _ => 0

/-- Whether a member is not REQUIRED. -/
def non_required (m : t_field) : Bool := !(m.req_ == e_req.T_REQUIRED)

/-- A union of an `i32` with the default 5 and a string without default. -/
def union_default_and_string : t_struct :=
  { name_ := "U".toList
    members_ := [⟨"a".toList, 1, .base_type .TYPE_I32 false, .T_OPT_IN_REQ_OUT,
                   some (.CV_INTEGER 5), []⟩,
                 ⟨"b".toList, 2, .base_type .TYPE_STRING false, .T_OPT_IN_REQ_OUT, none, []⟩]
    is_union_ := true
    is_xception_ := false }

/-- The code of `generate_serialize_container` for a set (lines 3610–3614, 3635–3666 and
3681–3683) on a non-nil slice, with the items passed to the protocol up to its return: the
call of `WriteSetBegin`, then the scan for two equal elements, which returns the "slice is
not unique" error, then the elements and the call of `WriteSetEnd`. The second component is
the error that the scan returns, if any; an element that fails to be written ends the
code with its own failure. -/
def set_written (structs : List t_struct) (render : t_field → go_value) (elem : t_type)
    (elems : List go_value) : Except codec_failure (List tok × Option go_error) :=
  (lift_generation (type_to_enum elem)).bind fun ty =>
    (set_check structs elem elems).bind fun r =>
      match r with
      | some err => .ok ([tok.SetBegin ty elems.length], some err)
      | none =>
        (write_elems structs render elem elems).bind fun b =>
          .ok ([tok.SetBegin ty elems.length] ++ b ++ [tok.SetEnd], none)

/-- Two positions `i < j` of a slice whose elements are equal by the emitted comparison of
the element type. -/
def equal_pair (structs : List t_struct) (elem : t_type) (elems : List go_value) : Prop :=
  ∃ (i j : Nat) (x y : go_value), i < j ∧ elems[i]? = some x ∧ elems[j]? = some y ∧
    equals_value structs elem x y = .ok true

/-- A field of the type `set<i32>` with default requiredness. -/
def set_field : t_field :=
  ⟨"ids".toList, 1, .set (.base_type .TYPE_I32 false), .T_OPT_IN_REQ_OUT, none, []⟩

/-- An `i32` field with the default 0. -/
def zero_default_field : t_field :=
  ⟨"n".toList, 1, .base_type .TYPE_I32 false, .T_OPT_IN_REQ_OUT, some (.CV_INTEGER 0), []⟩

/-- A binary field with the default "" (the empty string). -/
def binary_default_field : t_field :=
  ⟨"data".toList, 2, binary_type, .T_OPTIONAL, some (.CV_STRING []), []⟩

/-- An OPTIONAL `i32` field with the default 5. -/
def optional_default_field : t_field :=
  ⟨"n".toList, 3, .base_type .TYPE_I32 false, .T_OPTIONAL, some (.CV_INTEGER 5), []⟩

/-- A field of the type `set<set<i32>>` with default requiredness. -/
def nested_set_field : t_field :=
  ⟨"groups".toList, 1, .set (.set (.base_type .TYPE_I32 false)), .T_OPT_IN_REQ_OUT, none, []⟩

/-! ### The constructor: generator options -/

/-- The members that the constructor of `t_go_generator` sets from the parsed options (lines
79–100), together with the static `package_flag`. -/
structure generator_options where
  gen_thrift_import_ : List Char
  gen_package_prefix_ : List Char
  package_flag : List Char
  read_write_private_ : Bool
  ignore_initialisms_ : Bool
  skip_remote_ : Bool
  deriving DecidableEq

/-- The constant `DEFAULT_THRIFT_IMPORT` (line 65). -/
def DEFAULT_THRIFT_IMPORT : List Char := "github.com/apache/thrift/lib/go/thrift".toList

/-- The loop of the constructor over the entries of `parsed_options` (lines 85–101). -/
def options_loop :
    List (List Char × List Char) → generator_options → Except Failure generator_options
  | [], o => .ok o
  | (first, second) :: rest, o =>
    if first == "package_prefix".toList then
      options_loop rest { o with gen_package_prefix_ := second }
    else if first == "thrift_import".toList then
      options_loop rest { o with gen_thrift_import_ := second }
    else if first == "package".toList then
      options_loop rest { o with package_flag := second }
    else if first == "read_write_private".toList then
      options_loop rest { o with read_write_private_ := true }
    else if first == "ignore_initialisms".toList then
      options_loop rest { o with ignore_initialisms_ := true }
    else if first == "skip_remote".toList then
      options_loop rest { o with skip_remote_ := true }
    else .error (.thrown ("unknown option go:".toList ++ first))

/-- The constructor `t_go_generator(program, parsed_options, option_string)` (lines 73–106),
on the entries of the option map in the order of its iteration. -/
def construct_generator (parsed_options : List (List Char × List Char)) :
    Except Failure generator_options :=
  options_loop parsed_options
    { gen_thrift_import_ := DEFAULT_THRIFT_IMPORT
      gen_package_prefix_ := []
      package_flag := []
      read_write_private_ := false
      ignore_initialisms_ := false
      skip_remote_ := false }

/-- The option keys that the constructor knows. -/
def known_options : List (List Char) :=
  ["package_prefix", "thrift_import", "package", "read_write_private", "ignore_initialisms",
   "skip_remote"].map String.toList

/-! ### Imports: the alias table of the included programs -/

/-- A `std::map<string, string>` (or `std::unordered_map`) by its entries; only lookup and
insertion are modelled, not the order of iteration. -/
abbrev string_map : Type := List (List Char × List Char)

/-- The call `m.find(key)`: the mapped value, `none` for `end()`. -/
def map_find (m : string_map) (key : List Char) : Option (List Char) :=
  match m with
  | [] => none
  | (k, v) :: rest => if k == key then some v else map_find rest key

/-- The assignment `m[key] = value`. -/
def map_assign (m : string_map) (key value : List Char) : string_map :=
  match m with
  | [] => [(key, value)]
  | (k, v) :: rest =>
    if k == key then (k, value) :: rest else (k, v) :: map_assign rest key value

/-- The call `m.emplace(key, value)`: an existing entry is kept. -/
def map_emplace (m : string_map) (key value : List Char) : string_map :=
  match map_find m key with
  | some _ => m
  | none => m ++ [(key, value)]

/-- The call `s.insert(value)` of a `std::set<string>`, by its elements. -/
def set_insert (s : List (List Char)) (value : List Char) : List (List Char) :=
  if s.contains value then s else s ++ [value]

/-- The members that the import functions read and write: the alias table
`package_identifiers_`, the claimed identifiers `package_identifiers_set_` and the counter
`tmp_` of the base generator. -/
structure import_state where
  package_identifiers_ : string_map
  package_identifiers_set_ : List (List Char)
  tmp_ : Nat
  deriving DecidableEq

/-- Modelled from the spec: the function `tmp(name)` of the base generator (outside the
sources): the name followed by the running counter, which is then incremented. -/
def tmp (st : import_state) (name : List Char) : List Char × import_state :=
  (name ++ (Nat.repr st.tmp_).toList, { st with tmp_ := st.tmp_ + 1 })

/-- The loop of `render_program_import` over the characters of the module (lines 817–823):
`go_path` with every dot replaced by a slash, and `found`, the index after the last dot. -/
def go_path_loop : List Char → Nat → List Char × Nat → List Char × Nat
  | [], _, r => r
  | c :: rest, j, (go_path, found) =>
    if c == '.' then go_path_loop rest (j + 1) (go_path ++ ['/'], j + 1)
    else go_path_loop rest (j + 1) (go_path ++ [c], found)

/-- The import line that `render_program_import` builds for an identifier (lines 841–855). -/
def import_line (gen_package_prefix_ go_path last_component package_identifier : List Char) :
    List Char :=
  "\t".toList ++
    (if last_component != package_identifier then package_identifier ++ " ".toList else []) ++
    "\"".toList ++ gen_package_prefix_ ++ go_path ++ "\"\n".toList

/-- The function `render_program_import(program, unused_protection)` (lines 811–859);
`go_module` is the value of `get_real_go_module(program)`. The result is the import line, the
state and `unused_protection` afterwards. The string `s` of lines 846–853 is built from the
claimed identifiers and its last character is removed, which is undefined for the empty
string. -/
def render_program_import (gen_package_prefix_ go_module : List Char) (st : import_state)
    (unused_protection : List Char) : Except Failure (List Char × import_state × List Char) :=
  let (go_path, found) := go_path_loop go_module 0 ([], 0)
  let last_component := substr go_module found none
  let (package_identifier, st) :=
    match map_find st.package_identifiers_ go_module with
    | some id => (id, st)
    | none =>
      let (value, st) :=
        if st.package_identifiers_set_.contains last_component then tmp st last_component
        else (last_component, st)
      (value,
        { st with
          package_identifiers_set_ := set_insert st.package_identifiers_set_ value
          package_identifiers_ := st.package_identifiers_ ++ [(go_module, value)] })
  let s := (st.package_identifiers_set_.map (fun e => e ++ [','])).flatten
  if s.isEmpty then .error .undefined_behaviour
  else
    .ok (import_line gen_package_prefix_ go_path last_component package_identifier, st,
      unused_protection ++ "var _ = ".toList ++ package_identifier ++
        ".GoUnusedProtection__\n".toList)

/-- The loop of `render_included_programs` (lines 796–807) over the modules
`get_real_go_module(include)` of the includes; `included` is the local set of the modules
seen. The result is the modules imported with their import lines, in order. -/
def included_loop (gen_package_prefix_ local_namespace : List Char) :
    List (List Char) → List (List Char) → import_state → List Char →
      Except Failure (List (List Char × List Char) × import_state × List Char)
  | [], _, st, unused_prot => .ok ([], st, unused_prot)
  | includeModule :: rest, included, st, unused_prot =>
    if !local_namespace.isEmpty && local_namespace == includeModule then
      included_loop gen_package_prefix_ local_namespace rest included st unused_prot
    else if included.contains includeModule then
      included_loop gen_package_prefix_ local_namespace rest included st unused_prot
    else
      (render_program_import gen_package_prefix_ includeModule st unused_prot).bind fun r =>
        (included_loop gen_package_prefix_ local_namespace rest (included ++ [includeModule])
            r.2.1 r.2.2).bind fun q =>
          .ok ((includeModule, r.1) :: q.1, q.2.1, q.2.2)

/-- The function `render_included_programs(unused_prot)` (lines 791–809): the text returned
is the concatenation of the import lines. -/
def render_included_programs (gen_package_prefix_ local_namespace : List Char)
    (includes : List (List Char)) (st : import_state) (unused_prot : List Char) :
    Except Failure (List Char × import_state × List Char) :=
  (included_loop gen_package_prefix_ local_namespace includes [] st unused_prot).bind fun r =>
    .ok ((r.1.map Prod.snd).flatten, r.2.1, r.2.2)

/-- The import identifier that `render_system_packages` takes from a system package (lines
887–900): the part before the first space of a rename import, else the part after the last
slash. -/
def system_identifier (package : List Char) : List Char :=
  match find package ' ' 0 with
  | some space_pos => substr package 0 (some space_pos)
  | none =>
    match rfind package '/' with
    | some slash_pos => substr package (slash_pos + 1) none
    | none => package

/-- The state after `render_system_packages(system_packages)` (lines 881–907). -/
def render_system_packages : List (List Char) → import_state → import_state
  | [], st => st
  | package :: rest, st =>
    render_system_packages rest
      { st with
        package_identifiers_set_ :=
          set_insert st.package_identifiers_set_ (system_identifier package)
        package_identifiers_ :=
          map_emplace st.package_identifiers_ package (system_identifier package) }

/-- The vector `system_packages` of `go_imports_begin(consts)` (lines 960–971); `enums` holds
when the program has enums. -/
def system_packages (gen_thrift_import_ : List Char) (consts enums : Bool) :
    List (List Char) :=
  ["bytes".toList, "context".toList] ++
    (if !consts && enums then ["database/sql/driver".toList] else []) ++
    ["errors".toList, "fmt".toList, "time".toList,
     "thrift \"".toList ++ gen_thrift_import_ ++ "\"".toList]

/-- The state after `go_imports_begin(consts)` (lines 959–973). -/
def go_imports_begin (gen_thrift_import_ : List Char) (consts enums : Bool)
    (st : import_state) : import_state :=
  render_system_packages (system_packages gen_thrift_import_ consts enums) st

/-- The state of a fresh generator: no aliases, counter 0. -/
def no_imports : import_state := ⟨[], [], 0⟩

/-- The state after the system packages of the types file of a program without enums are
registered, with the default thrift import. -/
def system_imports : import_state := go_imports_begin DEFAULT_THRIFT_IMPORT false false no_imports

/-- The system identifiers registered by `go_imports_begin`. -/
def system_identifiers : List (List Char) :=
  ["bytes", "context", "driver", "errors", "fmt", "time", "thrift"].map String.toList

/-- The state after `render_program_import` is called for the modules in turn. -/
def import_all (gen_package_prefix_ : List Char) :
    List (List Char) → import_state → Except Failure import_state
  | [], st => .ok st
  | go_module :: rest, st =>
    (render_program_import gen_package_prefix_ go_module st []).bind fun r =>
      import_all gen_package_prefix_ rest r.2.1

/-! ### The emitted `Process` of a service processor -/

/-- Modelled from the spec: the message types of the Go library. -/
inductive TMessageType where
  | CALL
  | REPLY
  | EXCEPTION
  | ONEWAY
  deriving DecidableEq, Repr

/-- Modelled from the spec: the exceptions that the emitted `Process` returns: the wrapped
error of a protocol call, the application exception made by
`thrift.NewTApplicationException(thrift.UNKNOWN_METHOD, message)`, or what the processor of
a function returns. -/
inductive TException where
  | wrapped (e : go_error)
  | UNKNOWN_METHOD (message : List Char)
  | of_processor (tag : Nat)
  deriving DecidableEq

/-- A call that the emitted `Process` makes on the protocols or on a registered
processor. -/
inductive process_call where
  | ReadMessageBegin
  | Skip (fieldType : TType)
  | ReadMessageEnd
  | WriteMessageBegin (name : List Char) (typeId : TMessageType) (seqId : Int)
  | Write (x : TException)
  | WriteMessageEnd
  | Flush
  /-- The call `processor.Process(ctx, seqId, iprot, oprot)` of the processor of a function. -/
  | Process (function : List Char) (seqId : Int)
  deriving DecidableEq

/-- The processor map that the emitted `New<Service>Processor` fills (lines 2891–2896): the
key of a function is the string that the emitted literal of `escape_string(name)` denotes
(`key_of`), the value stands for the processor of the function. -/
def processor_map (key_of : List Char → List Char) (functions : List (List Char)) :
    string_map :=
  functions.foldl (fun m f => map_assign m (key_of f) f) []

/-- The emitted method `Process` of the processor of a service without a parent (lines
2901–2919): `message` is what `ReadMessageBegin` returns (the name and the sequence id, or an
error), `processor_Process` what the processor of a function returns. The result is the
calls made, in order, and the values returned. -/
def generated_Process (processorMap : string_map)
    (processor_Process : List Char → Int → Bool × Option TException)
    (message : Except go_error (List Char × Int)) :
    List process_call × Bool × Option TException :=
  match message with
  | .error err2 => ([.ReadMessageBegin], false, some (.wrapped err2))
  | .ok (name, seqId) =>
    match map_find processorMap name with
    | some processor =>
      ([.ReadMessageBegin, .Process processor seqId], processor_Process processor seqId)
    | none =>
      let x := TException.UNKNOWN_METHOD ("Unknown function ".toList ++ name)
      ([.ReadMessageBegin, .Skip TType.STRUCT, .ReadMessageEnd,
        .WriteMessageBegin name .EXCEPTION seqId, .Write x, .WriteMessageEnd, .Flush],
       false, some x)

/-! ### Struct tags and the comments on unused field ids -/

/-- The loop of `parse_go_tags` (lines 4213–4240) from the iterator on: `mode` is 0, 1 or 2
for key, value or whitespace, `first` holds while `index` is 0. In key mode a colon moves
the iterator one character further (`skip`), over a character that the increment of the loop
then leaves out; moving it past the end of the text is undefined. -/
def parse_go_tags_loop :
    Nat → List Char → List Char → Bool → Bool → string_map → List Char →
      Except Failure string_map
  | _, _, _, _, skip, tags, [] => if skip then .error .undefined_behaviour else .ok tags
  | mode, key, value, first, skip, tags, c :: rest =>
    if skip then parse_go_tags_loop mode key value false false tags rest
    else
      let mode := if first && mode == 0 && c == ' ' then 2 else mode
      if mode == 2 && c == ' ' then parse_go_tags_loop mode key value false false tags rest
      else
        let mode := if mode == 2 then 0 else mode
        if mode == 0 then
          if c == ':' then parse_go_tags_loop 1 key value false true tags rest
          else parse_go_tags_loop mode (key ++ [c]) value false false tags rest
        else if mode == 1 then
          if c == '"' then
            parse_go_tags_loop 2 [] [] false false (map_assign tags key value) rest
          else parse_go_tags_loop mode key (value ++ [c]) false false tags rest
        else parse_go_tags_loop mode key value false false tags rest

/-- The function `parse_go_tags(tags, in)` (lines 4207–4241): the map afterwards. -/
def parse_go_tags (tags : string_map) (text : List Char) : Except Failure string_map :=
  parse_go_tags_loop 0 [] [] true false tags text

/-- The call `annotations_.find(key)` of the annotation map of a field. -/
def t_field.annotations_find (f : t_field) (key : List Char) : Option (List Char) :=
  map_find f.annotations_ key

/-- The map `tags` that one round of the loop of the tagged branch computes for its member
(lines 1481–1500), from the member as it stands in that round; `escape_string` is the
function of the base generator (outside the sources). The loop runs only for a struct that
takes the branch of line 1457; `struct_tags` gives the tags of the fields of a struct. -/
def field_tags (escape_string : List Char → List Char) (m : t_field) :
    Except Failure string_map :=
  let tags := map_assign [] "db".toList (escape_string m.name_)
  let has_default := m.value_.isSome
  let is_optional := m.req_ == e_req.T_OPTIONAL
  let tags :=
    if is_optional && !has_default then
      map_assign tags "json".toList (escape_string m.name_ ++ ",omitempty".toList)
    else map_assign tags "json".toList (escape_string m.name_)
  match m.annotations_find "go.tag".toList with
  | some text => parse_go_tags tags text
  | none => .ok tags

/-- The tags of the fields of a struct as `generate_go_struct_definition` emits them (lines
1456–1523): the map `tags` of each struct line of the tagged branch, in wire-id order; a
struct that takes the branch of line 1518 has no struct lines with tags, its fields are
emitted by lines 1519–1523 without any tag. -/
def struct_tags (escape_string : List Char → List Char) (s : t_struct) :
    List (Except Failure string_map) :=
  (definition_fields s).2.map (fun l => field_tags escape_string l.field)

/-- The Go type of the field of a member in the emitted struct (lines 1478–1479 in the
tagged branch, lines 1521–1522 in the other). -/
def struct_field_go_type (c : type_context) (s : t_struct) (m : t_field) :
    Except Failure (List Char) :=
  if s.tagged_branch then field_go_type c m else type_to_go_type c m.type_

/-- A comment on unused field ids: "// unused field # a" or "// unused fields # a to b". -/
inductive unused_comment where
  | unused_field (first_unused : Int)
  | unused_fields (first_unused last_unused : Int)
  deriving DecidableEq, Repr

/-- The comment that lines 1470–1474 emit for `first_unused` and `last_unused`. -/
def unused_comment_of (first_unused last_unused : Int) : Option unused_comment :=
  if first_unused < last_unused then some (.unused_fields first_unused last_unused)
  else if first_unused = last_unused then some (.unused_field first_unused)
  else none

/-- The increment `++x` or `x++` of an `int`: signed overflow is undefined. -/
def int_incr (x : Int) : Except Failure Int :=
  if x ≥ (INT_MAX : Int) then .error .undefined_behaviour else .ok (x + 1)

/-- The loop `while (sorted_keys_pos != key) ++sorted_keys_pos` (lines 1466–1468), on an
iteration budget. -/
def advance_to_key : Nat → Int → Int → Except Failure Int
  | 0, _, _ => .error .out_of_fuel
  | fuel + 1, sorted_keys_pos, key =>
    if sorted_keys_pos != key then
      (int_incr sorted_keys_pos).bind fun next => advance_to_key fuel next key
    else .ok sorted_keys_pos

/-- Lines 1464–1475 for one member with the wire id `key`: the comment emitted before the
line of the member, if any, and `sorted_keys_pos` afterwards. The loop runs at most until the
position overflows, which is its budget. -/
def unused_before (sorted_keys_pos key : Int) : Except Failure (Option unused_comment × Int) :=
  if sorted_keys_pos != key then
    let first_unused := max 1 sorted_keys_pos
    (int_incr sorted_keys_pos).bind fun next =>
      (advance_to_key (((INT_MAX : Int) - next).toNat + 1) next key).bind fun pos =>
        .ok (unused_comment_of first_unused (pos - 1), pos)
  else .ok (none, sorted_keys_pos)

/-- The loop of lines 1460–1517 over the wire ids of the sorted members, as far as the
comments on unused ids go: for each member the comment emitted right before its line; after
the line `sorted_keys_pos` is incremented (line 1516). -/
def unused_scan : List Int → Int → Except Failure (List (Option unused_comment))
  | [], _ => .ok []
  | key :: rest, sorted_keys_pos =>
    (unused_before sorted_keys_pos key).bind fun r =>
      (int_incr r.2).bind fun next =>
        (unused_scan rest next).bind fun cs => .ok (r.1 :: cs)

/-- The wire ids of the members in the order of `get_sorted_members()`. -/
def sorted_keys (s : t_struct) : List Int :=
  s.sorted_positions.map (key_at s.members_)

/-- The comments on unused ids that `generate_go_struct_definition` emits for a struct
(lines 1456–1517), one entry per sorted member; none in the untagged branch of line 1518. -/
def struct_unused_comments (s : t_struct) : Except Failure (List (Option unused_comment)) :=
  if s.sorted_positions.isEmpty || decide (key_at s.members_ (s.sorted_positions.headD 0) ≥ 0)
  then unused_scan (sorted_keys s) 0
  else .ok []

/-- Whether a comment on unused ids names the id `i`. -/
def unused_comment.covers (c : unused_comment) (i : Int) : Prop :=
  match c with
  | .unused_field a => i = a
  | .unused_fields a b => a ≤ i ∧ i ≤ b

/-- The text of pairs `key:"value"`, each preceded by a number of spaces. -/
def tags_text : List (Nat × List Char × List Char) → List Char
  | [] => []
  | (spaces, key, value) :: rest =>
    List.replicate spaces ' ' ++ key ++ [':', '"'] ++ value ++ ['"'] ++ tags_text rest

/-- The assignments `tags[key] = value` of the pairs, in order. -/
def assign_all (tags : string_map) (pairs : List (Nat × List Char × List Char)) : string_map :=
  pairs.foldl (fun t p => map_assign t p.2.1 p.2.2) tags

/-- The value of the last pair with the given key, if any. -/
def last_value (key : List Char) : List (Nat × List Char × List Char) → Option (List Char)
  | [] => none
  | (_, k, v) :: rest =>
    match last_value key rest with
    | some w => some w
    | none => if k = key then some v else none

/-- A field with a `go.tag` annotation that sets the json tag and one more tag. -/
def tagged_field : t_field :=
  ⟨"user_id".toList, 1, .base_type .TYPE_I64 false, .T_OPTIONAL, none,
    [("go.tag".toList, "json:\"uid\"  xml:\"user\"".toList)]⟩

/-- A struct with the wire ids 2, 3 and 7. -/
def gap_struct : t_struct :=
  { name_ := "Gaps".toList
    members_ := [⟨"c".toList, 7, .base_type .TYPE_I32 false, .T_OPT_IN_REQ_OUT, none, []⟩,
                 ⟨"a".toList, 2, .base_type .TYPE_I32 false, .T_OPT_IN_REQ_OUT, none, []⟩,
                 ⟨"b".toList, 3, .base_type .TYPE_I32 false, .T_OPT_IN_REQ_OUT, none, []⟩]
    is_union_ := false
    is_xception_ := false }

/-- The comments on unused ids in closed form: before the member with the wire id `key`, the
comment for the ids from `max 1 pos` to `key - 1`, where `pos` follows the wire id of the
member before (0 at the start). -/
def gap_comments : Int → List Int → List (Option unused_comment)
  | _, [] => []
  | pos, key :: rest => unused_comment_of (max 1 pos) (key - 1) :: gap_comments (key + 1) rest

/-! ### ConstRenderer: `render_const_value` -/

/-- Modelled from the spec: what `render_const_value` reads besides the type and the value,
from declarations outside the sources: the type context, the structs of the program (a
struct type is referred to by name), `get_escaped_string(value)` of the base generator, the
text that the stream makes of a `double`, and `indent()` at an indentation level. -/
structure const_context where
  types : type_context
  structs : List t_struct
  get_escaped_string : t_const_value → List Char
  double_text : cdouble → List Char
  indent : Nat → List Char

/-- The accessor `get_map()`: the entries in the order of iteration, none for another kind
of value. -/
def t_const_value.get_map : t_const_value → List (t_const_value × t_const_value)
  | .CV_MAP mapVal => mapVal
  | _ => []

/-- The accessor `get_list()`: the elements, none for another kind of value. -/
def t_const_value.get_list : t_const_value → List t_const_value
  | .CV_LIST listVal => listVal
  | _ => []

/-- The text that the stream makes of an integer. -/
def int_text (n : Int) : List Char := (toString n).toList

/-- The members `get_members()` of the struct that a struct type refers to. -/
def const_members (c : const_context) (type : t_type) : List t_field :=
  match find_struct c.structs type.get_name with
  | some s => s.members_
  | none => []

/-- The inner loop of lines 1297–1302 over the members: the type and the pointer-ness of the
last member whose name is the key; `none` stands for `field_type == nullptr`. -/
def find_field : List t_field → List Char → Option (t_type × Bool) →
    Except Failure (Option (t_type × Bool))
  | [], _, found => .ok found
  | f :: rest, key, found =>
    if f.name_ == key then
      (is_pointer_field f).bind fun is_optional =>
        find_field rest key (some (f.type_, is_optional))
    else find_field rest key found

/-- The `field_type` that the inner loop leaves (the type void when there is none). -/
def found_type (found : Except Failure (Option (t_type × Bool))) : t_type :=
  match found with
  | .ok (some (field_type, _)) => field_type
  | _ => .base_type .TYPE_VOID false

/-- The `is_optional` that the inner loop leaves. -/
def found_optional (found : Except Failure (Option (t_type × Bool))) : Bool :=
  match found with
  | .ok (some (_, is_optional)) => is_optional
  | _ => false

/-- The name of the pointer helper in the `opt` branch (lines 1159–1163 and the like). -/
def opt_ptr (typedef_opt_ptr helper : List Char) : List Char :=
  if typedef_opt_ptr != [] then typedef_opt_ptr else helper

/-- The text of the number of a double constant (lines 1211–1215 and 1263–1267). -/
def number_text (c : const_context) (value : t_const_value) : List Char :=
  if value.is_integer then int_text value.get_integer else c.double_text value.get_double

/-- The branch of `render_const_value` for a base type (lines 1153–1273); `type` is the
resolved type. -/
def render_base (c : const_context) (type : t_type) (typedef_opt_ptr : List Char)
    (value : t_const_value) (opt : Bool) : Except Failure (List Char) :=
  if opt then
    match type.get_base with
    | .TYPE_BOOL =>
      .ok (opt_ptr typedef_opt_ptr "thrift.BoolPtr".toList ++ "(".toList ++
        (if value.get_integer > 0 then "true".toList else "false".toList) ++ ")".toList)
    | .TYPE_I8 =>
      .ok (opt_ptr typedef_opt_ptr "thrift.Int8Ptr".toList ++ "(".toList ++
        int_text value.get_integer ++ ")".toList)
    | .TYPE_I16 =>
      .ok (opt_ptr typedef_opt_ptr "thrift.Int16Ptr".toList ++ "(".toList ++
        int_text value.get_integer ++ ")".toList)
    | .TYPE_I32 =>
      .ok (opt_ptr typedef_opt_ptr "thrift.Int32Ptr".toList ++ "(".toList ++
        int_text value.get_integer ++ ")".toList)
    | .TYPE_I64 =>
      .ok (opt_ptr typedef_opt_ptr "thrift.Int64Ptr".toList ++ "(".toList ++
        int_text value.get_integer ++ ")".toList)
    | .TYPE_DOUBLE =>
      .ok (opt_ptr typedef_opt_ptr "thrift.Float64Ptr".toList ++ "(".toList ++
        number_text c value ++ ")".toList)
    | .TYPE_STRING =>
      .ok (opt_ptr typedef_opt_ptr "thrift.StringPtr".toList ++ "(".toList ++
        "\"".toList ++ c.get_escaped_string value ++ "\"".toList ++ ")".toList)
    | .TYPE_VOID => .error (.thrown "compiler error: no const of base type void".toList)
  else
    match type.get_base with
    | .TYPE_STRING =>
      if type.is_binary then
        .ok ("[]byte(\"".toList ++ c.get_escaped_string value ++ "\")".toList)
      else .ok ("\"".toList ++ c.get_escaped_string value ++ "\"".toList)
    | .TYPE_BOOL => .ok (if value.get_integer > 0 then "true".toList else "false".toList)
    | .TYPE_I8 => .ok (int_text value.get_integer)
    | .TYPE_I16 => .ok (int_text value.get_integer)
    | .TYPE_I32 => .ok (int_text value.get_integer)
    | .TYPE_I64 => .ok (int_text value.get_integer)
    | .TYPE_DOUBLE => .ok (number_text c value)
    | .TYPE_VOID => .error (.thrown "compiler error: no const of base type void".toList)

/-- The text thrown for a key that is the name of no member (line 1305). -/
def no_field_error (type : t_type) (key : t_const_value) : Failure :=
  .thrown ("type error: ".toList ++ type.get_name ++ " has no field ".toList ++ key.get_string)

/-- One round of the loop over the entries of a struct constant (lines 1294–1309), from what
the inner loop found, the rendering of the value and the text of the rounds after it. -/
def struct_entry (c : const_context) (type : t_type) (level : Nat) (key : t_const_value)
    (found : Except Failure (Option (t_type × Bool)))
    (rendered more : Except Failure (List Char)) : Except Failure (List Char) :=
  found.bind fun f =>
    match f with
    | none => .error (no_field_error type key)
    | some _ =>
      (publicize2 c.types.g key.get_string false).bind fun name =>
        rendered.bind fun text =>
          more.bind fun tail =>
            .ok ("\n".toList ++ c.indent level ++ name ++ ": ".toList ++ text ++
              ",\n".toList ++ tail)

/-- The function `render_const_value(type, value, name, opt)` (lines 1144–1357) at an
indentation level, from the texts of its three loops: over the entries of a struct constant,
over the entries of a map constant and over the elements of a list or set constant. The
argument `name` is only handed on and left out. -/
def render_with (c : const_context) (type : t_type) (opt : Bool) (level : Nat)
    (value : t_const_value) (struct_text map_text list_text : Except Failure (List Char)) :
    Except Failure (List Char) :=
  let typedef_opt_ptr : List Char :=
    if type.is_typedef then type_name c.types type ++ "Ptr".toList else []
  let type := type.get_true_type
  if type.is_base_type then render_base c type typedef_opt_ptr value opt
  else if type.is_enum then
    .ok ((if opt then
        (if typedef_opt_ptr != [] then typedef_opt_ptr ++ "(".toList
         else type_name c.types type ++ "Ptr(".toList)
      else []) ++ int_text value.get_integer ++ (if opt then ")".toList else []))
  else if type.is_struct || type.is_xception then
    (publicize2 c.types.g (type_name c.types type) false).bind fun name =>
      struct_text.bind fun body =>
        .ok ("&".toList ++ name ++ "\x7b".toList ++ body ++ "\x7d".toList)
  else if type.is_map then
    (type_to_go_key_type c.types type.get_key_type).bind fun ktext =>
      (type_to_go_type c.types type.get_val_type).bind fun vtext =>
        map_text.bind fun body =>
          .ok ("map[".toList ++ ktext ++ "]".toList ++ vtext ++ "\x7b\n".toList ++ body ++
            c.indent level ++ "\x7d".toList)
  else if type.is_list then
    (type_to_go_type c.types type.get_elem_type).bind fun etext =>
      list_text.bind fun body =>
        .ok ("[]".toList ++ etext ++ "\x7b\n".toList ++ body ++ c.indent level ++ "\x7d".toList)
  else if type.is_set then
    (type_to_go_type c.types type.get_elem_type).bind fun etext =>
      list_text.bind fun body =>
        .ok ("[]".toList ++ etext ++ "\x7b\n".toList ++ body ++ c.indent level ++ "\x7d".toList)
  else .error (.thrown ("CANNOT GENERATE CONSTANT FOR TYPE: ".toList ++ type.get_name))

/-- One round of the loop over the entries of a map constant (lines 1321–1324). -/
def map_entry (c : const_context) (level : Nat) (key value more : Except Failure (List Char)) :
    Except Failure (List Char) :=
  key.bind fun k =>
    value.bind fun v =>
      more.bind fun tail =>
        .ok (c.indent level ++ k ++ ": ".toList ++ v ++ ",\n".toList ++ tail)

/-- One round of the loop over the elements of a list or set constant (lines 1335–1337 and
1349–1351). -/
def list_elem (c : const_context) (level : Nat) (elem more : Except Failure (List Char)) :
    Except Failure (List Char) :=
  elem.bind fun e => more.bind fun tail => .ok (c.indent level ++ e ++ ", ".toList ++ tail)

mutual

/-- The function `render_const_value(type, value, name, opt)` (lines 1144–1357) at an
indentation level. -/
def render_const_value (c : const_context) (type : t_type) (opt : Bool) (level : Nat) :
    t_const_value → Except Failure (List Char)
  | .CV_MAP mapVal =>
    render_with c type opt level (.CV_MAP mapVal)
      (render_struct_entries c type.get_true_type (level + 1) mapVal)
      (render_map_entries c type.get_true_type.get_key_type type.get_true_type.get_val_type
        (level + 1) mapVal)
      (.ok [])
  | .CV_LIST listVal =>
    render_with c type opt level (.CV_LIST listVal) (.ok []) (.ok [])
      (render_list_elems c type.get_true_type.get_elem_type (level + 1) listVal)
  | .CV_INTEGER n => render_with c type opt level (.CV_INTEGER n) (.ok []) (.ok []) (.ok [])
  | .CV_DOUBLE d => render_with c type opt level (.CV_DOUBLE d) (.ok []) (.ok []) (.ok [])
  | .CV_STRING s => render_with c type opt level (.CV_STRING s) (.ok []) (.ok []) (.ok [])
  | .CV_IDENTIFIER i n =>
    render_with c type opt level (.CV_IDENTIFIER i n) (.ok []) (.ok []) (.ok [])
termination_by structural v => v

/-- The loop over the entries of a struct constant (lines 1294–1309); `type` is the resolved
struct type. -/
def render_struct_entries (c : const_context) (type : t_type) (level : Nat) :
    List (t_const_value × t_const_value) → Except Failure (List Char)
  | [] => .ok []
  | (k, v) :: rest =>
    struct_entry c type level k (find_field (const_members c type) k.get_string none)
      (render_const_value c
        (found_type (find_field (const_members c type) k.get_string none))
        (found_optional (find_field (const_members c type) k.get_string none)) level v)
      (render_struct_entries c type level rest)
termination_by structural es => es

/-- The loop over the entries of a map constant (lines 1321–1324). -/
def render_map_entries (c : const_context) (ktype vtype : t_type) (level : Nat) :
    List (t_const_value × t_const_value) → Except Failure (List Char)
  | [] => .ok []
  | (k, v) :: rest =>
    map_entry c level (render_const_value c ktype false level k)
      (render_const_value c vtype false level v)
      (render_map_entries c ktype vtype level rest)
termination_by structural es => es

/-- The loop over the elements of a list or set constant (lines 1335–1337). -/
def render_list_elems (c : const_context) (etype : t_type) (level : Nat) :
    List t_const_value → Except Failure (List Char)
  | [] => .ok []
  | v :: rest =>
    list_elem c level (render_const_value c etype false level v)
      (render_list_elems c etype level rest)
termination_by structural vs => vs

end

/-- A struct with an optional member of its own type and an `i32` member. -/
def Node : t_struct :=
  { name_ := "Node".toList
    members_ := [⟨"next".toList, 1, .struct ("Node".toList) false, .T_OPTIONAL, none, []⟩,
                 ⟨"weight".toList, 2, .base_type .TYPE_I32 false, .T_OPT_IN_REQ_OUT, none, []⟩]
    is_union_ := false
    is_xception_ := false }

/-- A struct with a map member whose keys are lists, and an `i32` member. -/
def Keyed : t_struct :=
  { name_ := "Keyed".toList
    members_ := [⟨"a".toList, 1, .map (.list (.base_type .TYPE_I32 false))
                   (.base_type .TYPE_I32 false), .T_OPT_IN_REQ_OUT, none, []⟩,
                 ⟨"b".toList, 2, .base_type .TYPE_I32 false, .T_OPT_IN_REQ_OUT, none, []⟩]
    is_union_ := false
    is_xception_ := false }

/-- A context of constants for the structs `Node` and `Keyed`: strings are escaped as they
are, doubles are not printed, the indentation is two spaces per level. -/
def const_program : const_context :=
  { types := local_types
    structs := [Node, Keyed]
    get_escaped_string := fun v => v.get_string
    double_text := fun _ => []
    indent := fun level => List.replicate (2 * level) ' ' }

/-- The keys of the entries of a map constant, as strings. -/
def map_keys (value : t_const_value) : List (List Char) :=
  value.get_map.map (fun e => e.1.get_string)

/-- The names of the members of a struct. -/
def member_names (s : t_struct) : List (List Char) := s.members_.map (fun m => m.name_)

/-- An entry of a struct constant together with what the loop makes of it: the member of the
name of the key, its pointer-ness, the publicized key and the text of the value. -/
structure rendered_entry where
  key : t_const_value
  value : t_const_value
  member : t_field
  is_optional : Bool
  name : List Char
  text : List Char

/-- The constant `{next: {bogus: 3}}`: its only key is the name of a member of `Node`. -/
def nested_bogus : t_const_value :=
  .CV_MAP [(.CV_STRING "next".toList, .CV_MAP [(.CV_STRING "bogus".toList, .CV_INTEGER 3)])]

/-- The constant `{a: {}, zzz: 1}`: its key `zzz` is the name of no member of `Keyed`. -/
def masked_bogus : t_const_value :=
  .CV_MAP [(.CV_STRING "a".toList, .CV_MAP []), (.CV_STRING "zzz".toList, .CV_INTEGER 1)]

/-- The constant `{weight: 5, bogus: 1, next: {}}` for `Node`. -/
def second_bogus : t_const_value :=
  .CV_MAP [(.CV_STRING "weight".toList, .CV_INTEGER 5), (.CV_STRING "bogus".toList, .CV_INTEGER 1),
    (.CV_STRING "next".toList, .CV_MAP [])]

/-! ### NameMangler: `privatize` -/

/-- The statement `if (!islower(value2[0])) value2[0] = tolower(value2[0])` of `privatize`
(lines 553–555), which is reached for a non-empty string only. -/
def downcase_first (value2 : List Char) : List Char :=
  match value2 with
  | [] => []
  | c :: cs => (if !islower c then tolower c else c) :: cs

/-- The function `privatize(value)` (lines 546–560). -/
def privatize (g : t_go_generator) (value : List Char) : Except Failure (List Char) :=
  if value.length ≤ 0 then .ok value else camelcase g (downcase_first value)

/-- The word that `fix_common_initialism(value, i)` looks up in `commonInitialisms`: the
characters of `value` from the index `i` up to the next underscore, in upper case. -/
def initialism_word (value : List Char) (i : Nat) : List Char :=
  (substr value i ((find value '_' i).map (fun p => p - i))).map toupper

/-! ### ServiceEmitter: the result struct and the handler's return value -/

/-- The function `type_need_reference(type)` (lines 377–385). -/
def type_need_reference (type : t_type) : Bool :=
  let type := type.get_true_type
  if type.is_map || type.is_set || type.is_list || type.is_struct || type.is_xception
      || type.is_binary then false
  else true

/-- The member `success` that `generate_go_function_helpers` puts into the result struct of
a function (lines 2053–2054): the return type, the wire id 0, OPTIONAL. -/
def success_field (returntype : t_type) : t_field :=
  (t_field.mk "success".toList 0 returntype e_req.T_OPT_IN_REQ_OUT none []).set_req
    e_req.T_OPTIONAL

/-- The Go type of the field `Success` of the result struct, as
`generate_go_struct_definition` emits it (lines 1478–1479). -/
def success_go_type (c : type_context) (returntype : t_type) : Except Failure (List Char) :=
  field_go_type c (success_field returntype)

/-- The Go type of the value `retval` that the handler returns: the return type in the
signature that `function_signature_if` makes (line 3969). -/
def retval_go_type (c : type_context) (returntype : t_type) : Except Failure (List Char) :=
  type_to_go_type c returntype

/-- The Go type of the expression that `generate_process_function` assigns to
`result.Success` (lines 3052 and 3168–3172): `&retval` when `type_need_reference` holds for
the return type, else `retval`. -/
def assigned_go_type (c : type_context) (returntype : t_type) : Except Failure (List Char) :=
  (retval_go_type c returntype).bind fun t =>
    .ok (if type_need_reference returntype then "*".toList ++ t else t)

/-- The typedef `typedef Foo Bar` of a struct `Foo`. -/
def Bar : t_type := .typedef ("Bar".toList) (.struct ("Foo".toList) false)

/-! ### The constructor functions `<Type>Ptr` -/

/-- The name of the function `<Enum>Ptr` that `generate_enum` declares for an enum (lines
1036 and 1086). -/
def enum_ptr_function (g : t_go_generator) (tenum_name : List Char) :
    Except Failure (List Char) :=
  (publicize2 g tenum_name false).bind fun tenum_name => .ok (tenum_name ++ "Ptr".toList)

/-- The name of the function `<Typedef>Ptr` that `generate_typedef` declares for a typedef
with the symbolic name `symbolic` of the type `type` (lines 1012–1026); `none` when the
function returns before it emits anything (line 1017). -/
def typedef_ptr_function (c : type_context) (symbolic : List Char) (type : t_type) :
    Except Failure (Option (List Char)) :=
  (publicize2 c.g symbolic false).bind fun new_type_name =>
    (type_to_go_type c type).bind fun base_type =>
      if base_type == new_type_name then .ok none
      else .ok (some (new_type_name ++ "Ptr".toList))

/-- The enum `color_kind`. -/
def color_kind : t_type := .enum "color_kind".toList

/-- The typedef `typedef i32 user_id`. -/
def user_id : t_type := .typedef ("user_id".toList) (.base_type .TYPE_I32 false)

/-! ### Inputs of the equality and union properties -/

/-- The struct `Tally { 1: map<i32, i32> counts }`. -/
def Tally : t_struct :=
  ⟨"Tally".toList,
    [⟨"counts".toList, 1, .map (.base_type .TYPE_I32 false) (.base_type .TYPE_I32 false),
      e_req.T_OPT_IN_REQ_OUT, none, []⟩],
    false, false⟩

/-- A `Tally` whose map is `{1: 0}`. -/
def tally_one : go_value := .struct_ptr [.map [(.int 1, .int 0)]]

/-- A `Tally` whose map is `{2: 5}`. -/
def tally_two : go_value := .struct_ptr [.map [(.int 2, .int 5)]]

/-- The keys of the map in the first field of a struct value. -/
def first_map_keys (v : go_value) : List go_value :=
  (go_entries ((go_fields v).headD .nil)).map Prod.fst

/-- A union whose only member is a `list<i32>` with the negative wire id -1 (a member
declared without a wire id), as the parser hands it over: the member is OPTIONAL. -/
def union_negative_list : t_struct :=
  { name_ := "U".toList
    members_ := [⟨"xs".toList, -1, .list (.base_type .TYPE_I32 false), .T_OPTIONAL,
      none, []⟩]
    is_union_ := true
    is_xception_ := false }

/-! ### StructEmitter: the wire id in the thrift tag -/

/-- The loop of lines 1460–1517 over the wire ids of the sorted members, as far as the
thrift tags go: for each member the value of `sorted_keys_pos` that line 1510 writes into
its tag, after the scan of lines 1465–1476; after the line `sorted_keys_pos` is incremented
(line 1516). -/
def tag_scan : List Int → Int → Except Failure (List Int)
  | [], _ => .ok []
  | key :: rest, sorted_keys_pos =>
    (unused_before sorted_keys_pos key).bind fun r =>
      (int_incr r.2).bind fun next =>
        (tag_scan rest next).bind fun ids => .ok (r.2 :: ids)

/-- The wire ids in the thrift tags that `generate_go_struct_definition` emits for a struct
(lines 1456–1517), one per sorted member; none in the untagged branch of line 1518. -/
def struct_tag_ids (s : t_struct) : Except Failure (List Int) :=
  if s.sorted_positions.isEmpty || decide (key_at s.members_ (s.sorted_positions.headD 0) ≥ 0)
  then tag_scan (sorted_keys s) 0
  else .ok []

/-- The struct `Paint { 1: optional color_kind shade, 2: optional user_id owner }`. -/
def Paint : t_struct :=
  ⟨"Paint".toList,
    [⟨"shade".toList, 1, color_kind, e_req.T_OPTIONAL, none, []⟩,
      ⟨"owner".toList, 2, user_id, e_req.T_OPTIONAL, none, []⟩],
    false, false⟩

/-- The context of constants of a program with the struct `Paint`. -/
def paint_program : const_context := { const_program with structs := [Paint] }

/-- The constant `{owner: 5, shade: 1}` for `Paint`. -/
def a_paint : t_const_value :=
  .CV_MAP [(.CV_STRING "owner".toList, .CV_INTEGER 5),
    (.CV_STRING "shade".toList, .CV_INTEGER 1)]

/-! ### Inputs of the properties of the two branches of the struct body -/

/-- An OPTIONAL `i32` member declared without a wire id: it gets the id -1. -/
def sample_field : t_field :=
  ⟨"n".toList, -1, .base_type .TYPE_I32 false, .T_OPTIONAL, none, []⟩

/-- The struct `Sample { optional i32 n }`, whose smallest wire id is negative. -/
def Sample : t_struct := ⟨"Sample".toList, [sample_field], false, false⟩

/-- The struct `Label { string name }`, whose member is declared without a wire id and gets
the id -1. -/
def Label : t_struct :=
  ⟨"Label".toList,
    [⟨"name".toList, -1, .base_type .TYPE_STRING false, e_req.T_OPT_IN_REQ_OUT, none, []⟩],
    false, false⟩

/-- The struct `Gauge { 1: i32 unit, 2: required i32 level }`. -/
def Gauge : t_struct :=
  ⟨"Gauge".toList,
    [⟨"unit".toList, 1, .base_type .TYPE_I32 false, e_req.T_OPT_IN_REQ_OUT, none, []⟩,
      ⟨"level".toList, 2, .base_type .TYPE_I32 false, e_req.T_REQUIRED, none, []⟩],
    false, false⟩

/-- The struct `Panel { 1: required Gauge gauge }`. -/
def Panel : t_struct :=
  ⟨"Panel".toList,
    [⟨"gauge".toList, 1, .struct ("Gauge".toList) false, e_req.T_REQUIRED, none, []⟩],
    false, false⟩

/-- The struct `Roster { 1: required i32 id, 2: list<i32> tags }`. -/
def Roster : t_struct :=
  ⟨"Roster".toList,
    [⟨"id".toList, 1, .base_type .TYPE_I32 false, e_req.T_REQUIRED, none, []⟩,
      ⟨"tags".toList, 2, .list (.base_type .TYPE_I32 false), e_req.T_OPT_IN_REQ_OUT, none,
        []⟩],
    false, false⟩

/-- The items of a `Panel` whose field `gauge` holds a `Gauge` without fields. -/
def panel_items : List tok :=
  [.StructBegin "Panel".toList, .FieldBegin "gauge".toList TType.STRUCT 1,
    .StructBegin "Gauge".toList, .FieldStop, .StructEnd, .FieldEnd, .FieldStop, .StructEnd]

/-- The items of a `Roster` without the field `id`, whose field `tags` is a list of the
size -1. -/
def roster_items : List tok :=
  [.StructBegin "Roster".toList, .FieldBegin "tags".toList TType.LIST 2,
    .ListBegin TType.I32 (-1), .ListEnd, .FieldEnd, .FieldStop, .StructEnd]

/-! ## Part II. Lemmas and theorems -/

/-! ### Characters and words -/

theorem char_eq_ofNat_toNat (c : Char) : c = Char.ofNat c.toNat := by
  simp [Char.ofNat_toNat]

theorem islower_mem (c : Char) (h : islower c = true) :
    c ∈ "abcdefghijklmnopqrstuvwxyz".toList := by
  rw [char_eq_ofNat_toNat c]
  simp only [islower, Bool.and_eq_true, decide_eq_true_eq] at h
  obtain ⟨h1, h2⟩ := h
  generalize c.toNat = n at h1 h2
  interval_cases n <;> decide

theorem isdigit_mem (c : Char) (h : isdigit c = true) :
    c ∈ "0123456789".toList := by
  rw [char_eq_ofNat_toNat c]
  simp only [isdigit, Bool.and_eq_true, decide_eq_true_eq] at h
  obtain ⟨h1, h2⟩ := h
  generalize c.toNat = n at h1 h2
  interval_cases n <;> decide

theorem toupper_ne_underscore (c : Char) (h : c ≠ '_') : toupper c ≠ '_' := by
  unfold toupper
  split
  · next hl =>
    have := islower_mem c hl
    revert this
    generalize c = d
    revert d
    decide
  · exact h

theorem toupper_toupper (c : Char) : toupper (toupper c) = toupper c := by
  by_cases hl : islower c = true
  · have := islower_mem c hl
    revert this
    generalize c = d
    revert d
    decide
  · have h1 : toupper c = c := by simp [toupper, hl]
    rw [h1, h1]

theorem islower_facts (c : Char) (h : islower c = true) :
    c ≠ '_' ∧ c ≠ '.' ∧ isupper c = false := by
  have := islower_mem c h
  revert this
  generalize c = d
  revert d
  decide

theorem isdigit_facts (c : Char) (h : isdigit c = true) : c ≠ '_' ∧ c ≠ '.' := by
  have := isdigit_mem c h
  revert this
  generalize c = d
  revert d
  decide

theorem word_cons (w : List Char) (h : is_word w = true) :
    ∃ c cs, w = c :: cs ∧ islower c = true ∧ ∀ d ∈ cs, d ≠ '_' ∧ d ≠ '.' := by
  cases w with
  | nil => simp [is_word] at h
  | cons c cs =>
    simp only [is_word, Bool.and_eq_true, List.all_eq_true, Bool.or_eq_true] at h
    refine ⟨c, cs, rfl, h.1, ?_⟩
    intro d hd
    rcases h.2 d hd with h' | h'
    · exact ⟨(islower_facts d h').1, (islower_facts d h').2.1⟩
    · exact isdigit_facts d h'

theorem word_chars (w : List Char) (h : is_word w = true) :
    ∀ d ∈ w, d ≠ '_' ∧ d ≠ '.' := by
  obtain ⟨c, cs, rfl, hc, hcs⟩ := word_cons w h
  intro d hd
  rcases List.mem_cons.1 hd with rfl | hd
  · exact ⟨(islower_facts d hc).1, (islower_facts d hc).2.1⟩
  · exact hcs d hd

theorem upcase_first_word (w : List Char) (h : is_word w = true) :
    ∃ c cs, w = c :: cs ∧ islower c = true ∧ upcase_first w = toupper c :: cs := by
  obtain ⟨c, cs, rfl, hc, _⟩ := word_cons w h
  exact ⟨c, cs, rfl, hc, by simp [upcase_first, (islower_facts c hc).2.2]⟩

theorem map_toupper_upcase_first (w : List Char) :
    (upcase_first w).map toupper = w.map toupper := by
  cases w with
  | nil => rfl
  | cons c cs =>
    simp only [upcase_first, List.map_cons, List.cons.injEq, and_true]
    split
    · exact toupper_toupper c
    · rfl

theorem upcase_first_length (w : List Char) : (upcase_first w).length = w.length := by
  cases w <;> simp [upcase_first]

theorem camel_word_length (g : t_go_generator) (w : List Char) :
    (camel_word g w).length = w.length := by
  unfold camel_word
  split <;> simp [upcase_first_length]

theorem camel_word_chars (g : t_go_generator) (w : List Char) (h : is_word w = true) :
    ∀ d ∈ camel_word g w, d ≠ '_' := by
  have hw := word_chars w h
  unfold camel_word
  split
  · intro d hd
    obtain ⟨e, he, rfl⟩ := List.mem_map.1 hd
    exact toupper_ne_underscore e (hw e he).1
  · obtain ⟨c, cs, rfl, hc, hu⟩ := upcase_first_word w h
    rw [hu]
    intro d hd
    rcases List.mem_cons.1 hd with rfl | hd
    · exact toupper_ne_underscore c (islower_facts c hc).1
    · exact (hw d (List.mem_cons_of_mem _ hd)).1

/-! ### `camelcase` on underscore-joined words -/

theorem underscored_tail_ok (ws : List (List Char)) : tail_ok (underscored ws) := by
  cases ws with
  | nil => exact Or.inl rfl
  | cons w ws => exact Or.inr ⟨w ++ underscored ws, by simp [underscored]⟩

theorem word_at (A W T : List Char) (hW : ∀ d ∈ W, d ≠ '_') (hT : tail_ok T) :
    substr (A ++ W ++ T) A.length ((find (A ++ W ++ T) '_' A.length).map (fun p => p - A.length))
      = W := by
  have hdrop : (A ++ W ++ T).drop A.length = W ++ T := by
    rw [List.append_assoc, List.drop_left]
  have htw : ∀ T1, (W ++ '_' :: T1).takeWhile (fun x => x != '_') = W := by
    intro T1
    rw [List.takeWhile_append_of_pos (by intro a ha; simpa using hW a ha)]
    simp
  rcases hT with rfl | ⟨T1, rfl⟩
  · have hnot : '_' ∉ W := fun hm => hW _ hm rfl
    simp [find, substr, hdrop, hnot]
  · simp [find, substr, hdrop, htw]

theorem take_three (A W T : List Char) : (A ++ W ++ T).take A.length = A := by
  rw [List.append_assoc, List.take_left]

theorem drop_three (A W T : List Char) : (A ++ W ++ T).drop (A.length + W.length) = T := by
  have : A.length + W.length = (A ++ W).length := by simp
  rw [this, List.drop_left]

theorem camelcase_loop_succ (g : t_go_generator) (fuel i : Nat) (value2 : List Char) :
    camelcase_loop g (fuel + 1) i value2 =
    if i < (value2.length + SIZE_MAX) % (SIZE_MAX + 1) then
      match value2[i]? with
      | none => .error .undefined_behaviour
      | some c =>
        if c = '_' then
          match value2[i + 1]? with
          | none => .error .undefined_behaviour
          | some d =>
            if i > INT_MAX then
              .error (.thrown "integer overflow in t_go_generator::camelcase".toList)
            else
              camelcase_loop g fuel (i + 1)
                (fix_common_initialism g
                  (if islower d then replace value2 i 2 [toupper d] else value2) i)
        else camelcase_loop g fuel (i + 1) value2
    else .ok value2 := rfl

theorem fix_common_initialism_at (g : t_go_generator) (hg : g.ignore_initialisms_ = false)
    (A W T : List Char) (hW : ∀ d ∈ W, d ≠ '_') (hT : tail_ok T) :
    fix_common_initialism g (A ++ W ++ T) A.length =
      A ++ (if W.map toupper ∈ g.commonInitialisms then W.map toupper else W) ++ T := by
  unfold fix_common_initialism
  simp only [hg, Bool.not_false, if_true]
  rw [word_at A W T hW hT]
  split
  · simp only [replace, List.length_map]
    rw [take_three, drop_three]
  · rfl

theorem fix_common_initialism_word (g : t_go_generator) (hg : g.ignore_initialisms_ = false)
    (A w T : List Char) (hw : is_word w = true) (hT : tail_ok T) :
    fix_common_initialism g (A ++ upcase_first w ++ T) A.length = A ++ camel_word g w ++ T := by
  have hW : ∀ d ∈ upcase_first w, d ≠ '_' := by
    obtain ⟨c, cs, rfl, hc, hu⟩ := upcase_first_word w hw
    rw [hu]
    intro d hd
    rcases List.mem_cons.1 hd with rfl | hd
    · exact toupper_ne_underscore c (islower_facts c hc).1
    · exact (word_chars _ hw d (List.mem_cons_of_mem _ hd)).1
  rw [fix_common_initialism_at g hg A _ T hW hT, map_toupper_upcase_first]
  rfl

theorem size_minus_one (n : Nat) (h1 : 1 ≤ n) (h2 : n < 2 ^ 31) :
    (n + SIZE_MAX) % (SIZE_MAX + 1) = n - 1 := by
  simp only [SIZE_MAX]
  omega

theorem underscored_cons (w : List Char) (ws : List (List Char)) :
    underscored (w :: ws) = '_' :: (w ++ underscored ws) := by
  simp [underscored]

theorem camel_words_cons (g : t_go_generator) (w : List Char) (ws : List (List Char)) :
    camel_words g (w :: ws) = camel_word g w ++ camel_words g ws := by
  simp [camel_words]

theorem camelcase_loop_words (g : t_go_generator) (hg : g.ignore_initialisms_ = false) :
    ∀ (fuel i : Nat) (A : List Char) (ws : List (List Char)),
      (∀ c ∈ A, c ≠ '_') → 1 ≤ i → i ≤ A.length → (∀ w ∈ ws, is_word w = true) →
      (A ++ underscored ws).length < 2 ^ 31 →
      (A ++ underscored ws).length < fuel + i →
      camelcase_loop g fuel i (A ++ underscored ws) = .ok (A ++ camel_words g ws) := by
  intro fuel
  induction fuel with
  | zero =>
    intro i A ws _ _ hiA _ _ hf
    simp only [List.length_append] at hf
    omega
  | succ fuel ih =>
    intro i A ws hA hi hiA hws hlen hf
    rw [camelcase_loop_succ]
    rw [size_minus_one _ (by simp only [List.length_append]; omega) hlen]
    by_cases hlt : i < (A ++ underscored ws).length - 1
    · rw [if_pos hlt]
      by_cases hiA2 : i < A.length
      · have hget : (A ++ underscored ws)[i]? = some A[i] := by
          rw [List.getElem?_append_left hiA2, List.getElem?_eq_getElem hiA2]
        rw [hget]
        have hne : A[i] ≠ '_' := hA _ (List.getElem_mem _)
        simp only [hne, if_false]
        exact ih (i + 1) A ws hA (by omega) (by omega) hws hlen (by omega)
      · have hiA3 : i = A.length := by omega
        subst hiA3
        cases ws with
        | nil =>
          exfalso
          simp only [underscored, List.map_nil, List.flatten_nil, List.append_nil] at hlt
          omega
        | cons w ws =>
          have hw := hws w (List.mem_cons_self _ _)
          obtain ⟨c, cs, rfl, hc, hu⟩ := upcase_first_word _ hw
          rw [underscored_cons] at hlen hf ⊢
          have hget0 : (A ++ '_' :: (c :: cs ++ underscored ws))[A.length]? = some '_' := by
            rw [List.getElem?_append_right (le_refl _)]
            simp
          have hget1 : (A ++ '_' :: (c :: cs ++ underscored ws))[A.length + 1]? = some c := by
            rw [List.getElem?_append_right (by omega)]
            simp
          rw [hget0]
          simp only [if_true]
          rw [hget1]
          simp only [hc, if_true]
          have hint : ¬ A.length > INT_MAX := by
            simp only [List.length_append] at hlen
            simp only [INT_MAX]
            omega
          rw [if_neg hint]
          have hrep : replace (A ++ '_' :: (c :: cs ++ underscored ws)) A.length 2 [toupper c]
              = A ++ upcase_first (c :: cs) ++ underscored ws := by
            rw [hu]
            simp only [replace]
            rw [List.take_left, List.drop_append]
            simp
          rw [hrep, fix_common_initialism_word g hg A _ _ hw (underscored_tail_ok ws)]
          have hcl := camel_word_length g (c :: cs)
          have key := ih (A.length + 1) (A ++ camel_word g (c :: cs)) ws
            (by
              intro d hd
              rcases List.mem_append.1 hd with hd | hd
              · exact hA d hd
              · exact camel_word_chars g _ hw d hd)
            (by omega)
            (by simp only [List.length_append, hcl, List.length_cons]; omega)
            (fun w1 hw1 => hws w1 (List.mem_cons_of_mem _ hw1))
            (by
              simp only [List.length_append, hcl, List.length_cons] at hlen ⊢
              omega)
            (by
              simp only [List.length_append, hcl, List.length_cons] at hf ⊢
              omega)
          rw [key, camel_words_cons, List.append_assoc]
    · rw [if_neg hlt]
      cases ws with
      | nil => simp [underscored, camel_words]
      | cons w ws =>
        exfalso
        obtain ⟨c, cs, rfl, -, -⟩ := word_cons w (hws w (List.mem_cons_self _ _))
        rw [underscored_cons] at hlt
        simp only [List.length_append, List.length_cons] at hlt
        omega

theorem intercalate_underscore (w : List Char) (ws : List (List Char)) :
    List.intercalate ['_'] (w :: ws) = w ++ underscored ws := by
  induction ws generalizing w with
  | nil => simp [List.intercalate, underscored]
  | cons w1 ws ih =>
    have h := ih w1
    simp only [List.intercalate, List.intersperse, List.flatten_cons] at h ⊢
    rw [h, underscored_cons]
    simp

theorem camelcase_words (g : t_go_generator) (hg : g.ignore_initialisms_ = false)
    (w : List Char) (ws : List (List Char)) (hw : is_word w = true)
    (hws : ∀ v ∈ ws, is_word v = true) (hlen : (w ++ underscored ws).length < 2 ^ 31) :
    camelcase g (upcase_first w ++ underscored ws) = .ok (camel_words g (w :: ws)) := by
  unfold camelcase
  have h0 := fix_common_initialism_word g hg [] w (underscored ws) hw (underscored_tail_ok ws)
  simp only [List.nil_append, List.length_nil] at h0
  rw [h0, camel_words_cons]
  have hcl := camel_word_length g w
  obtain ⟨c, cs, rfl, -, -⟩ := word_cons w hw
  apply camelcase_loop_words g hg _ 1 (camel_word g (c :: cs)) ws (camel_word_chars g _ hw)
    (le_refl 1) (by rw [hcl]; simp) hws
  · simp only [List.length_append, hcl] at hlen ⊢
    exact hlen
  · simp only [List.length_append, hcl, upcase_first_length]
    omega

theorem starts_check (c : List Char) :
    (c.length ≥ 3 ∧ substr c 0 (some 3) = "New".toList) ↔ c.take 3 = "New".toList := by
  simp only [substr, List.drop_zero]
  constructor
  · exact fun h => h.2
  · intro h
    refine ⟨?_, h⟩
    have := congrArg List.length h
    simp only [List.length_take] at this
    have h3 : "New".toList.length = 3 := rfl
    omega

theorem ends_check (c s p : List Char) (k : Nat) (hp : p.length = k) :
    (decide (c.length ≥ k) && (substr (c ++ s) (c.length - k) (some k) == p)) =
      decide (c.drop (c.length - k) = p) := by
  by_cases hk : c.length ≥ k
  · have h1 : substr (c ++ s) (c.length - k) (some k) = c.drop (c.length - k) := by
      simp only [substr]
      rw [List.drop_append_of_le_length (by omega), List.take_append_of_le_length (by simp; omega)]
      apply List.take_of_length_le
      simp
      omega
    rw [h1]
    by_cases h : c.drop (c.length - k) = p
    · simp [hk, h]
    · simp [hk, h]
  · have h2 : c.drop (c.length - k) ≠ p := by
      intro h
      have := congrArg List.length h
      simp only [List.length_drop] at this
      omega
    simp [hk, h2]

theorem suffix_rules (c : List Char) :
    append_underscores false c = c ++ name_suffix c := by
  have hor : ∀ s : List Char,
      (decide (c.length ≥ 4) && (substr (c ++ s) (c.length - 4) (some 4) == "Args".toList)
        || decide (c.length ≥ 6) && (substr (c ++ s) (c.length - 6) (some 6) == "Result".toList))
      = decide (c.drop (c.length - 4) = "Args".toList ∨
          c.drop (c.length - 6) = "Result".toList) := by
    intro s
    rw [ends_check c s "Args".toList 4 rfl, ends_check c s "Result".toList 6 rfl,
      Bool.decide_or]
  have hor0 := hor []
  rw [List.append_nil] at hor0
  simp only [append_underscores, name_suffix, starts_check, Bool.not_false, if_true]
  by_cases hn : c.take 3 = "New".toList
  · simp only [hn, if_true, hor, decide_eq_true_eq]
    split
    · rw [List.append_assoc]
    · rw [List.append_nil]
  · simp only [hn, if_false, hor0, decide_eq_true_eq]
    split
    · rw [List.nil_append]
    · rw [List.nil_append, List.append_nil]

theorem rfind_none (value : List Char) (h : '.' ∉ value) : rfind value '.' = none := by
  simp [rfind, h]

theorem publicize_body_plain (g : t_go_generator) (value c : List Char)
    (nested : Except Failure (List Char)) (hne : value ≠ []) (hdot : '.' ∉ value)
    (hc : camelcase g (upcase_first value) = .ok c) :
    publicize_body g value false nested = .ok (c ++ name_suffix c) := by
  have hl : ¬ value.length ≤ 0 := by
    have := List.length_pos.2 hne
    omega
  have hs : split_qualifier value = ([], value) := by
    simp only [split_qualifier, rfind_none value hdot]
  unfold publicize_body
  rw [hs]
  dsimp only
  rw [hc]
  simp only [hl, Except.bind, Bool.false_eq_true, if_false, List.nil_append, suffix_rules]

theorem split_qualifier_no_dot (value : List Char) (hdot : '.' ∉ value) :
    split_qualifier value = ([], value) := by
  simp only [split_qualifier, rfind_none value hdot]

/-- C1: with initialism correction enabled, `publicize` (with `is_args_or_result` false) of
one or more words joined by single underscores, each word a lower-case letter followed by
lower-case letters or digits, is the concatenation of the words, each spelled all upper-case
when its upper-case spelling is a common initialism and otherwise with only its first letter
upper-cased, followed only by the underscores of the New/Args/Result rules. The identifier is
shorter than `2 ^ 31` characters, so that the overflow guard of `camelcase` is not met. -/
theorem publicize_words (g : t_go_generator) (ws : List (List Char)) (service_name : List Char)
    (hg : g.ignore_initialisms_ = false) (hne : ws ≠ [])
    (hws : ∀ w ∈ ws, is_word w = true)
    (hlen : (List.intercalate ['_'] ws).length < 2 ^ 31) :
    publicize g (List.intercalate ['_'] ws) false service_name =
      .ok (camel_words g ws ++ name_suffix (camel_words g ws)) := by
  cases ws with
  | nil => exact absurd rfl hne
  | cons w ws =>
    rw [intercalate_underscore] at hlen ⊢
    have hw := hws w (List.mem_cons_self _ _)
    have hws1 : ∀ v ∈ ws, is_word v = true := fun v hv => hws v (List.mem_cons_of_mem _ hv)
    obtain ⟨c, cs, rfl, hc, hu⟩ := upcase_first_word w hw
    have hup : upcase_first (c :: cs ++ underscored ws) =
        upcase_first (c :: cs) ++ underscored ws := by
      simp [upcase_first]
    have hdot : '.' ∉ c :: cs ++ underscored ws := by
      intro hmem
      rcases List.mem_append.1 hmem with h | h
      · exact (word_chars _ hw _ h).2 rfl
      · simp only [underscored, List.mem_flatten, List.mem_map] at h
        obtain ⟨l, ⟨v, hv, rfl⟩, hl⟩ := h
        rcases List.mem_cons.1 hl with h1 | h1
        · exact absurd h1 (by decide)
        · exact (word_chars _ (hws1 v hv) _ h1).2 rfl
    unfold publicize
    apply publicize_body_plain g _ _ _ (by simp) hdot
    rw [hup]
    exact camelcase_words g hg _ ws hw hws1 hlen

/-- Witness of C1: `publicize("api_key")` is "APIKey". -/
theorem publicize_api_key :
    publicize (init_generator ⟨false, [], []⟩) "api_key".toList false [] =
      .ok "APIKey".toList :=
  publicize_words (init_generator ⟨false, [], []⟩) ["api".toList, "key".toList] [] rfl
    (by decide) (by decide) (by decide)

/-! ### `is_pointer_field` -/

/-- C2: for a field without the `cpp.ref` annotation whose requiredness is OPTIONAL,
`is_pointer_field` returns: for string, bool, i8/i16/i32/i64, double and enum types, true iff
the field has no default value; for binary, false whether or not a default is given; for map,
set and list types, true iff a default value is given. -/
theorem is_pointer_field_optional (f : t_field)
    (href : f.annotations_count "cpp.ref".toList = 0) (hreq : f.req_ = e_req.T_OPTIONAL) :
    (((f.type_.get_true_type.is_base_type = true ∧
          f.type_.get_true_type.get_base ≠ t_base.TYPE_VOID ∧
          f.type_.get_true_type.is_binary = false) ∨
        f.type_.get_true_type.is_enum = true) →
      is_pointer_field f = .ok f.value_.isNone) ∧
    (f.type_.get_true_type.is_binary = true → is_pointer_field f = .ok false) ∧
    (f.type_.get_true_type.is_container = true → is_pointer_field f = .ok f.value_.isSome) := by
  have hnone : (!f.value_.isSome) = f.value_.isNone := by cases f.value_ <;> rfl
  unfold is_pointer_field
  simp only [href, hreq]
  generalize f.type_.get_true_type = T
  refine ⟨?_, ?_, ?_⟩
  · intro h
    cases T with
    | base_type b bin =>
      cases b <;> cases bin <;>
        simp_all [t_type.is_base_type, t_type.get_base, t_type.is_binary, t_type.is_struct,
          t_type.is_xception, t_type.is_enum]
    | enum n =>
      simp [t_type.is_base_type, t_type.is_struct, t_type.is_xception, t_type.is_enum, hnone]
    | struct n x => simp [t_type.is_base_type, t_type.is_enum] at h
    | map k v => simp [t_type.is_base_type, t_type.is_enum] at h
    | set e => simp [t_type.is_base_type, t_type.is_enum] at h
    | list e => simp [t_type.is_base_type, t_type.is_enum] at h
    | typedef n t => simp [t_type.is_base_type, t_type.is_enum] at h
  · intro h
    cases T with
    | base_type b bin =>
      cases b <;> cases bin <;>
        simp_all [t_type.is_base_type, t_type.get_base, t_type.is_binary, t_type.is_struct,
          t_type.is_xception]
    | enum n => simp [t_type.is_binary] at h
    | struct n x => simp [t_type.is_binary] at h
    | map k v => simp [t_type.is_binary] at h
    | set e => simp [t_type.is_binary] at h
    | list e => simp [t_type.is_binary] at h
    | typedef n t => simp [t_type.is_binary] at h
  · intro h
    cases T with
    | base_type b bin => simp [t_type.is_container, t_type.is_map, t_type.is_set,
        t_type.is_list] at h
    | enum n => simp [t_type.is_container, t_type.is_map, t_type.is_set, t_type.is_list] at h
    | struct n x => simp [t_type.is_container, t_type.is_map, t_type.is_set,
        t_type.is_list] at h
    | map k v =>
      simp [t_type.is_base_type, t_type.is_struct, t_type.is_xception, t_type.is_enum,
        t_type.is_map]
    | set e =>
      simp [t_type.is_base_type, t_type.is_struct, t_type.is_xception, t_type.is_enum,
        t_type.is_map, t_type.is_set]
    | list e =>
      simp [t_type.is_base_type, t_type.is_struct, t_type.is_xception, t_type.is_enum,
        t_type.is_map, t_type.is_set, t_type.is_list]
    | typedef n t => simp [t_type.is_container, t_type.is_map, t_type.is_set,
        t_type.is_list] at h

/-- Witness of C2: an OPTIONAL `i32` without default is a pointer field, an OPTIONAL binary
with a default is not, and an OPTIONAL list with a default is. -/
theorem is_pointer_field_optional_witness :
    is_pointer_field ⟨"a".toList, 1, .base_type .TYPE_I32 false, .T_OPTIONAL, none, []⟩
      = .ok true ∧
    is_pointer_field ⟨"b".toList, 2, .base_type .TYPE_STRING true, .T_OPTIONAL,
      some (.CV_STRING "x".toList), []⟩ = .ok false ∧
    is_pointer_field ⟨"c".toList, 3, .list (.base_type .TYPE_I32 false), .T_OPTIONAL,
      some (.CV_LIST []), []⟩ = .ok true :=
  ⟨(is_pointer_field_optional
      ⟨"a".toList, 1, .base_type .TYPE_I32 false, .T_OPTIONAL, none, []⟩ rfl rfl).1
      (Or.inl ⟨rfl, by decide, rfl⟩),
   (is_pointer_field_optional
      ⟨"b".toList, 2, .base_type .TYPE_STRING true, .T_OPTIONAL,
        some (.CV_STRING "x".toList), []⟩ rfl rfl).2.1 rfl,
   (is_pointer_field_optional
      ⟨"c".toList, 3, .list (.base_type .TYPE_I32 false), .T_OPTIONAL,
        some (.CV_LIST []), []⟩ rfl rfl).2.2 rfl⟩

/-- C3: `is_pointer_field` evaluates its first three rules in order: a field carrying the
`cpp.ref` annotation is a pointer field whatever its type and requiredness; otherwise a field
whose typedef-resolved type is a struct or exception is a pointer field whatever its
requiredness; otherwise a field that is not OPTIONAL is not a pointer field, whatever its type
and default. -/
theorem is_pointer_field_first_rules (f : t_field) :
    (f.annotations_count "cpp.ref".toList ≠ 0 → is_pointer_field f = .ok true) ∧
    (f.annotations_count "cpp.ref".toList = 0 →
      (f.type_.get_true_type.is_struct = true ∨ f.type_.get_true_type.is_xception = true) →
      is_pointer_field f = .ok true) ∧
    (f.annotations_count "cpp.ref".toList = 0 →
      ¬ (f.type_.get_true_type.is_struct = true ∨ f.type_.get_true_type.is_xception = true) →
      f.req_ ≠ e_req.T_OPTIONAL →
      is_pointer_field f = .ok false) := by
  unfold is_pointer_field
  generalize f.annotations_count "cpp.ref".toList = k
  generalize f.type_.get_true_type = T
  refine ⟨?_, ?_, ?_⟩
  · intro h
    simp [h]
  · intro h hs
    subst h
    rcases hs with hs | hs <;> simp [hs]
  · intro h hs hreq
    subst h
    have h1 : (T.is_struct || T.is_xception) = false := by
      simpa using hs
    simp [h1, hreq]

/-- Witness of C3: a REQUIRED `i32` with `cpp.ref` is a pointer field, a REQUIRED field of
a typedef of a struct is a pointer field, and a REQUIRED list with a default is not. -/
theorem is_pointer_field_first_rules_witness :
    is_pointer_field ⟨"a".toList, 1, .base_type .TYPE_I32 false, .T_REQUIRED, none,
      [("cpp.ref".toList, [])]⟩ = .ok true ∧
    is_pointer_field ⟨"b".toList, 2, .typedef ("T".toList) (.struct "S".toList false),
      .T_REQUIRED, none, []⟩ = .ok true ∧
    is_pointer_field ⟨"c".toList, 3, .list (.base_type .TYPE_I32 false), .T_REQUIRED,
      some (.CV_LIST []), []⟩ = .ok false :=
  ⟨(is_pointer_field_first_rules _).1 (by decide),
   (is_pointer_field_first_rules _).2.1 (by decide) (Or.inl rfl),
   (is_pointer_field_first_rules _).2.2 (by decide) (by decide) (by decide)⟩

/-! ### `publicize`: the "New" rule -/

theorem append_underscores_new (b : Bool) (camel : List Char)
    (hnew : camel.take 3 = "New".toList) :
    ∃ r, append_underscores b camel = r ++ ['_'] := by
  cases b with
  | true =>
    refine ⟨camel, ?_⟩
    simp only [append_underscores, starts_check, hnew, if_true, Bool.not_true,
      Bool.false_eq_true, if_false]
  | false =>
    rw [suffix_rules]
    simp only [name_suffix, hnew, if_true]
    split
    · exact ⟨camel ++ ['_'], by simp⟩
    · exact ⟨camel, by simp⟩

/-- C10: for every non-empty identifier without a dot, whenever the camel-cased name computed
inside `publicize` begins with "New" (so has at least 3 characters), the string `publicize`
returns ends with an underscore, for both values of `is_args_or_result` (when it is true, the
nested call `publicize(service_name)` is taken to return). -/
theorem publicize_new_underscore (g : t_go_generator) (value service_name camel : List Char)
    (is_args_or_result : Bool) (hne : value ≠ []) (hdot : '.' ∉ value)
    (hcamel : camelcase g (upcase_first value) = .ok camel)
    (hnew : camel.take 3 = "New".toList)
    (hsvc : is_args_or_result = true → ∃ svc, publicize_plain g service_name = .ok svc) :
    ∃ r, publicize g value is_args_or_result service_name = .ok (r ++ ['_']) := by
  have hl : ¬ value.length ≤ 0 := by
    have := List.length_pos.2 hne
    omega
  obtain ⟨r, hr⟩ := append_underscores_new is_args_or_result camel hnew
  unfold publicize publicize_body
  rw [split_qualifier_no_dot value hdot]
  dsimp only
  rw [hcamel]
  cases is_args_or_result with
  | true =>
    obtain ⟨svc, hs⟩ := hsvc rfl
    rw [hs]
    refine ⟨svc ++ r, ?_⟩
    simp only [hl, Except.bind, if_true, if_false, List.nil_append, hr, List.append_assoc]
  | false =>
    refine ⟨r, ?_⟩
    simp only [hl, Except.bind, Bool.false_eq_true, if_false, List.nil_append, hr]

/-- Witness of C10: `publicize("new_widget")` is "NewWidget_". -/
theorem publicize_new_widget :
    publicize (init_generator ⟨false, [], []⟩) "new_widget".toList false [] =
      .ok "NewWidget_".toList ∧
    ∃ r, publicize (init_generator ⟨false, [], []⟩) "new_widget".toList false [] =
      .ok (r ++ ['_']) :=
  ⟨rfl, publicize_new_underscore (init_generator ⟨false, [], []⟩) "new_widget".toList []
    "NewWidget".toList false (by decide) (by decide) rfl rfl (by simp)⟩

/-! ### Union members and `generate_go_struct_definition` -/

theorem definition_loop_length (u : Bool) (ps : List Nat) :
    ∀ (members : List t_field) (lines : List struct_line),
      (definition_loop u ps members lines).1.length = members.length := by
  induction ps with
  | nil => intro members lines; rfl
  | cons pos rest ih =>
    intro members lines
    unfold definition_loop
    split
    · exact ih members lines
    · rw [ih]; simp

theorem definition_loop_optional (ps : List Nat) :
    ∀ (members : List t_field) (lines : List struct_line),
      (∀ l ∈ lines, l.field.req_ = e_req.T_OPTIONAL) →
      (∀ i, (i ∈ ps ∨ optional_at members i) →
          optional_at (definition_loop true ps members lines).1 i) ∧
      (∀ l ∈ (definition_loop true ps members lines).2, l.field.req_ = e_req.T_OPTIONAL) := by
  induction ps with
  | nil =>
    intro members lines hl
    refine ⟨?_, hl⟩
    intro i hi
    rcases hi with hi | hi
    · simp at hi
    · exact hi
  | cons pos rest ih =>
    intro members lines hl
    unfold definition_loop
    split
    · next hnone =>
      obtain ⟨h1, h2⟩ := ih members lines hl
      refine ⟨?_, h2⟩
      intro i hi
      apply h1
      rcases hi with hi | hi
      · rcases List.mem_cons.1 hi with rfl | hi
        · right
          intro m hm
          rw [hnone] at hm
          cases hm
        · exact Or.inl hi
      · exact Or.inr hi
    · next m0 hm0 =>
      simp only [if_true]
      have hl2 : ∀ l ∈ lines ++ [struct_line_of (m0.set_req e_req.T_OPTIONAL)],
          l.field.req_ = e_req.T_OPTIONAL := by
        intro l hmem
        rcases List.mem_append.1 hmem with h | h
        · exact hl l h
        · simp only [List.mem_singleton] at h
          subst h
          rfl
      obtain ⟨h1, h2⟩ := ih (members.set pos (m0.set_req e_req.T_OPTIONAL)) _ hl2
      refine ⟨?_, h2⟩
      intro i hi
      apply h1
      have hset : optional_at (members.set pos (m0.set_req e_req.T_OPTIONAL)) pos := by
        intro m hm
        have hlt : pos < members.length := by
          rcases Nat.lt_or_ge pos members.length with h | h
          · exact h
          · rw [List.getElem?_eq_none h] at hm0
            cases hm0
        rw [List.getElem?_set_self hlt] at hm
        cases hm
        rfl
      rcases hi with hi | hi
      · rcases List.mem_cons.1 hi with rfl | hi
        · exact Or.inr hset
        · exact Or.inl hi
      · right
        by_cases hip : pos = i
        · subst hip
          exact hset
        · intro m hm
          rw [List.getElem?_set_ne hip] at hm
          exact hi m hm

theorem mem_sorted_positions (s : t_struct) (i : Nat) (hi : i < s.members_.length) :
    i ∈ s.sorted_positions := by
  unfold t_struct.sorted_positions
  rw [(List.perm_insertionSort _ _).mem_iff]
  exact List.mem_range.2 hi

/-- For a union with no members or whose smallest wire id is non-negative, whatever the
requiredness of its members, every member is OPTIONAL when its struct line (pointer-ness,
Go type, tags) is computed, and every member is OPTIONAL in the member list from which the
default holders, getters, IsSet helpers and the writer guards are computed afterwards. -/
theorem union_members_optional (s : t_struct) (hu : s.is_union_ = true)
    (hkey : s.sorted_positions = [] ∨ key_at s.members_ (s.sorted_positions.headD 0) ≥ 0) :
    (∀ l ∈ (definition_fields s).2, l.field.req_ = e_req.T_OPTIONAL) ∧
    (∀ m ∈ definition_members s, m.req_ = e_req.T_OPTIONAL) ∧
    (definition_members s).length = s.members_.length := by
  have hcond : (s.sorted_positions.isEmpty ||
      decide (key_at s.members_ (s.sorted_positions.headD 0) ≥ 0)) = true := by
    rcases hkey with h | h
    · simp [h]
    · rw [Bool.or_eq_true]
      exact Or.inr (decide_eq_true h)
  have hdef : definition_fields s = definition_loop true s.sorted_positions s.members_ [] := by
    unfold definition_fields
    simp only [hcond, if_true, hu]
  obtain ⟨h1, h2⟩ := definition_loop_optional s.sorted_positions s.members_ [] (by simp)
  have hlen := definition_loop_length true s.sorted_positions s.members_ []
  refine ⟨?_, ?_, ?_⟩
  · rw [hdef]; exact h2
  · intro m hm
    unfold definition_members at hm
    rw [hdef] at hm
    obtain ⟨i, hi, hget⟩ := List.getElem_of_mem hm
    have hi2 : i < s.members_.length := by rw [← hlen]; exact hi
    apply h1 i (Or.inl (mem_sorted_positions s i hi2)) m
    rw [List.getElem?_eq_getElem hi, hget]
  · unfold definition_members
    rw [hdef]
    exact hlen

/-- Witness of `union_members_optional`: a union with the wire ids 2 and 1. -/
theorem union_members_optional_witness :
    ∀ m ∈ definition_members
        { name_ := "U".toList
          members_ := [⟨"a".toList, 2, .base_type .TYPE_I32 false, .T_OPT_IN_REQ_OUT, none, []⟩,
                       ⟨"b".toList, 1, .base_type .TYPE_I32 false, .T_REQUIRED, none, []⟩]
          is_union_ := true
          is_xception_ := false },
      m.req_ = e_req.T_OPTIONAL :=
  (union_members_optional _ rfl (Or.inr (by decide))).2.1

theorem set_same {α : Type} (l : List α) (i : Nat) (a : α) (h : l[i]? = some a) :
    l.set i a = l := by
  induction l generalizing i with
  | nil => rfl
  | cons x xs ih =>
    cases i with
    | zero =>
      simp only [List.getElem?_cons_zero, Option.some.injEq] at h
      simp [h]
    | succ i =>
      simp only [List.getElem?_cons_succ] at h
      simp [ih i h]

theorem definition_loop_map {β : Type} (g : t_field → β)
    (hg : ∀ m r, g (t_field.set_req m r) = g m) (u : Bool) (ps : List Nat) :
    ∀ (members : List t_field) (lines : List struct_line),
      (definition_loop u ps members lines).1.map g = members.map g := by
  induction ps with
  | nil => intro members lines; rfl
  | cons pos rest ih =>
    intro members lines
    unfold definition_loop
    split
    · exact ih members lines
    · rename_i m0 hm0
      rw [ih, List.map_set]
      apply set_same
      rw [List.getElem?_map, hm0]
      cases u <;> simp [hg]

theorem definition_members_map {β : Type} (g : t_field → β)
    (hg : ∀ m r, g (t_field.set_req m r) = g m) (s : t_struct) :
    (definition_members s).map g = s.members_.map g := by
  unfold definition_members definition_fields
  simp only
  split
  · exact definition_loop_map g hg _ _ _ _
  · rfl

theorem tagged_branch_key (s : t_struct) (h : s.tagged_branch = true) :
    s.sorted_positions = [] ∨ key_at s.members_ (s.sorted_positions.headD 0) ≥ 0 := by
  unfold t_struct.tagged_branch at h
  rw [Bool.or_eq_true] at h
  rcases h with h | h
  · exact Or.inl (List.isEmpty_iff.1 h)
  · exact Or.inr (of_decide_eq_true h)

theorem untagged_definition_fields (s : t_struct) (h : s.tagged_branch = false) :
    definition_fields s = (s.members_, []) := by
  unfold t_struct.tagged_branch at h
  unfold definition_fields
  simp only [h, Bool.false_eq_true, if_false]

/-- For a union that takes the tagged branch, or whose members are OPTIONAL as the parser
hands them over, every struct line is computed from an OPTIONAL member and every member is
OPTIONAL in the member list that the rest of `generate_go_struct_definition` sees. -/
theorem union_definition_optional (s : t_struct) (hu : s.is_union_ = true)
    (hin : s.tagged_branch = true ∨ s.union_members_parsed = true) :
    (∀ l ∈ (definition_fields s).2, l.field.req_ = e_req.T_OPTIONAL) ∧
    (∀ m ∈ definition_members s, m.req_ = e_req.T_OPTIONAL) ∧
    (definition_members s).length = s.members_.length := by
  cases htag : s.tagged_branch with
  | true => exact union_members_optional s hu (tagged_branch_key s htag)
  | false =>
    have hp : s.union_members_parsed = true := by
      rcases hin with h | h
      · rw [htag] at h; cases h
      · exact h
    have hdef := untagged_definition_fields s htag
    unfold definition_members
    rw [hdef]
    refine ⟨?_, ?_, rfl⟩
    · intro l hl
      cases hl
    · intro m hm
      unfold t_struct.union_members_parsed at hp
      simp only [hu, Bool.not_true, Bool.false_or, List.all_eq_true, beq_iff_eq] at hp
      exact hp m hm

theorem num_setable_ok (members : List t_field) (n : Nat) (h : num_setable members = .ok n) :
    ∀ m ∈ members, is_setable m = .ok (setable m) := by
  induction members generalizing n with
  | nil => intro m hm; cases hm
  | cons a rest ih =>
    intro m hm
    unfold num_setable at h
    cases ha : is_setable a with
    | error e => rw [ha] at h; cases h
    | ok b =>
      rw [ha] at h
      simp only [Except.bind] at h
      cases hr : num_setable rest with
      | error e => rw [hr] at h; cases h
      | ok k =>
        rcases List.mem_cons.1 hm with rfl | hm
        · simp [setable, ha]
        · exact ih k hr m hm

theorem num_setable_eq (members : List t_field) (n : Nat) (h : num_setable members = .ok n) :
    n = (members.filter setable).length := by
  induction members generalizing n with
  | nil =>
    simp only [num_setable] at h
    cases h
    rfl
  | cons a rest ih =>
    unfold num_setable at h
    cases ha : is_setable a with
    | error e => rw [ha] at h; cases h
    | ok b =>
      rw [ha] at h
      simp only [Except.bind] at h
      cases hr : num_setable rest with
      | error e => rw [hr] at h; cases h
      | ok k =>
        rw [hr] at h
        simp only [Except.ok.injEq] at h
        have hk := ih k hr
        have hs : setable a = b := by simp [setable, ha]
        subst h
        cases b <;> simp [List.filter, hs, hk]

theorem countsetfields_members_eq (members : List t_field)
    (h : ∀ m ∈ members, is_setable m = .ok (setable m)) :
    countsetfields_members members = .ok (members.filter counted) := by
  induction members with
  | nil => rfl
  | cons a rest ih =>
    have hr := ih (fun m hm => h m (List.mem_cons_of_mem _ hm))
    have ha := h a (List.mem_cons_self _ _)
    unfold countsetfields_members
    by_cases hreq : a.req_ = e_req.T_REQUIRED
    · simp [hreq, hr, counted, List.filter]
    · have hreq2 : (a.req_ == e_req.T_REQUIRED) = false := by simpa using hreq
      simp only [hreq2, Bool.false_eq_true, if_false, ha, hr, Except.bind]
      cases hs : setable a <;> simp [List.filter, counted, hreq2, hs]

/-- C5 as amended: for a union with at least one setable member (pointer, container or
binary), the emitted `Write` returns the "exactly one field must be set" error, before any
protocol call, whenever the number of set members among those that are not REQUIRED and
setable (the count of `CountSetFields`) is not one, and otherwise goes on to write
struct-begin; for a union with no setable member the emitted `Write` has no such check and
starts with struct-begin whatever is set. -/
theorem union_write_check (s : t_struct) (IsSet : t_field → Bool) (n : Nat)
    (hu : s.is_union_ = true) (hn : num_setable (definition_members s) = .ok n) :
    (n > 0 →
      struct_Write_begin s IsSet =
        .ok (if (((definition_members s).filter counted).filter IsSet).length ≠ 1
          then ([], some (.union_count
            (((definition_members s).filter counted).filter IsSet).length))
          else ([tok.StructBegin s.name_], none))) ∧
    (n = 0 → struct_Write_begin s IsSet = .ok ([tok.StructBegin s.name_], none)) := by
  have hall := num_setable_ok _ n hn
  have hcm := countsetfields_members_eq _ hall
  constructor
  · intro hpos
    unfold struct_Write_begin generated_Write_begin generated_CountSetFields
    rw [hn, hcm]
    simp only [Except.bind, hu, Bool.true_and, decide_eq_true_eq, hpos, if_true]
    generalize (List.filter IsSet (List.filter counted (definition_members s))).length = c
    by_cases hc : c = 1
    · simp [hc]
    · simp [hc]
  · intro hz
    unfold struct_Write_begin generated_Write_begin
    rw [hn]
    simp [Except.bind, hz]

/-- Witness of C5 as amended: the union of an `i32` and a string fails the check when both
are set and passes it when only one is. -/
theorem union_write_check_witness :
    struct_Write_begin union_two (fun _ => true) = .ok ([], some (.union_count 2)) ∧
    struct_Write_begin union_two (fun m => m.key_ == 1) =
      .ok ([tok.StructBegin "U".toList], none) :=
  ⟨(union_write_check union_two (fun _ => true) 2 rfl rfl).1 (by decide),
   (union_write_check union_two (fun m => m.key_ == 1) 2 rfl rfl).1 (by decide)⟩

/-- C5 fails on the code: the emitted `Write` of a union with no members, and of a union
whose only member is not setable (an `i32` with a default), has no union check: with no
field set it makes the call of `WriteStructBegin` and returns no error. -/
theorem union_write_unchecked :
    struct_Write_begin union_empty (fun _ => false) =
      .ok ([tok.StructBegin "U".toList], none) ∧
    struct_Write_begin union_default_only (fun _ => false) =
      .ok ([tok.StructBegin "U".toList], none) := by
  decide

/-! ### The required-field check of the emitted `Read` -/

theorem get_true_type_not_typedef (t : t_type) : t.get_true_type.is_typedef = false := by
  induction t with
  | typedef n t ih => simpa [t_type.get_true_type] using ih
  | base_type b bin => rfl
  | enum n => rfl
  | struct n x => rfl
  | map k v _ _ => rfl
  | set e _ => rfl
  | list e _ => rfl

theorem expected_wire_type_ok (m : t_field) (h : m.type_.get_true_type.is_void = false) :
    expected_wire_type m = .ok (case_of m).2.1 := by
  have hk : ∃ t, expected_wire_type m = .ok t := by
    unfold expected_wire_type type_to_enum
    have ht := get_true_type_not_typedef m.type_
    generalize m.type_.get_true_type = T at h ht
    cases T with
    | base_type b bin =>
      cases b <;> simp_all [t_type.is_base_type, t_type.get_base, t_type.is_void, Except.bind]
    | enum n => simp [t_type.is_base_type, t_type.is_enum, Except.bind]
    | struct n x =>
      cases x <;> simp [t_type.is_base_type, t_type.is_enum, t_type.is_struct,
        t_type.is_xception, Except.bind]
    | map k v =>
      simp [t_type.is_base_type, t_type.is_enum, t_type.is_struct, t_type.is_xception,
        t_type.is_map, Except.bind]
    | set e =>
      simp [t_type.is_base_type, t_type.is_enum, t_type.is_struct, t_type.is_xception,
        t_type.is_map, t_type.is_set, Except.bind]
    | list e =>
      simp [t_type.is_base_type, t_type.is_enum, t_type.is_struct, t_type.is_xception,
        t_type.is_map, t_type.is_set, t_type.is_list, Except.bind]
    | typedef n t => simp [t_type.is_typedef] at ht
  obtain ⟨t, ht⟩ := hk
  simp [case_of, ht]

theorem reader_cases_eq (fields : List t_field)
    (h : ∀ m ∈ fields, m.type_.get_true_type.is_void = false) :
    reader_cases fields = .ok (fields.map case_of) := by
  induction fields with
  | nil => rfl
  | cons a rest ih =>
    have hr := ih (fun m hm => h m (List.mem_cons_of_mem _ hm))
    have ha := expected_wire_type_ok a (h a (List.mem_cons_self _ _))
    unfold reader_cases
    rw [ha, hr]
    rfl

theorem switch_case_none (cases : List (Int × TType × Bool)) (fieldId : Int)
    (h : ∀ c ∈ cases, c.1 ≠ fieldId) : switch_case cases fieldId = none := by
  induction cases with
  | nil => rfl
  | cons c rest ih =>
    have hc : (c.1 == fieldId) = false := by simpa using h c (List.mem_cons_self _ _)
    simp [switch_case, hc, ih (fun d hd => h d (List.mem_cons_of_mem _ hd))]

theorem or_flags_false (cases : List (Int × TType × Bool)) (isset : List Bool)
    (f : (Int × TType × Bool) → Bool) (h : ∀ c ∈ cases, f c = false) :
    or_flags cases isset f = isset := by
  induction cases generalizing isset with
  | nil => rfl
  | cons c rest ih =>
    cases isset with
    | nil => rfl
    | cons b bs =>
      simp [or_flags, h c (List.mem_cons_self _ _),
        ih bs (fun d hd => h d (List.mem_cons_of_mem _ hd))]

theorem read_field_nil (cases : List (Int × TType × Bool)) (h : field_header) :
    read_field cases [] h = [] := by
  unfold read_field
  split
  · split
    · split
      · split <;> simp
      · rfl
    · rfl
  · rfl

theorem read_field_cons (c : Int × TType × Bool) (rest : List (Int × TType × Bool))
    (b : Bool) (bs : List Bool) (h : field_header) :
    read_field (c :: rest) (b :: bs) h =
      if c.1 == h.fieldId then (b || sets_flag h c) :: bs
      else b :: read_field rest bs h := by
  by_cases hc : (c.1 == h.fieldId) = true
  · simp only [read_field, switch_case, hc, if_true, List.getElem?_cons_zero, sets_flag,
      Bool.true_and]
    obtain ⟨k, ty, r⟩ := c
    by_cases ht : (h.fieldTypeId == ty) = true
    · cases r <;> simp [ht]
    · simp [ht]
  · have hc2 : (c.1 == h.fieldId) = false := by simpa using hc
    simp only [read_field, switch_case, hc2, Bool.false_eq_true, if_false]
    cases hs : switch_case rest h.fieldId with
    | none => simp
    | some i =>
      simp only [Option.map_some', List.getElem?_cons_succ]
      cases hg : rest[i]? with
      | none => simp
      | some d =>
        obtain ⟨k, ty, r⟩ := d
        simp only
        by_cases ht : (h.fieldTypeId == ty) = true
        · cases r <;> simp [ht]
        · simp [ht]

theorem read_field_eq (cases : List (Int × TType × Bool)) (isset : List Bool)
    (h : field_header) (hk : (cases.map (fun c => c.1)).Nodup) :
    read_field cases isset h = or_flags cases isset (sets_flag h) := by
  induction cases generalizing isset with
  | nil =>
    simp [read_field, switch_case, or_flags]
  | cons c rest ih =>
    cases isset with
    | nil => rw [read_field_nil]; rfl
    | cons b bs =>
      rw [read_field_cons]
      simp only [List.map_cons, List.nodup_cons] at hk
      by_cases hc : (c.1 == h.fieldId) = true
      · rw [if_pos hc]
        have hrest : ∀ d ∈ rest, sets_flag h d = false := by
          intro d hd
          have : d.1 ≠ h.fieldId := by
            intro he
            apply hk.1
            have hce : c.1 = h.fieldId := by simpa using hc
            rw [hce, ← he]
            exact List.mem_map_of_mem _ hd
          simp [sets_flag, this]
        simp [or_flags, or_flags_false rest bs _ hrest]
      · rw [if_neg hc]
        have hc2 : (c.1 == h.fieldId) = false := by simpa using hc
        simp [or_flags, sets_flag, hc2, ih bs hk.2]

theorem or_flags_or_flags (cases : List (Int × TType × Bool)) (isset : List Bool)
    (f g : (Int × TType × Bool) → Bool) :
    or_flags cases (or_flags cases isset f) g = or_flags cases isset (fun c => f c || g c) := by
  induction cases generalizing isset with
  | nil => rfl
  | cons c rest ih =>
    cases isset with
    | nil => rfl
    | cons b bs => simp [or_flags, ih bs, Bool.or_assoc]

theorem read_loop_stop (cases : List (Int × TType × Bool))
    (hk : (cases.map (fun c => c.1)).Nodup) (hs : List field_header) (k : Int)
    (o : Option go_error) (tail : List field_read)
    (hstop : ∀ h ∈ hs, h.fieldTypeId ≠ TType.STOP) :
    ∀ isset : List Bool,
      read_loop cases (hs.map field_read.passed ++ ⟨⟨TType.STOP, k⟩, o⟩ :: tail) isset =
        .ok (or_flags cases isset (fun c => hs.any (fun h => sets_flag h c))) := by
  induction hs with
  | nil =>
    intro isset
    simp [read_loop, or_flags_false]
  | cons h t ih =>
    intro isset
    have hh : (h.fieldTypeId == TType.STOP) = false := by
      simpa using hstop h (List.mem_cons_self _ _)
    rw [List.map_cons, List.cons_append]
    unfold read_loop
    simp only [field_read.passed, hh, Bool.false_eq_true, if_false]
    have hih := ih (fun x hx => hstop x (List.mem_cons_of_mem _ hx))
    simp only [field_read.passed] at hih
    rw [hih, read_field_eq _ _ _ hk, or_flags_or_flags]
    simp [List.any_cons]

theorem read_loop_failed (cases : List (Int × TType × Bool)) (hs : List field_header)
    (h : field_header) (e : go_error) (tail : List field_read)
    (hstop : ∀ x ∈ hs, x.fieldTypeId ≠ TType.STOP) (hh : h.fieldTypeId ≠ TType.STOP) :
    ∀ isset : List Bool,
      read_loop cases (hs.map field_read.passed ++ ⟨h, some e⟩ :: tail) isset = .error e := by
  induction hs with
  | nil =>
    intro isset
    have hb : (h.fieldTypeId == TType.STOP) = false := by simpa using hh
    simp [read_loop, hb]
  | cons a t ih =>
    intro isset
    have ha : (a.fieldTypeId == TType.STOP) = false := by
      simpa using hstop a (List.mem_cons_self _ _)
    rw [List.map_cons, List.cons_append]
    unfold read_loop
    simp only [field_read.passed, ha, Bool.false_eq_true, if_false]
    have hih := ih (fun x hx => hstop x (List.mem_cons_of_mem _ hx))
    simp only [field_read.passed] at hih
    exact hih _

theorem first_missing_eq (cases : List (Int × TType × Bool))
    (f : (Int × TType × Bool) → Bool) :
    first_missing cases (or_flags cases (List.replicate cases.length false) f) =
      find_first (fun c => c.2.2 && !f c) cases := by
  induction cases with
  | nil => rfl
  | cons c rest ih =>
    simp only [List.length_cons, List.replicate_succ, or_flags, first_missing, find_first,
      List.headD_cons, List.tail_cons, Bool.false_or, ih]

theorem find_first_map {α β : Type} (p : β → Bool) (g : α → β) (l : List α) :
    find_first p (l.map g) = find_first (fun x => p (g x)) l := by
  induction l with
  | nil => rfl
  | cons a rest ih => simp [find_first, ih]

theorem find_first_some {α : Type} (p : α → Bool) (l : List α) (i : Nat) :
    find_first p l = some i ↔
      (∃ x, l[i]? = some x ∧ p x = true) ∧ ∀ j < i, ∀ y, l[j]? = some y → p y = false := by
  induction l generalizing i with
  | nil => simp [find_first]
  | cons a rest ih =>
    by_cases ha : p a = true
    · simp only [find_first, ha, if_true, Option.some.injEq]
      constructor
      · intro h
        subst h
        exact ⟨⟨a, by simp, ha⟩, fun j hj => absurd hj (Nat.not_lt_zero j)⟩
      · rintro ⟨-, h2⟩
        rcases Nat.eq_zero_or_pos i with h0 | hpos
        · exact h0.symm
        · have := h2 0 hpos a (by simp)
          rw [ha] at this
          cases this
    · have ha2 : p a = false := by simpa using ha
      simp only [find_first, ha2, Bool.false_eq_true, if_false]
      cases i with
      | zero =>
        simp only [Option.map_eq_some', List.getElem?_cons_zero, Option.some.injEq]
        constructor
        · rintro ⟨k, -, hk⟩
          omega
        · rintro ⟨⟨x, hx, hpx⟩, -⟩
          subst hx
          rw [ha2] at hpx
          cases hpx
      | succ i =>
        simp only [Option.map_eq_some', Nat.add_right_cancel_iff, exists_eq_right,
          List.getElem?_cons_succ]
        rw [ih i]
        constructor
        · rintro ⟨h1, h2⟩
          refine ⟨h1, ?_⟩
          intro j hj y hy
          cases j with
          | zero =>
            simp only [List.getElem?_cons_zero, Option.some.injEq] at hy
            subst hy
            exact ha2
          | succ j =>
            simp only [List.getElem?_cons_succ] at hy
            exact h2 j (by omega) y hy
        · rintro ⟨h1, h2⟩
          refine ⟨h1, ?_⟩
          intro j hj y hy
          exact h2 (j + 1) (by omega) y (by simpa using hy)

theorem find_first_none {α : Type} (p : α → Bool) (l : List α) :
    find_first p l = none ↔ ∀ (i : Nat) (y : α), l[i]? = some y → p y = false := by
  induction l with
  | nil => simp [find_first]
  | cons a rest ih =>
    by_cases ha : p a = true
    · simp only [find_first, ha, if_true]
      constructor
      · intro h; cases h
      · intro h
        have := h 0 a (by simp)
        rw [ha] at this
        cases this
    · have ha2 : p a = false := by simpa using ha
      simp only [find_first, ha2, Bool.false_eq_true, if_false, Option.map_eq_none', ih]
      constructor
      · intro h i y hy
        cases i with
        | zero =>
          simp only [List.getElem?_cons_zero, Option.some.injEq] at hy
          subst hy
          exact ha2
        | succ i => exact h i y (by simpa using hy)
      · intro h i y hy
        exact h (i + 1) y (by simpa using hy)

theorem sets_flag_iff (h : field_header) (c : Int × TType × Bool) :
    sets_flag h c = true ↔ c.1 = h.fieldId ∧ h.fieldTypeId = c.2.1 ∧ c.2.2 = true := by
  simp only [sets_flag, Bool.and_eq_true, beq_iff_eq, and_assoc]

theorem missing_required_iff (fields : List t_field) (hs : List field_header) (i : Nat)
    (hvoid : ∀ m ∈ fields, m.type_.get_true_type.is_void = false) :
    missing_required fields hs i ↔
      ∃ m, fields[i]? = some m ∧
        ((case_of m).2.2 && !(hs.any (fun h => sets_flag h (case_of m)))) = true := by
  have key : ∀ m, m ∈ fields →
      ((m.req_ = e_req.T_REQUIRED ∧
          ∀ h ∈ hs, ¬ (h.fieldId = m.key_ ∧ expected_wire_type m = .ok h.fieldTypeId)) ↔
        ((case_of m).2.2 && !(hs.any (fun h => sets_flag h (case_of m)))) = true) := by
    intro m hm
    have hw := expected_wire_type_ok m (hvoid m hm)
    have h1 : (case_of m).2.2 = (m.req_ == e_req.T_REQUIRED) := rfl
    have h0 : (case_of m).1 = m.key_ := rfl
    rw [hw, Bool.and_eq_true, Bool.not_eq_true', List.any_eq_false]
    constructor
    · rintro ⟨hr, hall⟩
      refine ⟨by rw [h1, hr]; rfl, ?_⟩
      intro h hh hflag
      obtain ⟨hkey, hty, -⟩ := (sets_flag_iff h (case_of m)).1 hflag
      exact hall h hh ⟨by rw [← hkey, h0], by rw [hty]⟩
    · rintro ⟨hr, hall⟩
      have hr2 : m.req_ = e_req.T_REQUIRED := by
        rw [h1] at hr
        exact beq_iff_eq.1 hr
      refine ⟨hr2, ?_⟩
      rintro h hh ⟨hkey, hty⟩
      apply hall h hh
      rw [sets_flag_iff]
      refine ⟨by rw [h0, hkey], ?_, hr⟩
      simp only [Except.ok.injEq] at hty
      exact hty.symm
  unfold missing_required
  constructor
  · rintro ⟨m, hm, hr, hall⟩
    exact ⟨m, hm, (key m (List.getElem?_mem hm)).1 ⟨hr, hall⟩⟩
  · rintro ⟨m, hm, hp⟩
    obtain ⟨hr, hall⟩ := (key m (List.getElem?_mem hm)).2 hp
    exact ⟨m, hm, hr, hall⟩

theorem generated_Read_eq (fields : List t_field) (hs : List field_header) (k : Int)
    (o : Option go_error) (tail : List field_read)
    (hvoid : ∀ m ∈ fields, m.type_.get_true_type.is_void = false)
    (hkeys : (fields.map (fun m => m.key_)).Nodup)
    (hstop : ∀ h ∈ hs, h.fieldTypeId ≠ TType.STOP) :
    generated_Read fields (hs.map field_read.passed ++ ⟨⟨TType.STOP, k⟩, o⟩ :: tail) =
      .ok ((find_first
        (fun m => (case_of m).2.2 && !(hs.any (fun h => sets_flag h (case_of m)))) fields).map
        go_error.required_field_not_set) := by
  have hk : ((fields.map case_of).map (fun c => c.1)).Nodup := by
    rw [List.map_map]
    exact hkeys
  unfold generated_Read
  rw [reader_cases_eq fields hvoid]
  simp only [Except.bind]
  rw [read_loop_stop _ hk hs k o tail hstop]
  simp only
  rw [first_missing_eq, find_first_map]
  cases find_first
      (fun m => (case_of m).2.2 && !(hs.any (fun h => sets_flag h (case_of m)))) fields <;> rfl

theorem generated_Read_failed (fields : List t_field) (hs : List field_header)
    (h : field_header) (e : go_error) (tail : List field_read)
    (hvoid : ∀ m ∈ fields, m.type_.get_true_type.is_void = false)
    (hstop : ∀ x ∈ hs, x.fieldTypeId ≠ TType.STOP) (hh : h.fieldTypeId ≠ TType.STOP) :
    generated_Read fields (hs.map field_read.passed ++ ⟨h, some e⟩ :: tail) =
      .ok (some e) := by
  unfold generated_Read
  rw [reader_cases_eq fields hvoid]
  simp only [Except.bind]
  rw [read_loop_failed _ hs h e tail hstop hh]

/-- C6 fails on the code: the items of a `Panel { 1: required Gauge gauge }` whose field
`gauge` holds a `Gauge` without its REQUIRED member `level` are delivered without a
lower-level error and the wire id of the only REQUIRED member of `Panel` occurs with its
expected wire type, yet `Read` of `Panel` returns an error: the one that the read routine
of the field `gauge` returns, the "Required field Level is not set" of the nested `Read`.
And the items of a `Roster { 1: required i32 id, 2: list<i32> tags }` that lack the REQUIRED
`id` and hold a list of the size -1 make `Read` return "list size is negative", the error of
the read routine of `tags`, and not the "Required field ID is not set" error. -/
theorem read_error_before_required :
    struct_Read [Gauge, Panel] no_defaults protocol_Skip Panel panel_items =
        .error (.returned (.required_field_not_set 1)) ∧
      (∀ i, ¬ missing_required Panel.members_ [⟨TType.STRUCT, 1⟩] i) ∧
    struct_Read [Roster] no_defaults protocol_Skip Roster roster_items =
        .error (.returned .negative_size) ∧
      missing_required Roster.members_ [⟨TType.LIST, 2⟩] 0 ∧
    generated_Read Roster.members_
        [⟨⟨TType.LIST, 2⟩, some .negative_size⟩, ⟨⟨TType.STOP, 0⟩, none⟩] =
      .ok (some .negative_size) := by
  refine ⟨rfl, ?_, rfl, ?_, by decide⟩
  · rintro i ⟨m, hm, _, hno⟩
    cases i with
    | zero =>
      simp only [Panel, List.getElem?_cons_zero, Option.some.injEq] at hm
      subst hm
      exact hno ⟨TType.STRUCT, 1⟩ (List.mem_singleton_self _) ⟨rfl, by decide⟩
    | succ n => simp [Panel] at hm
  · refine ⟨_, rfl, rfl, ?_⟩
    intro h hh
    rw [List.mem_singleton] at hh
    subst hh
    rintro ⟨h1, _⟩
    revert h1
    decide

/-- C6 as amended: for every struct whose members have pairwise distinct wire ids and no void
type, and every sequence of field headers that the protocol delivers up to a STOP header
without a lower-level error: when the body of every round of the read loop returns without
error (no per-field read routine fails), the emitted `Read` returns the "Required field X is
not set" error iff some REQUIRED member's wire id never occurs among the headers with that
member's expected wire type, X being the first such member in declaration order, and
returns no error iff there is no such member; a header with the id and a different wire type
is skipped and does not count. When the body of a round returns an error, `Read` returns
that error at once, whatever REQUIRED members have not been seen. -/
theorem read_required_check (fields : List t_field) (hs : List field_header) (k : Int)
    (o : Option go_error) (tail : List field_read)
    (hvoid : ∀ m ∈ fields, m.type_.get_true_type.is_void = false)
    (hkeys : (fields.map (fun m => m.key_)).Nodup)
    (hstop : ∀ h ∈ hs, h.fieldTypeId ≠ TType.STOP) :
    (∀ i, generated_Read fields (hs.map field_read.passed ++ ⟨⟨TType.STOP, k⟩, o⟩ :: tail) =
          .ok (some (.required_field_not_set i)) ↔
        (missing_required fields hs i ∧ ∀ j < i, ¬ missing_required fields hs j)) ∧
    (generated_Read fields (hs.map field_read.passed ++ ⟨⟨TType.STOP, k⟩, o⟩ :: tail) =
          .ok none ↔
        ∀ i, ¬ missing_required fields hs i) ∧
    (∀ (h : field_header) (e : go_error) (rest : List field_read),
        h.fieldTypeId ≠ TType.STOP →
        generated_Read fields (hs.map field_read.passed ++ ⟨h, some e⟩ :: rest) =
          .ok (some e)) := by
  refine ⟨?_, ?_, fun h e rest hh => generated_Read_failed fields hs h e rest hvoid hstop hh⟩
  all_goals rw [generated_Read_eq fields hs k o tail hvoid hkeys hstop]
  · intro i
    have hsome := find_first_some
      (fun m => (case_of m).2.2 && !(hs.any (fun h => sets_flag h (case_of m)))) fields i
    constructor
    · intro h
      have h2 : find_first
          (fun m => (case_of m).2.2 && !(hs.any (fun h => sets_flag h (case_of m)))) fields
          = some i := by
        cases hf : find_first
          (fun m => (case_of m).2.2 && !(hs.any (fun h => sets_flag h (case_of m)))) fields with
        | none => rw [hf] at h; cases h
        | some j =>
          rw [hf] at h
          simp only [Option.map_some', Except.ok.injEq, Option.some.injEq,
            go_error.required_field_not_set.injEq] at h
          rw [h]
      obtain ⟨h3, h4⟩ := hsome.1 h2
      refine ⟨(missing_required_iff fields hs i hvoid).2 h3, ?_⟩
      intro j hj hmiss
      obtain ⟨m, hm, hp⟩ := (missing_required_iff fields hs j hvoid).1 hmiss
      have := h4 j hj m hm
      rw [hp] at this
      cases this
    · rintro ⟨h1, h2⟩
      have h3 := (missing_required_iff fields hs i hvoid).1 h1
      have h4 : ∀ j < i, ∀ y, fields[j]? = some y →
          ((case_of y).2.2 && !(hs.any (fun h => sets_flag h (case_of y)))) = false := by
        intro j hj y hy
        by_contra hne
        apply h2 j hj
        exact (missing_required_iff fields hs j hvoid).2 ⟨y, hy, by simpa using hne⟩
      rw [hsome.2 ⟨h3, h4⟩]
      rfl
  · have hnone := find_first_none
      (fun m => (case_of m).2.2 && !(hs.any (fun h => sets_flag h (case_of m)))) fields
    constructor
    · intro h i hmiss
      have h2 : find_first
          (fun m => (case_of m).2.2 && !(hs.any (fun h => sets_flag h (case_of m)))) fields
          = none := by
        cases hf : find_first
          (fun m => (case_of m).2.2 && !(hs.any (fun h => sets_flag h (case_of m)))) fields with
        | none => rfl
        | some j => rw [hf] at h; cases h
      obtain ⟨m, hm, hp⟩ := (missing_required_iff fields hs i hvoid).1 hmiss
      have := hnone.1 h2 i m hm
      rw [hp] at this
      cases this
    · intro h
      have : find_first
          (fun m => (case_of m).2.2 && !(hs.any (fun h => sets_flag h (case_of m)))) fields
          = none := by
        apply hnone.2
        intro i y hy
        by_contra hne
        exact h i ((missing_required_iff fields hs i hvoid).2 ⟨y, hy, by simpa using hne⟩)
      rw [this]
      rfl

/-- Witness of C6: with the REQUIRED members `a` (id 1, `i32`) and `b` (id 2, string) and
the headers (I32, 1), (I32, 2), both read without error, the id 2 occurs only with the wrong
wire type, and `Read` reports the member at position 1. -/
theorem read_required_check_witness :
    generated_Read read_example_fields
        (read_example_headers.map field_read.passed ++ ⟨⟨TType.STOP, 0⟩, none⟩ :: []) =
      .ok (some (.required_field_not_set 1)) ∧
    missing_required read_example_fields read_example_headers 1 :=
  ⟨rfl,
   (((read_required_check read_example_fields read_example_headers 0 none []
      (by decide) (by decide) (by decide)).1 1).1 rfl).1⟩

/-! ### Enums: `FromString` after `String` -/

theorem find_unique {α : Type} (p : α → Bool) (l : List α) (x : α)
    (hx : x ∈ l) (hp : p x = true) (huniq : ∀ a ∈ l, p a = true → a = x) :
    l.find? p = some x := by
  induction l with
  | nil => cases hx
  | cons a rest ih =>
    by_cases ha : p a = true
    · have : a = x := huniq a (List.mem_cons_self _ _) ha
      subst this
      simp [ha]
    · have hax : a ≠ x := fun h => ha (by rw [h]; exact hp)
      have hx2 : x ∈ rest := by
        rcases List.mem_cons.1 hx with h | h
        · exact absurd h.symm hax
        · exact h
      have hne : p a = false := by simpa using ha
      rw [List.find?_cons, hne]
      exact ih hx2 (fun q hq => huniq q (List.mem_cons_of_mem _ hq))

theorem nodup_map_inj {α β : Type} (k : α → β) (l : List α) (h : (l.map k).Nodup) :
    ∀ a ∈ l, ∀ b ∈ l, k a = k b → a = b := by
  intro a ha b hb hab
  exact List.inj_on_of_nodup_map h ha hb hab

/-- C8: for every enum with pairwise distinct constant names and values, and every declared
constant, the emitted `FromString` applied to the emitted `String` of its value returns that
value with no error. The literals emitted for distinct names are taken to denote distinct
strings (the escaping function of the base generator is not part of the sources). -/
theorem enum_from_string_string (escape_string go_literal : List Char → List Char)
    (tenum : t_enum) (c : t_enum_value)
    (hnames : (tenum.constants_.map (fun d => d.name_)).Nodup)
    (hvalues : (tenum.constants_.map (fun d => d.value_)).Nodup)
    (hlit : ∀ a ∈ tenum.constants_, ∀ b ∈ tenum.constants_,
      go_literal (escape_string a.name_) = go_literal (escape_string b.name_) →
        a.name_ = b.name_)
    (hc : c ∈ tenum.constants_) :
    generated_FromString go_literal (generate_enum_cases escape_string tenum)
        (generated_String go_literal (generate_enum_cases escape_string tenum) c.value_) =
      (c.value_, none) := by
  have hcases : generate_enum_cases escape_string tenum =
      tenum.constants_.map (fun d =>
        ({ value := d.value_, to_string := escape_string d.name_,
           from_labels := [escape_string d.name_] } : enum_case)) := by
    unfold generate_enum_cases
    apply List.map_congr_left
    intro d _
    simp
  have hS : generated_String go_literal (generate_enum_cases escape_string tenum) c.value_ =
      go_literal (escape_string c.name_) := by
    unfold generated_String
    rw [hcases, List.find?_map]
    simp only [Function.comp_def]
    rw [find_unique _ tenum.constants_ c hc (by simp)
      (fun a ha h => nodup_map_inj _ _ hvalues a ha c hc (by simpa using h))]
    rfl
  rw [hS]
  unfold generated_FromString
  rw [hcases, List.find?_map]
  have hinj : ∀ a ∈ tenum.constants_, ∀ b ∈ tenum.constants_,
      go_literal (escape_string a.name_) = go_literal (escape_string b.name_) → a = b := by
    intro a ha b hb hab
    exact nodup_map_inj _ _ hnames a ha b hb (hlit a ha b hb hab)
  simp only [Function.comp_def, List.any_cons, List.any_nil, Bool.or_false]
  rw [find_unique _ tenum.constants_ c hc (by simp)
    (fun a ha h => hinj a ha c hc (by simpa using h))]
  rfl

/-- Witness of C8: the enum with the constants RED = 1 and GREEN = 2. -/
theorem enum_from_string_string_witness :
    generated_FromString id (generate_enum_cases id ⟨"Color".toList,
        [⟨"RED".toList, 1⟩, ⟨"GREEN".toList, 2⟩]⟩)
      (generated_String id (generate_enum_cases id ⟨"Color".toList,
        [⟨"RED".toList, 1⟩, ⟨"GREEN".toList, 2⟩]⟩) 2) = (2, none) :=
  enum_from_string_string id id ⟨"Color".toList, [⟨"RED".toList, 1⟩, ⟨"GREEN".toList, 2⟩]⟩
    ⟨"GREEN".toList, 2⟩ (by decide) (by decide) (by decide) (by decide)

/-! ### OPTIONAL scalar fields without default -/

theorem optional_scalar_is_pointer (m : t_field)
    (href : m.annotations_count "cpp.ref".toList = 0) (hreq : m.req_ = e_req.T_OPTIONAL)
    (hval : m.value_ = none)
    (hty : (m.type_.get_true_type.is_base_type = true ∧
          m.type_.get_true_type.get_base ≠ t_base.TYPE_VOID ∧
          m.type_.get_true_type.is_binary = false) ∨
        m.type_.get_true_type.is_enum = true) :
    is_pointer_field m = .ok true := by
  unfold is_pointer_field
  simp only [href, hreq, hval]
  generalize m.type_.get_true_type = T at hty
  cases T with
  | base_type b bin =>
    cases b <;> cases bin <;>
      simp_all [t_type.is_base_type, t_type.get_base, t_type.is_binary, t_type.is_struct,
        t_type.is_xception, t_type.is_enum]
  | enum n =>
    simp [t_type.is_base_type, t_type.is_struct, t_type.is_xception, t_type.is_enum]
  | struct n x => simp [t_type.is_base_type, t_type.is_enum] at hty
  | map k v => simp [t_type.is_base_type, t_type.is_enum] at hty
  | set e => simp [t_type.is_base_type, t_type.is_enum] at hty
  | list e => simp [t_type.is_base_type, t_type.is_enum] at hty
  | typedef n t => simp [t_type.is_base_type, t_type.is_enum] at hty

/-- C9 fails on the code: the struct `Sample { optional i32 n }`, whose member is declared
without a wire id and gets the id -1, takes the branch of line 1518: its field is emitted
with the Go type "int32", not as a pointer, and is 0 in a fresh struct, not nil, while the
IsSet helper of the member is the comparison with nil and the getter is the guarded one. -/
theorem optional_scalar_untagged :
    Sample.tagged_branch = false ∧
    definition_members Sample = [sample_field] ∧
    is_pointer_field sample_field = .ok true ∧
    struct_field_go_type local_types Sample sample_field = .ok "int32".toList ∧
    new_field_value Sample.tagged_branch sample_field (.int 7) = .ok (.int 0) ∧
    isset_helper sample_field = .ok (some .ne_nil) ∧
    getter_is_guarded sample_field = .ok true :=
  ⟨by decide, rfl, by decide, by decide, rfl, by decide, by decide⟩

/-- C9 as amended: for every OPTIONAL field of type bool, i8/i16/i32/i64, double, string or
enum with no default and no `cpp.ref` annotation, in a struct that has no members with a
negative wire id (it takes the tagged branch): the field is a pointer field and is emitted
with the pointer type, the zero-value constructor emits no initializer for it, its default
holder is declared without an initializer, its IsSet helper is the comparison with nil and
its getter is the guarded one; hence in a fresh struct the field is nil, IsSet is false and
the getter returns the default holder, which holds the zero value of the type, and after
any assignment of a pointer, also of a pointer to the zero value, IsSet is true. -/
theorem optional_scalar_field (s : t_struct) (m : t_field) (htag : s.tagged_branch = true)
    (href : m.annotations_count "cpp.ref".toList = 0) (hreq : m.req_ = e_req.T_OPTIONAL)
    (hval : m.value_ = none)
    (hty : (m.type_.get_true_type.is_base_type = true ∧
          m.type_.get_true_type.get_base ≠ t_base.TYPE_VOID ∧
          m.type_.get_true_type.is_binary = false) ∨
        m.type_.get_true_type.is_enum = true) :
    is_pointer_field m = .ok true ∧
    (∀ c, struct_field_go_type c s m = type_to_go_type_with_opt c m.type_ true) ∧
    initializer_emitted m = .ok false ∧
    default_holder m = .ok (some none) ∧
    isset_helper m = .ok (some .ne_nil) ∧
    getter_is_guarded m = .ok true ∧
    (∀ init, new_field_value s.tagged_branch m init = .ok .nil) ∧
    (∀ rendered, default_holder_value m rendered = .ok (some (go_zero_value m.type_ false))) ∧
    (∀ dflt, generated_IsSet m .nil dflt = .ok (some false)) ∧
    (∀ rendered returned, ∃ dflt, default_holder_value m rendered = .ok (some dflt) ∧
      generated_Get m .nil dflt returned = .ok (go_zero_value m.type_ false)) ∧
    (∀ v dflt, generated_IsSet m (.pointer_to v) dflt = .ok (some true)) := by
  have hp := optional_scalar_is_pointer m href hreq hval hty
  have h2 : initializer_emitted m = .ok false := by
    simp [initializer_emitted, hp, Except.bind]
  have h3 : default_holder m = .ok (some none) := by
    simp [default_holder, hreq, hval]
  have h4 : isset_helper m = .ok (some .ne_nil) := by
    simp [isset_helper, hreq, hp, Except.bind]
  have h5 : getter_is_guarded m = .ok true := hp
  have h7 : ∀ rendered,
      default_holder_value m rendered = .ok (some (go_zero_value m.type_ false)) := by
    intro rendered
    simp [default_holder_value, h3, Except.bind]
  have h8 : ∀ dflt, generated_IsSet m .nil dflt = .ok (some false) := by
    intro dflt
    simp [generated_IsSet, h4, Except.bind, eval_isset, go_value.is_nil]
  refine ⟨hp, ?_, h2, h3, h4, h5, ?_, h7, h8, ?_, ?_⟩
  · intro c
    simp [struct_field_go_type, htag, field_go_type, hp, Except.bind]
  · intro init
    simp [new_field_value, h2, hp, htag, Except.bind, go_zero_value]
  · intro rendered returned
    refine ⟨go_zero_value m.type_ false, h7 rendered, ?_⟩
    simp [generated_Get, h5, h8, Except.bind]
  · intro v dflt
    simp [generated_IsSet, h4, Except.bind, eval_isset, go_value.is_nil]

/-- Witness of C9: the OPTIONAL string member `label` of `Point`, whose wire ids are 1
and 2. -/
theorem optional_scalar_field_witness :
    new_field_value Point.tagged_branch
      ⟨"label".toList, 2, .base_type .TYPE_STRING false, .T_OPTIONAL, none, []⟩
      (.string []) = .ok .nil ∧
    generated_IsSet ⟨"label".toList, 2, .base_type .TYPE_STRING false, .T_OPTIONAL, none, []⟩
      (.pointer_to (.string [])) (.string []) = .ok (some true) :=
  ⟨(optional_scalar_field Point
      ⟨"label".toList, 2, .base_type .TYPE_STRING false, .T_OPTIONAL, none, []⟩
      (by decide) rfl rfl rfl (Or.inl ⟨rfl, by decide, rfl⟩)).2.2.2.2.2.2.1 (.string []),
   (optional_scalar_field Point
      ⟨"label".toList, 2, .base_type .TYPE_STRING false, .T_OPTIONAL, none, []⟩
      (by decide) rfl rfl rfl (Or.inl ⟨rfl, by decide, rfl⟩)).2.2.2.2.2.2.2.2.2.2
      (.string []) (.string [])⟩


/-! ### The round trip through the emitted `Write` and `Read` -/

theorem in_int_range_32_64 (n : Int) (h : in_int_range 32 n = true) :
    in_int_range 64 n = true := by
  simp only [in_int_range, Bool.and_eq_true, decide_eq_true_eq] at h ⊢
  norm_num at h ⊢
  omega

theorem definition_members_length (s : t_struct) :
    (definition_members s).length = s.members_.length := by
  have h := congrArg List.length (definition_members_map (fun m => m.key_) (fun _ _ => rfl) s)
  simpa using h

theorem sorted_positions_nodup (s : t_struct) : s.sorted_positions.Nodup := by
  unfold t_struct.sorted_positions
  exact (List.perm_insertionSort _ _).nodup_iff.2 (List.nodup_range _)

theorem is_pointer_field_ok (m : t_field) (hvoid : m.type_.get_true_type.is_void = false) :
    ∃ p, is_pointer_field m = .ok p := by
  have htd := get_true_type_not_typedef m.type_
  unfold is_pointer_field
  generalize m.type_.get_true_type = T at *
  split
  · exact ⟨_, rfl⟩
  · cases T with
    | base_type b bin =>
      cases b <;> cases bin <;> cases m.req_ <;> cases m.value_ <;>
        simp_all [t_type.is_base_type, t_type.get_base, t_type.is_binary, t_type.is_struct,
          t_type.is_xception, t_type.is_void]
    | enum n =>
      cases m.req_ <;>
        simp [t_type.is_base_type, t_type.is_struct, t_type.is_xception, t_type.is_enum]
    | struct n x => cases x <;> simp [t_type.is_struct, t_type.is_xception]
    | map k v =>
      cases m.req_ <;>
        simp [t_type.is_base_type, t_type.is_struct, t_type.is_xception, t_type.is_enum,
          t_type.is_map]
    | set e =>
      cases m.req_ <;>
        simp [t_type.is_base_type, t_type.is_struct, t_type.is_xception, t_type.is_enum,
          t_type.is_map, t_type.is_set]
    | list e =>
      cases m.req_ <;>
        simp [t_type.is_base_type, t_type.is_struct, t_type.is_xception, t_type.is_enum,
          t_type.is_map, t_type.is_set, t_type.is_list]
    | typedef n t => simp [t_type.is_typedef] at htd

theorem omit_initialization_ok (a : t_field)
    (hvoid : a.type_.get_true_type.is_void = false) :
    ∃ o, omit_initialization a = .ok o := by
  unfold omit_initialization
  generalize a.type_.get_true_type = T at hvoid
  cases a.value_ with
  | none => exact ⟨_, rfl⟩
  | some c =>
    cases T with
    | base_type b bin =>
      cases b <;> cases bin <;>
        simp_all [t_type.is_base_type, t_type.get_base, t_type.is_binary, t_type.is_void]
      all_goals (split <;> simp <;> exact Classical.em _ |>.symm)
    | enum n => simp [t_type.is_base_type]
    | struct n x => simp [t_type.is_base_type]
    | map k v => simp [t_type.is_base_type]
    | set e => simp [t_type.is_base_type]
    | list e => simp [t_type.is_base_type]
    | typedef n t => simp [t_type.is_base_type]

theorem equals_field_direct (structs : List t_struct) (m : t_field) (t s : go_value)
    (hp : is_pointer_field m = .ok false) :
    equals_field structs m t s = equals_value structs m.type_ t s := by
  simp [equals_field, equals_field_with, hp, lift_generation, Except.bind]

theorem equals_field_pointer (structs : List t_struct) (m : t_field) (x' x : go_value)
    (hp : is_pointer_field m = .ok true)
    (hc : (m.type_.get_true_type.is_base_type || m.type_.get_true_type.is_enum
      || m.type_.get_true_type.is_container) = true) :
    equals_field structs m (.pointer_to x') (.pointer_to x) =
      equals_value structs m.type_ x' x := by
  unfold equals_field equals_field_with
  rw [hp]
  simp only [lift_generation, Except.bind, hc, Bool.and_self, if_true]
  rw [equals_pointer]
  rfl

theorem substr_length_le (s : List Char) (pos : Nat) (len : Option Nat) :
    (substr s pos len).length ≤ s.length - pos := by
  cases len with
  | none => simp [substr]
  | some n =>
    simp only [substr, List.length_take, List.length_drop]
    omega

theorem fix_common_initialism_length (g : t_go_generator) (value : List Char) (i : Nat)
    (hi : i ≤ value.length) : (fix_common_initialism g value i).length = value.length := by
  unfold fix_common_initialism
  split
  · dsimp only
    split
    · have h := substr_length_le value i ((find value '_' i).map (fun p => p - i))
      simp only [replace, List.length_append, List.length_take, List.length_drop,
        List.length_map]
      omega
    · rfl
  · rfl

theorem camelcase_loop_ok (g : t_go_generator) :
    ∀ (fuel i : Nat) (v : List Char), 1 ≤ i → i ≤ v.length → v.length < 2 ^ 31 →
      v.length < fuel + i → ∃ r, camelcase_loop g fuel i v = .ok r := by
  intro fuel
  induction fuel with
  | zero => intro i v _ h2 _ h4; omega
  | succ fuel ih =>
    intro i v h1 h2 h3 h4
    rw [camelcase_loop_succ, size_minus_one _ (by omega) h3]
    by_cases hlt : i < v.length - 1
    · rw [if_pos hlt]
      have hi : i < v.length := by omega
      rw [List.getElem?_eq_getElem hi]
      dsimp only
      by_cases hc : v[i] = '_'
      · rw [if_pos hc]
        have hi1 : i + 1 < v.length := by omega
        rw [List.getElem?_eq_getElem hi1]
        dsimp only
        have hint : ¬ i > INT_MAX := by
          simp only [INT_MAX]
          omega
        rw [if_neg hint]
        have hlen : (if islower v[i + 1] = true then replace v i 2 [toupper v[i + 1]]
            else v).length ≤ v.length ∧ i + 1 ≤ (if islower v[i + 1] = true
              then replace v i 2 [toupper v[i + 1]] else v).length := by
          split
          · simp only [replace, List.length_append, List.length_take, List.length_drop,
              List.length_cons, List.length_nil]
            omega
          · omega
        generalize (if islower v[i + 1] = true then replace v i 2 [toupper v[i + 1]]
            else v) = w at hlen
        have hfl := fix_common_initialism_length g w i (by omega)
        exact ih (i + 1) _ (by omega) (by omega) (by omega) (by omega)
      · rw [if_neg hc]
        exact ih (i + 1) v (by omega) (by omega) h3 (by omega)
    · rw [if_neg hlt]
      exact ⟨v, rfl⟩

theorem camelcase_ok (g : t_go_generator) (value : List Char) (hne : value ≠ [])
    (hlen : value.length < 2 ^ 31) : ∃ r, camelcase g value = .ok r := by
  have hpos := List.length_pos.2 hne
  have hfl := fix_common_initialism_length g value 0 (Nat.zero_le _)
  unfold camelcase
  exact camelcase_loop_ok g _ 1 _ (le_refl 1) (by omega) (by omega) (by omega)

theorem upcase_first_ne_nil (value : List Char) (hne : value ≠ []) :
    upcase_first value ≠ [] := by
  cases value with
  | nil => exact absurd rfl hne
  | cons c cs => simp [upcase_first]

theorem camelcase_upcase_first_ok (g : t_go_generator) (value : List Char) (hne : value ≠ [])
    (hlen : value.length < 2 ^ 31) : ∃ r, camelcase g (upcase_first value) = .ok r :=
  camelcase_ok g _ (upcase_first_ne_nil value hne) (by rw [upcase_first_length]; exact hlen)

/-! ### `publicize`: the "Args"/"Result" rule, the qualifier, the helper struct names -/

/-- C11 fails on the code: `publicize("new_args")` is "NewArgs__", with two underscores, not
"NewArgs_": the string that the "New" rule produces, "NewArgs_", does not end with "Args", and
the second underscore is appended all the same. -/
theorem publicize_new_args :
    publicize a_generator "new_args".toList false [] = .ok "NewArgs__".toList ∧
    publicize a_generator "new_args".toList false [] ≠ .ok "NewArgs_".toList := by
  decide

/-- C11 as amended: for a non-empty identifier without a dot (shorter than `2 ^ 31`
characters) `camelcase` returns a camel-cased form, and `publicize` with `is_args_or_result`
false returns it followed by one underscore when it starts with "New" and by one more
underscore when the camel-cased form itself, as it stood before the "New" rule, ends with
"Args" or "Result"; so a camel-cased form that starts with "New" and ends with "Args" or
"Result" is followed by two underscores. -/
theorem publicize_args_rule (g : t_go_generator) (value service_name : List Char)
    (hne : value ≠ []) (hdot : '.' ∉ value) (hlen : value.length < 2 ^ 31) :
    ∃ camel, camelcase g (upcase_first value) = .ok camel ∧
      publicize g value false service_name =
        .ok (camel ++ (if camel.take 3 = "New".toList then ['_'] else []) ++
          (if camel.drop (camel.length - 4) = "Args".toList ∨
              camel.drop (camel.length - 6) = "Result".toList then ['_'] else [])) ∧
      (camel.take 3 = "New".toList →
        (camel.drop (camel.length - 4) = "Args".toList ∨
          camel.drop (camel.length - 6) = "Result".toList) →
        publicize g value false service_name = .ok (camel ++ ['_', '_'])) := by
  obtain ⟨camel, hc⟩ := camelcase_upcase_first_ok g value hne hlen
  have h := publicize_body_plain g value camel (publicize_plain g service_name) hne hdot hc
  refine ⟨camel, hc, ?_, ?_⟩
  · unfold publicize
    rw [h, List.append_assoc]
    rfl
  · intro hnew hend
    unfold publicize
    rw [h]
    simp only [name_suffix, hnew, hend, if_true]
    rfl

/-- Witness of C11 as amended: `publicize("new_args")`. -/
theorem publicize_args_rule_witness :
    ∃ camel, camelcase a_generator (upcase_first "new_args".toList) = .ok camel ∧
      publicize a_generator "new_args".toList false [] =
        .ok (camel ++ (if camel.take 3 = "New".toList then ['_'] else []) ++
          (if camel.drop (camel.length - 4) = "Args".toList ∨
              camel.drop (camel.length - 6) = "Result".toList then ['_'] else [])) ∧
      (camel.take 3 = "New".toList →
        (camel.drop (camel.length - 4) = "Args".toList ∨
          camel.drop (camel.length - 6) = "Result".toList) →
        publicize a_generator "new_args".toList false [] = .ok (camel ++ ['_', '_'])) :=
  publicize_args_rule a_generator "new_args".toList [] (by decide) (by decide) (by decide)

/-- C12 fails on the code: the services "Foo" and "FooBar" have different names, and the
helper structs of the function "bar_ping" of the first and of the function "ping" of the
second get the same names, "FooBarPingArgs" and "FooBarPingResult". -/
theorem helper_names_collide :
    "Foo".toList ≠ "FooBar".toList ∧
    publicize a_generator "bar_ping_args".toList true "Foo".toList =
      .ok "FooBarPingArgs".toList ∧
    publicize a_generator "ping_args".toList true "FooBar".toList =
      .ok "FooBarPingArgs".toList ∧
    publicize a_generator "bar_ping_result".toList true "Foo".toList =
      .ok "FooBarPingResult".toList ∧
    publicize a_generator "ping_result".toList true "FooBar".toList =
      .ok "FooBarPingResult".toList := by
  decide

theorem publicize_helper_name (g : t_go_generator) (value service_name r : List Char)
    (hne : value ≠ []) (hdot : '.' ∉ value)
    (h : publicize g value true service_name = .ok r) :
    ∃ svc rest, publicize_plain g service_name = .ok svc ∧ r = svc ++ rest := by
  have hl : ¬ value.length ≤ 0 := by
    have := List.length_pos.2 hne
    omega
  unfold publicize publicize_body at h
  rw [split_qualifier_no_dot value hdot, if_neg hl] at h
  dsimp only at h
  cases hc : camelcase g (upcase_first value) with
  | error e => rw [hc] at h; cases h
  | ok camel =>
    rw [hc] at h
    simp only [Except.bind, if_true] at h
    cases hs : publicize_plain g service_name with
    | error e => rw [hs] at h; cases h
    | ok svc =>
      rw [hs] at h
      simp only [Except.ok.injEq, List.nil_append] at h
      exact ⟨svc, _, rfl, h.symm⟩

theorem helper_names_differ (g : t_go_generator) (f1 f2 s1 s2 svc1 svc2 r1 r2 : List Char)
    (hn1 : f1 ≠ []) (hn2 : f2 ≠ []) (hd1 : '.' ∉ f1) (hd2 : '.' ∉ f2)
    (hs1 : publicize_plain g s1 = .ok svc1) (hs2 : publicize_plain g s2 = .ok svc2)
    (hp1 : ¬ svc1 <+: svc2) (hp2 : ¬ svc2 <+: svc1)
    (h1 : publicize g f1 true s1 = .ok r1) (h2 : publicize g f2 true s2 = .ok r2) :
    r1 ≠ r2 := by
  obtain ⟨a1, t1, ha1, rfl⟩ := publicize_helper_name g f1 s1 r1 hn1 hd1 h1
  obtain ⟨a2, t2, ha2, rfl⟩ := publicize_helper_name g f2 s2 r2 hn2 hd2 h2
  rw [hs1] at ha1
  rw [hs2] at ha2
  cases ha1
  cases ha2
  intro heq
  rcases List.append_eq_append_iff.1 heq with ⟨a, ha, -⟩ | ⟨c, hc, -⟩
  · exact hp1 ⟨a, ha.symm⟩
  · exact hp2 ⟨c, hc.symm⟩

theorem rfind_last_dot (q n : List Char) (hdot : '.' ∉ n) :
    rfind (q ++ '.' :: n) '.' = some q.length := by
  have hmem : '.' ∈ q ++ '.' :: n := by simp
  have htw : ((q ++ '.' :: n).reverse.takeWhile (fun x => x != '.')).length = n.length := by
    have hrev : (q ++ '.' :: n).reverse = n.reverse ++ '.' :: q.reverse := by simp
    rw [hrev, List.takeWhile_append_of_pos]
    · simp
    · intro a ha
      have : a ≠ '.' := fun h => hdot (by rw [← h]; exact List.mem_reverse.1 ha)
      simpa using this
  unfold rfind
  rw [if_pos hmem, htw]
  simp only [List.length_append, List.length_cons]
  congr 1
  omega

theorem split_qualifier_last_dot (q n : List Char) (hdot : '.' ∉ n) :
    split_qualifier (q ++ '.' :: n) = (q ++ ['.'], n) := by
  have h1 : (q ++ '.' :: n).take (q.length + 1) = q ++ ['.'] := by
    have : q ++ '.' :: n = (q ++ ['.']) ++ n := by simp
    rw [this]
    exact List.take_left' (by simp)
  have h2 : (q ++ '.' :: n).drop (q.length + 1) = n := by
    have : q ++ '.' :: n = (q ++ ['.']) ++ n := by simp
    rw [this]
    exact List.drop_left' (by simp)
  unfold split_qualifier
  rw [rfind_last_dot q n hdot]
  simp only [substr, List.drop_zero, h1, h2]

/-- C13: `publicize` of the empty string is the empty string, and for an identifier
`q + "." + n` whose last segment `n` is non-empty and has no dot, `publicize` with
`is_args_or_result` false has the outcome of `publicize(n)` with `q + "."` put in front,
unchanged; for `n` shorter than `2 ^ 31` characters both calls return. -/
theorem publicize_qualifier (g : t_go_generator) (q n service_name : List Char)
    (hne : n ≠ []) (hdot : '.' ∉ n) :
    (∀ b, publicize g [] b service_name = .ok []) ∧
    publicize g (q ++ '.' :: n) false service_name =
      (publicize g n false service_name).map (fun r => q ++ '.' :: r) ∧
    (n.length < 2 ^ 31 →
      ∃ r, publicize g n false service_name = .ok r ∧
        publicize g (q ++ '.' :: n) false service_name = .ok (q ++ '.' :: r)) := by
  have hl : ¬ n.length ≤ 0 := by
    have := List.length_pos.2 hne
    omega
  have hl2 : ¬ (q ++ '.' :: n).length ≤ 0 := by
    simp only [List.length_append, List.length_cons]
    omega
  have heq : publicize g (q ++ '.' :: n) false service_name =
      (publicize g n false service_name).map (fun r => q ++ '.' :: r) := by
    unfold publicize publicize_body
    rw [split_qualifier_last_dot q n hdot, split_qualifier_no_dot n hdot, if_neg hl, if_neg hl2]
    dsimp only
    cases camelcase g (upcase_first n) with
    | error e => rfl
    | ok camel =>
      simp only [Except.bind, Bool.false_eq_true, if_false, Except.map, List.nil_append,
        List.append_assoc, List.singleton_append]
  refine ⟨fun b => rfl, heq, ?_⟩
  intro hlen
  obtain ⟨camel, hc⟩ := camelcase_upcase_first_ok g n hne hlen
  have h := publicize_body_plain g n camel (publicize_plain g service_name) hne hdot hc
  have hn : publicize g n false service_name = .ok (camel ++ name_suffix camel) := h
  exact ⟨_, hn, by rw [heq, hn]; rfl⟩

/-- Witness of C13: `publicize("shared.api_key")` is "shared.APIKey". -/
theorem publicize_qualifier_witness :
    publicize a_generator "shared.api_key".toList false [] = .ok "shared.APIKey".toList ∧
    (∀ b, publicize a_generator [] b [] = .ok []) ∧
    publicize a_generator ("shared".toList ++ '.' :: "api_key".toList) false [] =
      (publicize a_generator "api_key".toList false []).map
        (fun r => "shared".toList ++ '.' :: r) :=
  ⟨by decide,
   (publicize_qualifier a_generator "shared".toList "api_key".toList [] (by decide)
      (by decide)).1,
   (publicize_qualifier a_generator "shared".toList "api_key".toList [] (by decide)
      (by decide)).2.1⟩

/-! ### `variable_name_to_go_name` -/

theorem isupper_mem (c : Char) (h : isupper c = true) :
    c ∈ "ABCDEFGHIJKLMNOPQRSTUVWXYZ".toList := by
  rw [char_eq_ofNat_toNat c]
  simp only [isupper, Bool.and_eq_true, decide_eq_true_eq] at h
  obtain ⟨h1, h2⟩ := h
  generalize c.toNat = n at h1 h2
  interval_cases n <;> decide

theorem tolower_case_letter (c : Char) (h : tolower c ∈ "bcdefgimprstv".toList) :
    c ∈ "bBcCdDeEfFgGiImMpPrRsStTvV".toList := by
  by_cases hu : isupper c = true
  · have hm := isupper_mem c hu
    revert h
    revert hm
    generalize c = d
    revert d
    decide
  · have ht : tolower c = c := by simp [tolower, hu]
    rw [ht] at h
    revert h
    generalize c = d
    revert d
    decide

theorem switch_words_none (c : Char) (h : c ∉ "bBcCdDeEfFgGiImMpPrRsStTvV".toList) :
    switch_words c = none := by
  simp only [String.toList, List.mem_cons, List.mem_singleton, not_or, List.not_mem_nil,
    not_false_eq_true, and_true] at h
  simp [switch_words, h]

theorem switch_words_some :
    ∀ c ∈ "bBcCdDeEfFgGiImMpPrRsStTvV".toList,
      (switch_words c).any (fun ws =>
        ws.all (fun w => decide (w ∈ reserved_words)) &&
        reserved_words.all (fun w =>
          !(w.head? == some (tolower c)) || decide (w ∈ ws))) = true := by
  decide

theorem reserved_words_head :
    ∀ w ∈ reserved_words, ∃ h, w.head? = some h ∧ h ∈ "bcdefgimprstv".toList := by
  decide

/-- C14 fails on the code: the identifier "break", spelled exactly like the reserved word, is
not returned unchanged but as "break_a1"; and for "Break" the suffix is appended to the
lower-cased identifier. -/
theorem variable_name_exact_spelling :
    variable_name_to_go_name "break".toList = "break_a1".toList ∧
    variable_name_to_go_name "break".toList ≠ "break".toList ∧
    variable_name_to_go_name "Break".toList = "break_a1".toList := by
  decide

/-- C14 as amended: `variable_name_to_go_name` returns the lower-cased identifier followed
by "_a1" iff the lower-cased identifier is one of the reserved words, whether or not the
identifier is spelled exactly like the reserved word; in every other case it returns the
identifier unchanged. -/
theorem variable_name_reserved (value : List Char) :
    variable_name_to_go_name value =
      if value.map tolower ∈ reserved_words then value.map tolower ++ "_a1".toList
      else value := by
  cases value with
  | nil =>
    have h : ([] : List Char) ∉ reserved_words := by decide
    simp [variable_name_to_go_name, h]
  | cons c cs =>
    have hhead : ((c :: cs).map tolower).head? = some (tolower c) := rfl
    by_cases hc : c ∈ "bBcCdDeEfFgGiImMpPrRsStTvV".toList
    · have hs := switch_words_some c hc
      cases hsw : switch_words c with
      | none => rw [hsw] at hs; simp at hs
      | some ws =>
        rw [hsw] at hs
        simp only [Option.any_some, Bool.and_eq_true, List.all_eq_true, Bool.or_eq_true,
          Bool.not_eq_true', beq_eq_false_iff_ne, ne_eq, decide_eq_true_eq] at hs
        obtain ⟨hsub, hall⟩ := hs
        unfold variable_name_to_go_name
        simp only [hsw]
        by_cases hr : (c :: cs).map tolower ∈ reserved_words
        · have hin : (c :: cs).map tolower ∈ ws := by
            rcases hall _ hr with h | h
            · exact absurd hhead h
            · exact h
          have hnot : ws.all (fun w => (c :: cs).map tolower != w) = false := by
            rw [List.all_eq_false]
            exact ⟨_, hin, by simp⟩
          rw [if_pos hr, hnot]
          rfl
        · have hyes : ws.all (fun w => (c :: cs).map tolower != w) = true := by
            rw [List.all_eq_true]
            intro w hw
            have : (c :: cs).map tolower ≠ w := fun h => hr (h ▸ hsub w hw)
            simpa using this
          rw [if_neg hr, hyes]
          rfl
    · have hsw := switch_words_none c hc
      have hr : (c :: cs).map tolower ∉ reserved_words := by
        intro hr
        obtain ⟨h, hh, hmem⟩ := reserved_words_head _ hr
        rw [hhead] at hh
        cases hh
        exact hc (tolower_case_letter c hmem)
      unfold variable_name_to_go_name
      simp only [hsw]
      rw [if_neg hr]

/-! ### The Go type of a binary and of a map key -/

/-- C15 fails on the code: with the pointer flag set, `type_to_go_type_with_opt` maps the
binary type to "*[]byte"; the struct emitter passes the flag `is_pointer_field`, which holds
for a binary field with the `cpp.ref` annotation, whose struct field gets that type. -/
theorem binary_with_pointer_flag :
    type_to_go_type_with_opt local_types binary_type true = .ok "*[]byte".toList ∧
    is_pointer_field binary_ref_field = .ok true ∧
    field_go_type local_types binary_ref_field = .ok "*[]byte".toList := by
  decide

/-- C15 as amended: `type_to_go_type_with_opt` maps the binary type to "[]byte" when the
pointer flag is false and to "*[]byte" when it is true; for a binary field without the
`cpp.ref` annotation, whatever its requiredness and default, `is_pointer_field` is false and
the Go type of the struct field is "[]byte". -/
theorem binary_go_type (c : type_context) (m : t_field)
    (hty : m.type_ = binary_type) (href : m.annotations_count "cpp.ref".toList = 0) :
    type_to_go_type_with_opt c binary_type false = .ok "[]byte".toList ∧
    type_to_go_type_with_opt c binary_type true = .ok "*[]byte".toList ∧
    is_pointer_field m = .ok false ∧
    field_go_type c m = .ok "[]byte".toList := by
  have hp : is_pointer_field m = .ok false := by
    unfold is_pointer_field
    rw [hty, href]
    cases m.req_ <;> rfl
  refine ⟨rfl, rfl, hp, ?_⟩
  unfold field_go_type
  rw [hp, hty]
  rfl

/-- Witness of C15 as amended: an OPTIONAL binary field. -/
theorem binary_go_type_witness :
    type_to_go_type_with_opt local_types binary_type false = .ok "[]byte".toList ∧
    type_to_go_type_with_opt local_types binary_type true = .ok "*[]byte".toList ∧
    is_pointer_field binary_optional_field = .ok false ∧
    field_go_type local_types binary_optional_field = .ok "[]byte".toList :=
  binary_go_type local_types binary_optional_field rfl (by decide)

theorem key_resolved_type_eq (type : t_type) : key_resolved_type type = type.get_true_type := by
  cases type <;> rfl

theorem container_tests (T : t_type) : (T.is_map || T.is_list || T.is_set) = T.is_container := by
  cases T <;> rfl

theorem binary_not_container (T : t_type) (h : T.is_binary = true) : T.is_container = false := by
  cases T <;> simp_all [t_type.is_binary, t_type.is_container, t_type.is_map, t_type.is_set,
    t_type.is_list]

/-- C16: `type_to_go_key_type` throws when the key type, after resolving typedefs, is a map,
list or set; for a key type that resolves to binary it returns "string"; for every other key
type it has the outcome of `type_to_go_type`; so for a key type that has a Go type
(`type_to_go_type` returns) it throws iff the resolved type is a map, list or set. -/
theorem go_key_type_rules (c : type_context) (type : t_type) :
    (type.get_true_type.is_container = true → ∃ e, type_to_go_key_type c type = .error e) ∧
    (type.get_true_type.is_binary = true →
      type_to_go_key_type c type = .ok "string".toList) ∧
    (type.get_true_type.is_container = false → type.get_true_type.is_binary = false →
      type_to_go_key_type c type = type_to_go_type c type) ∧
    ((∃ r, type_to_go_type c type = .ok r) →
      ((∃ e, type_to_go_key_type c type = .error e) ↔
        type.get_true_type.is_container = true)) := by
  have hthrow : type.get_true_type.is_container = true →
      ∃ e, type_to_go_key_type c type = .error e := by
    intro hc
    unfold type_to_go_key_type go_key_type_of
    simp only [key_resolved_type_eq, container_tests, hc, if_true]
    cases type_to_go_type c type with
    | error e => exact ⟨e, rfl⟩
    | ok r => exact ⟨_, rfl⟩
  have hbin : type.get_true_type.is_binary = true →
      type_to_go_key_type c type = .ok "string".toList := by
    intro hb
    unfold type_to_go_key_type go_key_type_of
    simp only [key_resolved_type_eq, container_tests, binary_not_container _ hb, hb,
      Bool.false_eq_true, if_false, if_true]
  have hother : type.get_true_type.is_container = false →
      type.get_true_type.is_binary = false →
      type_to_go_key_type c type = type_to_go_type c type := by
    intro hc hb
    unfold type_to_go_key_type go_key_type_of
    simp only [key_resolved_type_eq, container_tests, hc, hb, Bool.false_eq_true, if_false]
  refine ⟨hthrow, hbin, hother, ?_⟩
  rintro ⟨r, hr⟩
  constructor
  · rintro ⟨e, he⟩
    by_contra hc
    have hc2 : type.get_true_type.is_container = false := by simpa using hc
    cases hb : type.get_true_type.is_binary with
    | true => rw [hbin hb] at he; cases he
    | false => rw [hother hc2 hb, hr] at he; cases he
  · exact hthrow

/-- Witness of C16: a typedef of binary as key gives "string", a list as key throws, and an
`i32` key has the Go type "int32". -/
theorem go_key_type_rules_witness :
    type_to_go_key_type local_types (.typedef ("Key".toList) binary_type) =
      .ok "string".toList ∧
    (∃ e, type_to_go_key_type local_types (.list (.base_type .TYPE_I32 false)) = .error e) ∧
    type_to_go_key_type local_types (.base_type .TYPE_I32 false) = .ok "int32".toList ∧
    ((∃ e, type_to_go_key_type local_types (.list (.base_type .TYPE_I32 false)) = .error e) ↔
      (t_type.list (.base_type .TYPE_I32 false)).get_true_type.is_container = true) :=
  ⟨(go_key_type_rules local_types _).2.1 rfl,
   (go_key_type_rules local_types _).1 rfl,
   ((go_key_type_rules local_types (.base_type .TYPE_I32 false)).2.2.1 rfl rfl).trans rfl,
   (go_key_type_rules local_types _).2.2.2 ⟨"[]int32".toList, rfl⟩⟩

/-! ### `omit_initialization` and the IsSet helpers -/

/-- C17: for a field whose resolved type is not void, `omit_initialization` returns true iff
the field declares no default, or its resolved type is a non-binary string and the default is
the empty string, or the type is bool, i8, i16, i32 or i64 and the integer value of the
default is 0, or the type is double and the default is zero; for a binary field with a
declared default, and for an enum, struct, exception or container field with a declared
default, it returns false. -/
theorem omit_initialization_rules (f : t_field)
    (hvoid : f.type_.get_true_type.is_void = false) :
    (∃ b, omit_initialization f = .ok b) ∧
    (omit_initialization f = .ok true ↔
      (f.value_.isSome = false ∨
        ∃ v, f.value_ = some v ∧ f.type_.get_true_type.is_base_type = true ∧
          ((f.type_.get_true_type.get_base = t_base.TYPE_STRING ∧
              f.type_.get_true_type.is_binary = false ∧ v.get_string = []) ∨
           ((f.type_.get_true_type.get_base = t_base.TYPE_BOOL ∨
               f.type_.get_true_type.get_base = t_base.TYPE_I8 ∨
               f.type_.get_true_type.get_base = t_base.TYPE_I16 ∨
               f.type_.get_true_type.get_base = t_base.TYPE_I32 ∨
               f.type_.get_true_type.get_base = t_base.TYPE_I64) ∧ v.get_integer = 0) ∨
           (f.type_.get_true_type.get_base = t_base.TYPE_DOUBLE ∧
              is_zero_number v = true)))) ∧
    (f.value_.isSome = true →
      (f.type_.get_true_type.is_binary = true ∨ f.type_.get_true_type.is_enum = true ∨
        f.type_.get_true_type.is_struct = true ∨ f.type_.get_true_type.is_xception = true ∨
        f.type_.get_true_type.is_container = true) →
      omit_initialization f = .ok false) := by
  refine ⟨omit_initialization_ok f hvoid, ?_, ?_⟩
  · unfold omit_initialization is_zero_number
    generalize f.type_.get_true_type = T at hvoid
    cases f.value_ with
    | none => simp
    | some c =>
      cases T with
      | base_type b bin =>
        cases b <;> cases bin <;>
          simp_all [t_type.is_base_type, t_type.get_base, t_type.is_binary, t_type.is_void]
        all_goals (split <;> simp_all)
      | enum n => simp [t_type.is_base_type]
      | struct n x => simp [t_type.is_base_type]
      | map k v => simp [t_type.is_base_type]
      | set e => simp [t_type.is_base_type]
      | list e => simp [t_type.is_base_type]
      | typedef n t => simp [t_type.is_base_type]
  · intro hsome hT
    unfold omit_initialization
    generalize f.type_.get_true_type = T at hvoid hT
    cases hv : f.value_ with
    | none => rw [hv] at hsome; cases hsome
    | some c =>
      cases T with
      | base_type b bin =>
        cases b <;> cases bin <;>
          simp_all [t_type.is_base_type, t_type.get_base, t_type.is_binary, t_type.is_void,
            t_type.is_enum, t_type.is_struct, t_type.is_xception, t_type.is_container,
            t_type.is_map, t_type.is_set, t_type.is_list]
      | enum n => simp [t_type.is_base_type]
      | struct n x => simp [t_type.is_base_type]
      | map k v => simp [t_type.is_base_type]
      | set e => simp [t_type.is_base_type]
      | list e => simp [t_type.is_base_type]
      | typedef n t => simp [t_type.is_base_type]

/-- Witness of C17: an `i32` field with the default 0 is omitted, a binary field with the
default "" is not. -/
theorem omit_initialization_rules_witness :
    omit_initialization zero_default_field = .ok true ∧
    omit_initialization binary_default_field = .ok false :=
  ⟨(omit_initialization_rules zero_default_field rfl).2.1.2
      (Or.inr ⟨_, rfl, rfl, Or.inr (Or.inl ⟨Or.inr (Or.inr (Or.inr (Or.inl rfl))), rfl⟩)⟩),
   (omit_initialization_rules binary_default_field rfl).2.2 rfl (Or.inl rfl)⟩

theorem isset_helper_eq (m : t_field) (p : Bool)
    (hp : is_pointer_field m = .ok p) (hhelper : m.req_ = e_req.T_OPTIONAL ∨ p = true) :
    isset_helper m = .ok (some
      (if p = true ∨ m.type_.get_true_type.is_set = true ∨
          m.type_.get_true_type.is_list = true ∨ m.type_.get_true_type.is_map = true ∨
          (m.type_.get_true_type.is_binary = true ∧ m.value_.isSome = false)
        then isset_body.ne_nil
        else if m.type_.get_true_type.is_binary = true then isset_body.not_bytes_equal_default
        else isset_body.ne_default)) := by
  unfold isset_helper
  rw [hp]
  dsimp only
  generalize m.type_.get_true_type.is_set = s
  generalize m.type_.get_true_type.is_list = l
  generalize m.type_.get_true_type.is_map = mp
  generalize m.type_.get_true_type.is_binary = b
  generalize m.value_.isSome = d
  rcases hhelper with hreq | hpt
  · rw [hreq]
    cases p <;> cases s <;> cases l <;> cases mp <;> cases b <;> cases d <;>
      simp [Except.bind]
  · subst hpt
    cases m.req_ <;> cases s <;> cases l <;> cases mp <;> cases b <;> cases d <;>
      simp [Except.bind]

/-- C18: for a member that gets an IsSet helper (it is OPTIONAL or a pointer field), the
helper compares the field with nil iff the member is a pointer field or its resolved type is
a set, list or map, or binary without a default; otherwise it compares the field with the
default holder, by `bytes.Equal` for binary and by `!=` for every other type. -/
theorem isset_helper_rules (m : t_field) (p : Bool) (field dflt : go_value)
    (hp : is_pointer_field m = .ok p) (hhelper : m.req_ = e_req.T_OPTIONAL ∨ p = true) :
    isset_helper m = .ok (some
      (if p = true ∨ m.type_.get_true_type.is_set = true ∨
          m.type_.get_true_type.is_list = true ∨ m.type_.get_true_type.is_map = true ∨
          (m.type_.get_true_type.is_binary = true ∧ m.value_.isSome = false)
        then isset_body.ne_nil
        else if m.type_.get_true_type.is_binary = true then isset_body.not_bytes_equal_default
        else isset_body.ne_default)) ∧
    generated_IsSet m field dflt = .ok (some
      (if p = true ∨ m.type_.get_true_type.is_set = true ∨
          m.type_.get_true_type.is_list = true ∨ m.type_.get_true_type.is_map = true ∨
          (m.type_.get_true_type.is_binary = true ∧ m.value_.isSome = false)
        then !field.is_nil
        else if m.type_.get_true_type.is_binary = true then !bytes_Equal field dflt
        else go_ne field dflt)) := by
  have h1 := isset_helper_eq m p hp hhelper
  refine ⟨h1, ?_⟩
  unfold generated_IsSet
  rw [h1]
  simp only [Except.bind, Option.map_some']
  congr 2
  split
  · rfl
  · split <;> rfl

/-- Witness of C18: the helper of an OPTIONAL `i32` field with a default compares the field
with the default holder by `!=`; the helper of an OPTIONAL binary field without default
compares it with nil. -/
theorem isset_helper_rules_witness :
    isset_helper optional_default_field = .ok (some isset_body.ne_default) ∧
    generated_IsSet optional_default_field (.int 7) (.int 5) = .ok (some true) ∧
    isset_helper binary_optional_field = .ok (some isset_body.ne_nil) :=
  ⟨(isset_helper_rules optional_default_field false .nil .nil rfl (Or.inl rfl)).1,
   (isset_helper_rules optional_default_field false (.int 7) (.int 5) rfl (Or.inl rfl)).2,
   (isset_helper_rules binary_optional_field false .nil .nil rfl (Or.inl rfl)).1⟩

/-! ### `CountSetFields` on a receiver -/

theorem rendered_default_ok (render : t_field → go_value) (a : t_field)
    (hvoid : a.type_.get_true_type.is_void = false) :
    ∃ r, rendered_default render a = .ok r := by
  unfold rendered_default const_go_value
  generalize a.type_.get_true_type = T at *
  cases a.value_ with
  | none => exact ⟨_, rfl⟩
  | some c =>
    cases T with
    | base_type b bin =>
      cases b <;> cases bin <;>
        simp_all [t_type.is_base_type, t_type.get_base, t_type.is_binary, t_type.is_void]
      all_goals (split <;> simp)
    | enum n => simp [t_type.is_base_type, t_type.is_enum]
    | struct n x => simp [t_type.is_base_type, t_type.is_enum]
    | map k v => simp [t_type.is_base_type, t_type.is_enum]
    | set e => simp [t_type.is_base_type, t_type.is_enum]
    | list e => simp [t_type.is_base_type, t_type.is_enum]
    | typedef n t => simp [t_type.is_base_type, t_type.is_enum]

theorem field_IsSet_optional (render : t_field → go_value) (m : t_field) (f : go_value)
    (hvoid : m.type_.get_true_type.is_void = false) (hreq : m.req_ = e_req.T_OPTIONAL) :
    ∃ b, field_IsSet render m f = .ok b := by
  obtain ⟨p, hp⟩ := is_pointer_field_ok m hvoid
  obtain ⟨r, hr⟩ := rendered_default_ok render m hvoid
  have hh := isset_helper_eq m p hp (Or.inl hreq)
  unfold field_IsSet default_holder_value default_holder generated_IsSet
  rw [hr, hh]
  simp [hreq, lift_generation, Except.bind]

theorem receiver_count_eq (render : t_field → go_value) :
    ∀ (members : List t_field) (fields : List go_value),
      (∀ m ∈ members, m.type_.get_true_type.is_void = false ∧ m.req_ = e_req.T_OPTIONAL) →
      receiver_CountSetFields render members fields =
        .ok (isset_count render counted members fields) := by
  intro members
  induction members with
  | nil => intro fields _; cases fields <;> rfl
  | cons m ms ih =>
    intro fields h
    cases fields with
    | nil => rfl
    | cons f fs =>
      obtain ⟨hvoid, hreq⟩ := h m (List.mem_cons_self _ _)
      have hrest := ih fs (fun a ha => h a (List.mem_cons_of_mem _ ha))
      obtain ⟨p, hp⟩ := is_pointer_field_ok m hvoid
      have hset : is_setable m = .ok (setable m) := by
        simp [setable, is_setable, hp, Except.bind]
      obtain ⟨b, hb⟩ := field_IsSet_optional render m f hvoid hreq
      have hnr : (m.req_ == e_req.T_REQUIRED) = false := by rw [hreq]; rfl
      have hit : isset_true render m f = b := by simp [isset_true, hb]
      unfold receiver_CountSetFields isset_count
      rw [hrest, hset, hb, hit]
      simp only [hnr, Bool.false_eq_true, if_false, lift_generation, Except.bind, counted,
        Bool.not_false, Bool.true_and]
      cases setable m <;> cases b <;> simp [Nat.add_comm]

/-- C19 fails on the code: in the union of an `i32` with the default 5 and a string,
`CountSetFields` is generated (one member is setable); on the receiver whose `i32` is 7 and
whose string is unset, the IsSet helper of the `i32`, a non-required field, returns true, and
`CountSetFields` returns 0: it does not call the helper of a field that is neither a pointer
field nor of a map, set, list or binary type. -/
theorem count_set_fields_skips :
    union_default_and_string.is_union_ = true ∧
    num_setable (definition_members union_default_and_string) = .ok 1 ∧
    (definition_members union_default_and_string).map (fun m => m.req_) =
      [e_req.T_OPTIONAL, e_req.T_OPTIONAL] ∧
    List.zipWith (field_IsSet no_defaults) (definition_members union_default_and_string)
      [.int 7, .nil] = [.ok true, .ok false] ∧
    isset_count no_defaults non_required (definition_members union_default_and_string)
      [.int 7, .nil] = 1 ∧
    receiver_CountSetFields no_defaults (definition_members union_default_and_string)
      [.int 7, .nil] = .ok 0 := by
  refine ⟨rfl, rfl, rfl, ?_, rfl, rfl⟩
  decide

/-- C19 as amended: for a union whose smallest wire id is not negative and whose members
have no void type, the generated `CountSetFields` returns the number of the fields that are
not REQUIRED, are pointer fields or of a map, set, list or binary type, and whose IsSet
helper returns true. -/
theorem count_set_fields (render : t_field → go_value) (s : t_struct) (fields : List go_value)
    (hu : s.is_union_ = true)
    (hkey : s.sorted_positions = [] ∨ key_at s.members_ (s.sorted_positions.headD 0) ≥ 0)
    (hvoid : ∀ m ∈ s.members_, m.type_.get_true_type.is_void = false) :
    receiver_CountSetFields render (definition_members s) fields =
      .ok (isset_count render counted (definition_members s) fields) := by
  apply receiver_count_eq
  intro m hm
  refine ⟨?_, (union_members_optional s hu hkey).2.1 m hm⟩
  have hmap := definition_members_map (fun a => a.type_) (fun _ _ => rfl) s
  have hmem : m.type_ ∈ (definition_members s).map (fun a => a.type_) :=
    List.mem_map.2 ⟨m, hm, rfl⟩
  rw [hmap] at hmem
  obtain ⟨m0, hm0, heq⟩ := List.mem_map.1 hmem
  rw [← heq]
  exact hvoid m0 hm0

/-- Witness of C19 as amended: the union of an `i32` with a default and a string, with the
`i32` changed and the string set, has one counted field. -/
theorem count_set_fields_witness :
    receiver_CountSetFields no_defaults (definition_members union_default_and_string)
      [.int 7, .pointer_to (.string [])] = .ok 1 :=
  count_set_fields no_defaults union_default_and_string [.int 7, .pointer_to (.string [])]
    rfl (Or.inr (by decide)) (by decide)

/-! ### The uniqueness check of a set -/

theorem equal_pair_cons (structs : List t_struct) (elem : t_type) (x : go_value)
    (xs : List go_value) :
    equal_pair structs elem (x :: xs) ↔
      (∃ y ∈ xs, equals_value structs elem x y = .ok true) ∨ equal_pair structs elem xs := by
  constructor
  · rintro ⟨i, j, a, b, hij, hi, hj, heq⟩
    cases j with
    | zero => omega
    | succ j =>
      rw [List.getElem?_cons_succ] at hj
      cases i with
      | zero =>
        rw [List.getElem?_cons_zero] at hi
        cases hi
        exact Or.inl ⟨b, List.getElem?_mem hj, heq⟩
      | succ i =>
        rw [List.getElem?_cons_succ] at hi
        exact Or.inr ⟨i, j, a, b, by omega, hi, hj, heq⟩
  · rintro (⟨y, hy, heq⟩ | ⟨i, j, a, b, hij, hi, hj, heq⟩)
    · obtain ⟨j, hj⟩ := List.mem_iff_getElem?.1 hy
      exact ⟨0, j + 1, x, y, by omega, List.getElem?_cons_zero, by rw [List.getElem?_cons_succ]; exact hj, heq⟩
    · exact ⟨i + 1, j + 1, a, b, by omega, by rw [List.getElem?_cons_succ]; exact hi,
        by rw [List.getElem?_cons_succ]; exact hj, heq⟩

theorem equals_any_iff (structs : List t_struct) (elem : t_type) (x : go_value) :
    ∀ (ys : List go_value), (∀ y ∈ ys, ∃ b, equals_value structs elem x y = .ok b) →
      ∃ r, equals_any structs elem x ys = .ok r ∧
        (r = true ↔ ∃ y ∈ ys, equals_value structs elem x y = .ok true) := by
  intro ys
  induction ys with
  | nil => intro _; exact ⟨false, rfl, by simp⟩
  | cons y ys ih =>
    intro h
    obtain ⟨b, hb⟩ := h y (List.mem_cons_self _ _)
    obtain ⟨r, hr, hiff⟩ := ih (fun z hz => h z (List.mem_cons_of_mem _ hz))
    unfold equals_any
    rw [hb]
    cases b with
    | true =>
      refine ⟨true, rfl, ?_⟩
      simp only [true_iff]
      exact ⟨y, List.mem_cons_self _ _, hb⟩
    | false =>
      refine ⟨r, hr, ?_⟩
      rw [hiff]
      constructor
      · rintro ⟨z, hz, heq⟩
        exact ⟨z, List.mem_cons_of_mem _ hz, heq⟩
      · rintro ⟨z, hz, heq⟩
        rcases List.mem_cons.1 hz with rfl | hz
        · rw [hb] at heq; cases heq
        · exact ⟨z, hz, heq⟩

theorem set_check_iff (structs : List t_struct) (elem : t_type) :
    ∀ (elems : List go_value),
      (∀ x ∈ elems, ∀ y ∈ elems, ∃ b, equals_value structs elem x y = .ok b) →
      (set_check structs elem elems = .ok none ∨
        set_check structs elem elems = .ok (some .slice_not_unique)) ∧
      (set_check structs elem elems = .ok (some .slice_not_unique) ↔
        equal_pair structs elem elems) := by
  intro elems
  induction elems with
  | nil =>
    intro _
    refine ⟨Or.inl rfl, ?_⟩
    constructor
    · intro h; cases h
    · rintro ⟨i, j, a, b, -, hi, -, -⟩
      simp at hi
  | cons x xs ih =>
    intro h
    obtain ⟨hor, hiff⟩ := ih (fun a ha b hb =>
      h a (List.mem_cons_of_mem _ ha) b (List.mem_cons_of_mem _ hb))
    obtain ⟨r, hr, hany⟩ := equals_any_iff structs elem x xs
      (fun y hy => h x (List.mem_cons_self _ _) y (List.mem_cons_of_mem _ hy))
    rw [equal_pair_cons]
    unfold set_check
    rw [hr]
    cases r with
    | true =>
      refine ⟨Or.inr rfl, ?_⟩
      simp only [Except.bind, if_true, true_iff]
      exact Or.inl (hany.1 rfl)
    | false =>
      have hno : ¬ ∃ y ∈ xs, equals_value structs elem x y = .ok true := by
        intro hex
        have := hany.2 hex
        cases this
      simp only [Except.bind, Bool.false_eq_true, if_false]
      refine ⟨hor, ?_⟩
      rw [hiff]
      constructor
      · exact Or.inr
      · rintro (hex | hp)
        · exact absurd hex hno
        · exact hp

/-- C20 fails on the code: the generated writer of a field of the type `set<set<i32>>` on the
value `[[2, 2]]` fails with the "slice is not unique" error, and the set has one element, so
there are no two positions with equal elements: the error comes from the scan of the
element, which is a set itself. -/
theorem nested_set_not_unique :
    write_value round_trip_program no_defaults nested_set_field false
      (.slice [.slice [.int 2, .int 2]]) = .error (.returned .slice_not_unique) ∧
    set_check round_trip_program (.set (.base_type .TYPE_I32 false))
      [.slice [.int 2, .int 2]] = .ok none ∧
    ¬ equal_pair round_trip_program (.set (.base_type .TYPE_I32 false))
      [.slice [.int 2, .int 2]] := by
  refine ⟨rfl, rfl, ?_⟩
  rintro ⟨i, j, a, b, hij, -, hj, -⟩
  cases j with
  | zero => omega
  | succ j => simp at hj

/-- C20 as amended: for a set whose element type has a wire type and whose elements can be
compared, the scan that the generated code runs over the elements of the set itself returns
the "slice is not unique" error iff there are positions `i < j` whose elements are equal by
the generated comparison of the element type; when it does, the call of `WriteSetBegin` is
the only protocol call made, so no element has been written; and the code that writes a
set-typed field (the set itself, or what a pointer field points to) then fails with that
error. (An element that holds a set fails by its own scan, while the elements are
written.) -/
theorem set_write_unique (structs : List t_struct) (render : t_field → go_value)
    (elem : t_type) (elems : List go_value) (ty : TType)
    (hty : type_to_enum elem = .ok ty)
    (hcmp : ∀ x ∈ elems, ∀ y ∈ elems, ∃ b, equals_value structs elem x y = .ok b) :
    ((∃ items, set_written structs render elem elems = .ok (items, some .slice_not_unique)) ↔
      equal_pair structs elem elems) ∧
    (∀ items err, set_written structs render elem elems = .ok (items, some err) →
      items = [tok.SetBegin ty elems.length] ∧ err = .slice_not_unique) ∧
    (∀ m : t_field, m.type_.get_true_type = .set elem → equal_pair structs elem elems →
      (is_pointer_field m = .ok false →
        write_value structs render m false (.slice elems) =
          .error (.returned .slice_not_unique)) ∧
      (is_pointer_field m = .ok true →
        write_value structs render m false (.pointer_to (.slice elems)) =
          .error (.returned .slice_not_unique))) := by
  obtain ⟨hor, hiff⟩ := set_check_iff structs elem elems hcmp
  have hw : ∀ items err, set_written structs render elem elems = .ok (items, some err) →
      items = [tok.SetBegin ty elems.length] ∧ err = .slice_not_unique ∧
        set_check structs elem elems = .ok (some .slice_not_unique) := by
    intro items err h
    unfold set_written at h
    rw [hty] at h
    rcases hor with hn | hs
    · rw [hn] at h
      simp only [lift_generation, Except.bind] at h
      cases hwe : write_elems structs render elem elems with
      | error e => rw [hwe] at h; cases h
      | ok b => rw [hwe] at h; simp at h
    · rw [hs] at h
      simp only [lift_generation, Except.bind, Except.ok.injEq, Prod.mk.injEq,
        Option.some.injEq] at h
      exact ⟨h.1.symm, h.2.symm, hs⟩
  refine ⟨?_, fun items err h => ⟨(hw items err h).1, (hw items err h).2.1⟩, ?_⟩
  · constructor
    · rintro ⟨items, h⟩
      exact hiff.1 (hw items _ h).2.2
    · intro hp
      have hs := hiff.2 hp
      refine ⟨[tok.SetBegin ty elems.length], ?_⟩
      unfold set_written
      rw [hty, hs]
      rfl
  · intro m hm hp
    have hs := hiff.2 hp
    constructor
    · intro hptr
      rw [write_value]
      unfold unless_pointer container_slice
      rw [hptr, hm]
      simp only [lift_generation, Except.bind, hs, Bool.false_eq_true, if_false]
    · intro hptr
      rw [write_value, write_container]
      unfold write_pointer container_slice
      rw [hptr, hm]
      simp [lift_generation, Except.bind, hs, t_type.is_struct, t_type.is_xception,
        t_type.is_container, t_type.is_set]

/-- Witness of C20 as amended: the set `[1, 2, 1]` of a field of the type `set<i32>`. -/
theorem set_write_unique_witness :
    equal_pair round_trip_program (.base_type .TYPE_I32 false) [.int 1, .int 2, .int 1] ∧
    (∃ items, set_written round_trip_program no_defaults (.base_type .TYPE_I32 false)
      [.int 1, .int 2, .int 1] = .ok (items, some .slice_not_unique)) ∧
    write_value round_trip_program no_defaults set_field false
      (.slice [.int 1, .int 2, .int 1]) = .error (.returned .slice_not_unique) :=
  have hcmp : ∀ x ∈ [go_value.int 1, .int 2, .int 1], ∀ y ∈ [go_value.int 1, .int 2, .int 1],
      ∃ b, equals_value round_trip_program (.base_type .TYPE_I32 false) x y = .ok b := by
    intro x hx y hy
    simp only [List.mem_cons, List.mem_singleton, List.not_mem_nil, or_false] at hx hy
    rcases hx with rfl | rfl | rfl <;> rcases hy with rfl | rfl | rfl <;> exact ⟨_, rfl⟩
  have hp : equal_pair round_trip_program (.base_type .TYPE_I32 false)
      [.int 1, .int 2, .int 1] := ⟨0, 2, .int 1, .int 1, by decide, rfl, rfl, rfl⟩
  ⟨hp,
   (set_write_unique round_trip_program no_defaults (.base_type .TYPE_I32 false)
      [.int 1, .int 2, .int 1] TType.I32 rfl hcmp).1.2 hp,
   ((set_write_unique round_trip_program no_defaults (.base_type .TYPE_I32 false)
      [.int 1, .int 2, .int 1] TType.I32 rfl hcmp).2.2 set_field rfl hp).1 rfl⟩

/-! ### The options of the constructor -/

theorem options_loop_spec :
    ∀ (parsed_options : List (List Char × List Char)) (o : generator_options),
      ((∃ f, options_loop parsed_options o = .error f) ↔
        ∃ e ∈ parsed_options, e.1 ∉ known_options) ∧
      (∀ f, options_loop parsed_options o = .error f →
        ∃ e ∈ parsed_options, e.1 ∉ known_options ∧
          f = .thrown ("unknown option go:".toList ++ e.1)) ∧
      (∀ r, options_loop parsed_options o = .ok r →
        (r.read_write_private_ = (o.read_write_private_ ||
          (parsed_options.map Prod.fst).contains "read_write_private".toList)) ∧
        (r.ignore_initialisms_ = (o.ignore_initialisms_ ||
          (parsed_options.map Prod.fst).contains "ignore_initialisms".toList)) ∧
        (r.skip_remote_ = (o.skip_remote_ ||
          (parsed_options.map Prod.fst).contains "skip_remote".toList))) := by
  intro parsed_options
  induction parsed_options with
  | nil =>
    intro o
    refine ⟨⟨?_, ?_⟩, ?_, ?_⟩
    · rintro ⟨f, h⟩; cases h
    · rintro ⟨e, he, -⟩; cases he
    · intro f h; cases h
    · intro r h
      cases h
      simp
  | cons p rest ih =>
    intro o
    obtain ⟨first, second⟩ := p
    by_cases hk : first ∈ known_options
    · have hstep : ∃ o1, options_loop ((first, second) :: rest) o = options_loop rest o1 ∧
          o1.read_write_private_ =
            (o.read_write_private_ || first == "read_write_private".toList) ∧
          o1.ignore_initialisms_ =
            (o.ignore_initialisms_ || first == "ignore_initialisms".toList) ∧
          o1.skip_remote_ = (o.skip_remote_ || first == "skip_remote".toList) := by
        simp only [known_options, List.map_cons, List.map_nil, List.mem_cons,
          List.mem_singleton, List.not_mem_nil, or_false] at hk
        rcases hk with h | h | h | h | h | h <;> subst h <;>
          exact ⟨_, rfl, by simp, by simp, by simp⟩
      obtain ⟨o1, hs, h1, h2, h3⟩ := hstep
      rw [hs]
      obtain ⟨ihiff, iherr, ihok⟩ := ih o1
      refine ⟨?_, ?_, ?_⟩
      · rw [ihiff]
        constructor
        · rintro ⟨e, he, hne⟩
          exact ⟨e, List.mem_cons_of_mem _ he, hne⟩
        · rintro ⟨e, he, hne⟩
          rcases List.mem_cons.1 he with rfl | he
          · exact absurd hk hne
          · exact ⟨e, he, hne⟩
      · intro f hf
        obtain ⟨e, he, hne, hf2⟩ := iherr f hf
        exact ⟨e, List.mem_cons_of_mem _ he, hne, hf2⟩
      · intro r hr
        obtain ⟨r1, r2, r3⟩ := ihok r hr
        rw [r1, r2, r3, h1, h2, h3]
        simp only [List.map_cons, List.contains_cons, Bool.or_assoc]
        refine ⟨?_, ?_, ?_⟩ <;> congr 1 <;> rw [Bool.beq_comm]
    · have hstep : options_loop ((first, second) :: rest) o =
          .error (.thrown ("unknown option go:".toList ++ first)) := by
        simp only [known_options, List.map_cons, List.map_nil, List.mem_cons,
          List.mem_singleton, List.not_mem_nil, or_false, not_or] at hk
        obtain ⟨k1, k2, k3, k4, k5, k6⟩ := hk
        simp only [options_loop, beq_eq_false_iff_ne.2 k1, beq_eq_false_iff_ne.2 k2,
          beq_eq_false_iff_ne.2 k3, beq_eq_false_iff_ne.2 k4, beq_eq_false_iff_ne.2 k5,
          beq_eq_false_iff_ne.2 k6, Bool.false_eq_true, if_false]
      rw [hstep]
      refine ⟨?_, ?_, ?_⟩
      · constructor
        · intro _
          exact ⟨(first, second), List.mem_cons_self _ _, hk⟩
        · intro _
          exact ⟨_, rfl⟩
      · intro f hf
        cases hf
        exact ⟨(first, second), List.mem_cons_self _ _, hk, rfl⟩
      · intro r hr
        cases hr

/-- C30: the constructor throws iff the option map has a key other than `package_prefix`,
`thrift_import`, `package`, `read_write_private`, `ignore_initialisms` and `skip_remote`,
and the text thrown is "unknown option go:" followed by such a key; when it returns, each of
the three boolean options is true iff its key is present, whatever the value. -/
theorem constructor_options (parsed_options : List (List Char × List Char)) :
    ((∃ f, construct_generator parsed_options = .error f) ↔
      ∃ e ∈ parsed_options, e.1 ∉ known_options) ∧
    (∀ f, construct_generator parsed_options = .error f →
      ∃ e ∈ parsed_options, e.1 ∉ known_options ∧
        f = .thrown ("unknown option go:".toList ++ e.1)) ∧
    (∀ r, construct_generator parsed_options = .ok r →
      (r.read_write_private_ = true ↔
        "read_write_private".toList ∈ parsed_options.map Prod.fst) ∧
      (r.ignore_initialisms_ = true ↔
        "ignore_initialisms".toList ∈ parsed_options.map Prod.fst) ∧
      (r.skip_remote_ = true ↔ "skip_remote".toList ∈ parsed_options.map Prod.fst)) := by
  obtain ⟨hiff, herr, hok⟩ := options_loop_spec parsed_options
    { gen_thrift_import_ := DEFAULT_THRIFT_IMPORT
      gen_package_prefix_ := []
      package_flag := []
      read_write_private_ := false
      ignore_initialisms_ := false
      skip_remote_ := false }
  refine ⟨hiff, herr, ?_⟩
  intro r hr
  obtain ⟨h1, h2, h3⟩ := hok r hr
  rw [h1, h2, h3]
  simp

/-- Witness of C30: the options `skip_remote` and an unknown key; the option
`ignore_initialisms` with a value. -/
theorem constructor_options_witness :
    (∃ f, construct_generator [("skip_remote".toList, []), ("bogus".toList, [])] = .error f) ∧
    ((construct_generator [("ignore_initialisms".toList, "no".toList)]).map
      (fun r => (r.read_write_private_, r.ignore_initialisms_, r.skip_remote_)) =
        .ok (false, true, false)) :=
  ⟨(constructor_options [("skip_remote".toList, []), ("bogus".toList, [])]).1.2
      ⟨("bogus".toList, []), by decide, by decide⟩,
   by decide⟩

/-! ### The emitted `Process`: unknown method names -/

theorem map_find_assign (m : string_map) (key value k : List Char) :
    map_find (map_assign m key value) k = if key = k then some value else map_find m k := by
  induction m with
  | nil =>
    by_cases h : key = k
    · simp [map_assign, map_find, h]
    · simp [map_assign, map_find, h]
  | cons e rest ih =>
    obtain ⟨a, b⟩ := e
    by_cases ha : a = key
    · subst ha
      by_cases h : a = k
      · simp [map_assign, map_find, h]
      · simp [map_assign, map_find, h]
    · by_cases hk : a = k
      · subst hk
        have hne : ¬ key = a := fun h => ha h.symm
        simp [map_assign, map_find, ha, hne]
      · simp [map_assign, map_find, ha, hk, ih]

theorem processor_fold_find (key_of : List Char → List Char) (name : List Char) :
    ∀ (functions : List (List Char)) (m : string_map),
      (map_find (functions.foldl (fun m f => map_assign m (key_of f) f) m) name = none ↔
        map_find m name = none ∧ name ∉ functions.map key_of) ∧
      (∀ f, map_find (functions.foldl (fun m f => map_assign m (key_of f) f) m) name = some f →
        map_find m name = some f ∨ (f ∈ functions ∧ key_of f = name)) := by
  intro functions
  induction functions with
  | nil => intro m; simp
  | cons g rest ih =>
    intro m
    obtain ⟨ih1, ih2⟩ := ih (map_assign m (key_of g) g)
    simp only [List.foldl_cons, List.map_cons, List.mem_cons, not_or]
    constructor
    · rw [ih1, map_find_assign]
      by_cases hg : key_of g = name
      · simp [hg]
      · have hg2 : ¬ name = key_of g := fun h => hg h.symm
        simp [hg, hg2]
    · intro f hf
      rcases ih2 f hf with h | ⟨h1, h2⟩
      · rw [map_find_assign] at h
        by_cases hg : key_of g = name
        · rw [if_pos hg] at h
          cases h
          exact Or.inr ⟨Or.inl rfl, hg⟩
        · rw [if_neg hg] at h
          exact Or.inl h
      · exact Or.inr ⟨Or.inr h1, h2⟩

/-- C29: for a service without a parent, the emitted `Process`, when `ReadMessageBegin`
returns a name that is the key of no function in the processor map, skips the arguments,
writes the begin of an EXCEPTION message with the received name and sequence id, writes the
UNKNOWN_METHOD application exception, ends and flushes the message and returns false with
that exception; when the name is a key of the map, it calls the processor registered under
it, of a function with that key, with the received sequence id, returns what that returns
and writes no reply itself. -/
theorem process_unknown_method (key_of : List Char → List Char) (functions : List (List Char))
    (processor_Process : List Char → Int → Bool × Option TException)
    (name : List Char) (seqId : Int) :
    (name ∉ functions.map key_of →
      generated_Process (processor_map key_of functions) processor_Process (.ok (name, seqId)) =
        ([.ReadMessageBegin, .Skip TType.STRUCT, .ReadMessageEnd,
          .WriteMessageBegin name .EXCEPTION seqId,
          .Write (.UNKNOWN_METHOD ("Unknown function ".toList ++ name)),
          .WriteMessageEnd, .Flush],
         false, some (.UNKNOWN_METHOD ("Unknown function ".toList ++ name)))) ∧
    (name ∈ functions.map key_of →
      ∃ f ∈ functions, key_of f = name ∧
        generated_Process (processor_map key_of functions) processor_Process
            (.ok (name, seqId)) =
          ([.ReadMessageBegin, .Process f seqId], processor_Process f seqId)) := by
  obtain ⟨h1, h2⟩ := processor_fold_find key_of name functions []
  constructor
  · intro hn
    have hnone : map_find (processor_map key_of functions) name = none :=
      h1.2 ⟨rfl, hn⟩
    unfold generated_Process
    simp only [hnone]
  · intro hin
    cases hf : map_find (processor_map key_of functions) name with
    | none =>
      exact absurd hin (h1.1 hf).2
    | some f =>
      rcases h2 f hf with h | ⟨hmem, hkey⟩
      · cases h
      · refine ⟨f, hmem, hkey, ?_⟩
        unfold generated_Process
        simp only [hf]

/-- Witness of C29: a service with the functions "ping" and "add" receives "sub" and
"add". -/
theorem process_unknown_method_witness :
    generated_Process (processor_map id ["ping".toList, "add".toList])
        (fun _ _ => (true, none)) (.ok ("sub".toList, 7)) =
      ([.ReadMessageBegin, .Skip TType.STRUCT, .ReadMessageEnd,
        .WriteMessageBegin "sub".toList .EXCEPTION 7,
        .Write (.UNKNOWN_METHOD "Unknown function sub".toList),
        .WriteMessageEnd, .Flush],
       false, some (.UNKNOWN_METHOD "Unknown function sub".toList)) ∧
    ∃ f ∈ ["ping".toList, "add".toList], id f = "add".toList ∧
      generated_Process (processor_map id ["ping".toList, "add".toList])
          (fun _ _ => (true, none)) (.ok ("add".toList, 7)) =
        ([.ReadMessageBegin, .Process f 7], (fun _ _ => (true, none)) f 7) :=
  ⟨(process_unknown_method id ["ping".toList, "add".toList] (fun _ _ => (true, none))
      "sub".toList 7).1 (by decide),
   (process_unknown_method id ["ping".toList, "add".toList] (fun _ _ => (true, none))
      "add".toList 7).2 (by decide)⟩

/-! ### The alias table of the imports -/

theorem set_insert_ne_nil (s : List (List Char)) (value : List Char) :
    set_insert s value ≠ [] := by
  unfold set_insert
  split
  · rename_i h
    intro hs
    rw [hs] at h
    simp at h
  · simp

theorem flatten_commas_isEmpty (s : List (List Char)) (hs : s ≠ []) :
    ((s.map (fun e => e ++ [','])).flatten).isEmpty = false := by
  cases s with
  | nil => exact absurd rfl hs
  | cons a rest => cases a <;> simp [List.isEmpty]

theorem render_program_import_known (gen_package_prefix_ go_module id : List Char)
    (st : import_state) (unused_protection : List Char)
    (hfind : map_find st.package_identifiers_ go_module = some id)
    (hset : st.package_identifiers_set_ ≠ []) :
    render_program_import gen_package_prefix_ go_module st unused_protection =
      .ok (import_line gen_package_prefix_ (go_path_loop go_module 0 ([], 0)).1
            (substr go_module (go_path_loop go_module 0 ([], 0)).2 none) id,
           st,
           unused_protection ++ "var _ = ".toList ++ id ++ ".GoUnusedProtection__\n".toList) := by
  unfold render_program_import
  simp only [hfind, flatten_commas_isEmpty _ hset, Bool.false_eq_true, if_false]

theorem map_find_append (m : string_map) (key value : List Char)
    (h : map_find m key = none) : map_find (m ++ [(key, value)]) key = some value := by
  induction m with
  | nil => simp [map_find]
  | cons e rest ih =>
    obtain ⟨a, b⟩ := e
    unfold map_find at h
    by_cases ha : a = key
    · simp [ha] at h
    · simp only [beq_iff_eq, ha, if_false] at h
      simp [map_find, ha, ih h]

theorem render_program_import_new (gen_package_prefix_ go_module : List Char)
    (st : import_state) (unused_protection : List Char)
    (hfind : map_find st.package_identifiers_ go_module = none) :
    ∃ r id,
      render_program_import gen_package_prefix_ go_module st unused_protection = .ok r ∧
      map_find r.2.1.package_identifiers_ go_module = some id ∧
      r.2.1.package_identifiers_set_ ≠ [] ∧
      r.1 = import_line gen_package_prefix_ (go_path_loop go_module 0 ([], 0)).1
        (substr go_module (go_path_loop go_module 0 ([], 0)).2 none) id := by
  by_cases hc : st.package_identifiers_set_.contains
      (substr go_module (go_path_loop go_module 0 ([], 0)).2 none) = true
  · have h : render_program_import gen_package_prefix_ go_module st unused_protection =
        .ok (import_line gen_package_prefix_ (go_path_loop go_module 0 ([], 0)).1
              (substr go_module (go_path_loop go_module 0 ([], 0)).2 none)
              (tmp st (substr go_module (go_path_loop go_module 0 ([], 0)).2 none)).1,
            { package_identifiers_ := st.package_identifiers_ ++
                [(go_module, (tmp st (substr go_module
                  (go_path_loop go_module 0 ([], 0)).2 none)).1)]
              package_identifiers_set_ := set_insert st.package_identifiers_set_
                (tmp st (substr go_module (go_path_loop go_module 0 ([], 0)).2 none)).1
              tmp_ := st.tmp_ + 1 },
            unused_protection ++ "var _ = ".toList ++
              (tmp st (substr go_module (go_path_loop go_module 0 ([], 0)).2 none)).1 ++
              ".GoUnusedProtection__\n".toList) := by
      unfold render_program_import
      simp only [hfind, hc, if_true, tmp,
        flatten_commas_isEmpty _ (set_insert_ne_nil _ _), Bool.false_eq_true, if_false]
    exact ⟨_, _, h, map_find_append _ _ _ hfind, set_insert_ne_nil _ _, rfl⟩
  · have h : render_program_import gen_package_prefix_ go_module st unused_protection =
        .ok (import_line gen_package_prefix_ (go_path_loop go_module 0 ([], 0)).1
              (substr go_module (go_path_loop go_module 0 ([], 0)).2 none)
              (substr go_module (go_path_loop go_module 0 ([], 0)).2 none),
            { package_identifiers_ := st.package_identifiers_ ++
                [(go_module, substr go_module (go_path_loop go_module 0 ([], 0)).2 none)]
              package_identifiers_set_ := set_insert st.package_identifiers_set_
                (substr go_module (go_path_loop go_module 0 ([], 0)).2 none)
              tmp_ := st.tmp_ },
            unused_protection ++ "var _ = ".toList ++
              substr go_module (go_path_loop go_module 0 ([], 0)).2 none ++
              ".GoUnusedProtection__\n".toList) := by
      unfold render_program_import
      simp only [hfind, hc, Bool.false_eq_true, if_false,
        flatten_commas_isEmpty _ (set_insert_ne_nil _ _)]
    exact ⟨_, _, h, map_find_append _ _ _ hfind, set_insert_ne_nil _ _, rfl⟩

theorem render_program_import_set (gen_package_prefix_ go_module id : List Char)
    (st : import_state) (unused_protection : List Char)
    (r : List Char × import_state × List Char)
    (hfind : map_find st.package_identifiers_ go_module = some id)
    (h : render_program_import gen_package_prefix_ go_module st unused_protection = .ok r) :
    st.package_identifiers_set_ ≠ [] := by
  intro hs
  unfold render_program_import at h
  simp only [hfind, hs, List.map_nil, List.flatten_nil, List.isEmpty_nil, if_true] at h
  cases h

theorem included_loop_modules (gen_package_prefix_ local_namespace : List Char) :
    ∀ (includes included : List (List Char)) (st : import_state) (unused_prot : List Char)
      (r : List (List Char × List Char) × import_state × List Char),
      included_loop gen_package_prefix_ local_namespace includes included st unused_prot =
        .ok r →
      (∀ m ∈ r.1.map Prod.fst, m ∈ includes ∧ m ∉ included) ∧ (r.1.map Prod.fst).Nodup := by
  intro includes
  induction includes with
  | nil =>
    intro included st up r h
    cases h
    simp
  | cons a rest ih =>
    intro included st up r h
    unfold included_loop at h
    split at h
    · obtain ⟨h1, h2⟩ := ih included st up r h
      exact ⟨fun m hm => ⟨List.mem_cons_of_mem _ (h1 m hm).1, (h1 m hm).2⟩, h2⟩
    · split at h
      · obtain ⟨h1, h2⟩ := ih included st up r h
        exact ⟨fun m hm => ⟨List.mem_cons_of_mem _ (h1 m hm).1, (h1 m hm).2⟩, h2⟩
      · rename_i hl hc
        cases hr : render_program_import gen_package_prefix_ a st up with
        | error e => rw [hr] at h; cases h
        | ok x =>
          rw [hr] at h
          simp only [Except.bind] at h
          cases hq : included_loop gen_package_prefix_ local_namespace rest (included ++ [a])
              x.2.1 x.2.2 with
          | error e => rw [hq] at h; cases h
          | ok q =>
            rw [hq] at h
            simp only [Except.ok.injEq] at h
            subst h
            obtain ⟨h1, h2⟩ := ih (included ++ [a]) x.2.1 x.2.2 q hq
            have hca : a ∉ included := by simpa using hc
            constructor
            · intro m hm
              simp only [List.map_cons, List.mem_cons] at hm
              rcases hm with rfl | hm
              · exact ⟨List.mem_cons_self _ _, hca⟩
              · have := h1 m hm
                exact ⟨List.mem_cons_of_mem _ this.1,
                  fun hin => this.2 (List.mem_append_left _ hin)⟩
            · simp only [List.map_cons, List.nodup_cons]
              refine ⟨?_, h2⟩
              intro hin
              exact (h1 a hin).2 (List.mem_append_right _ (List.mem_singleton_self a))

/-- C27: `render_program_import` for a module that has an entry in the alias table returns
the import line made with the identifier of the entry and leaves the alias table, the set of
claimed identifiers and the counter unchanged; called a second time for a module, it returns
the same import line as the first call and leaves the state as the first call left it; and
`render_included_programs` calls it for pairwise distinct modules, so it emits at most
one import line per module. -/
theorem import_known_module (gen_package_prefix_ local_namespace go_module : List Char)
    (st : import_state) (unused_protection : List Char) :
    (∀ id, map_find st.package_identifiers_ go_module = some id →
      st.package_identifiers_set_ ≠ [] →
      render_program_import gen_package_prefix_ go_module st unused_protection =
        .ok (import_line gen_package_prefix_ (go_path_loop go_module 0 ([], 0)).1
              (substr go_module (go_path_loop go_module 0 ([], 0)).2 none) id,
             st,
             unused_protection ++ "var _ = ".toList ++ id ++
               ".GoUnusedProtection__\n".toList)) ∧
    (∀ r, render_program_import gen_package_prefix_ go_module st unused_protection = .ok r →
      ∃ up, render_program_import gen_package_prefix_ go_module r.2.1 r.2.2 =
        .ok (r.1, r.2.1, up)) ∧
    (∀ includes r,
      included_loop gen_package_prefix_ local_namespace includes [] st unused_protection =
        .ok r →
      (r.1.map Prod.fst).Nodup ∧ ∀ m ∈ r.1.map Prod.fst, m ∈ includes) := by
  refine ⟨fun id hfind hset =>
    render_program_import_known gen_package_prefix_ go_module id st unused_protection hfind hset,
    ?_, ?_⟩
  · intro r hr
    cases hfind : map_find st.package_identifiers_ go_module with
    | some id =>
      have hset := render_program_import_set _ _ _ _ _ _ hfind hr
      rw [render_program_import_known _ _ id st _ hfind hset] at hr
      cases hr
      exact ⟨_, render_program_import_known _ _ id st _ hfind hset⟩
    | none =>
      obtain ⟨r1, id, h1, h2, h3, h4⟩ :=
        render_program_import_new gen_package_prefix_ go_module st unused_protection hfind
      rw [h1] at hr
      cases hr
      refine ⟨r.2.2 ++ "var _ = ".toList ++ id ++ ".GoUnusedProtection__\n".toList, ?_⟩
      rw [render_program_import_known _ _ id r.2.1 _ h2 h3, h4]
  · intro includes r hr
    obtain ⟨h1, h2⟩ := included_loop_modules _ _ includes [] st unused_protection r hr
    exact ⟨h2, fun m hm => (h1 m hm).1⟩

/-- Witness of C27: the module "shared.common" with the alias "common" in the table. -/
theorem import_known_module_witness :
    render_program_import [] "shared.common".toList
        ⟨[("shared.common".toList, "common".toList)], ["common".toList], 0⟩ [] =
      .ok ("\t\"shared/common\"\n".toList,
           ⟨[("shared.common".toList, "common".toList)], ["common".toList], 0⟩,
           "var _ = common.GoUnusedProtection__\n".toList) :=
  (import_known_module [] [] "shared.common".toList
    ⟨[("shared.common".toList, "common".toList)], ["common".toList], 0⟩ []).1
    "common".toList (by decide) (by decide)

/-- C26 fails on the code: after the system packages are registered, the modules
"a.common0", "b.common" and "c.common", imported in this order, get the identifiers
"common0", "common" and again "common0": the alias that `tmp` makes for the third module is
not compared with the identifiers already claimed. -/
theorem alias_collision :
    (import_all [] ["a.common0".toList, "b.common".toList, "c.common".toList]
        system_imports).map
      (fun st => (map_find st.package_identifiers_ "a.common0".toList,
        map_find st.package_identifiers_ "b.common".toList,
        map_find st.package_identifiers_ "c.common".toList)) =
      .ok (some "common0".toList, some "common".toList, some "common0".toList) := by
  decide

/-- C28 fails on the code: after `go_imports_begin`, the user module "errors" finds the
entry of the system package "errors" in the alias table and gets the identifier "errors",
one of the registered system identifiers; its import line has no alias. -/
theorem system_identifier_reused :
    system_imports.package_identifiers_set_ =
      ["bytes", "context", "errors", "fmt", "time", "thrift"].map String.toList ∧
    (render_program_import "example.com/".toList "errors".toList system_imports []).map
      (fun r => (r.1, map_find r.2.1.package_identifiers_ "errors".toList)) =
      .ok ("\t\"example.com/errors\"\n".toList, some "errors".toList) := by
  decide

/-! ### The emitted equality of a list or set -/

theorem equals_elems_true_iff (structs : List t_struct) (elem : t_type) :
    ∀ (xs ys : List go_value), xs.length = ys.length →
      (equals_elems structs elem xs ys = .ok true ↔
        ∀ (i : Nat) (x y : go_value), xs[i]? = some x → ys[i]? = some y →
          equals_value structs elem x y = .ok true) := by
  intro xs
  induction xs with
  | nil =>
    intro ys _
    rw [equals_elems]
    simp
  | cons a r1 ih =>
    intro ys hlen
    cases ys with
    | nil => simp at hlen
    | cons b r2 =>
      have hl : r1.length = r2.length := by simpa using hlen
      rw [equals_elems]
      constructor
      · intro h i x y hx hy
        cases hab : equals_value structs elem a b with
        | error e => rw [hab] at h; cases h
        | ok t =>
          rw [hab] at h
          cases t with
          | false => simp [Except.bind] at h
          | true =>
            simp only [Except.bind, if_true] at h
            cases i with
            | zero =>
              rw [List.getElem?_cons_zero] at hx hy
              cases hx
              cases hy
              exact hab
            | succ i =>
              rw [List.getElem?_cons_succ] at hx hy
              exact (ih r2 hl).1 h i x y hx hy
      · intro h
        have hab := h 0 a b List.getElem?_cons_zero List.getElem?_cons_zero
        rw [hab]
        simp only [Except.bind, if_true]
        apply (ih r2 hl).2
        intro i x y hx hy
        exact h (i + 1) x y (by rw [List.getElem?_cons_succ]; exact hx)
          (by rw [List.getElem?_cons_succ]; exact hy)

theorem equals_elems_reordered (structs : List t_struct) (elem : t_type) :
    ∀ (xs ys : List go_value), ys.Perm xs → ys ≠ xs → ¬ equal_pair structs elem xs →
      (∀ x ∈ xs, ∀ y ∈ xs, ∃ b, equals_value structs elem x y = .ok b) →
      equals_elems structs elem xs ys = .ok false := by
  intro xs
  induction xs with
  | nil =>
    intro ys hperm hne _ _
    exact absurd (List.Perm.eq_nil hperm) hne
  | cons a r1 ih =>
    intro ys hperm hne hpair hret
    cases ys with
    | nil => exact absurd (List.Perm.eq_nil hperm.symm) (by simp)
    | cons b r2 =>
      have hb : b ∈ a :: r1 := hperm.subset (List.mem_cons_self _ _)
      obtain ⟨t, ht⟩ := hret a (List.mem_cons_self _ _) b hb
      rw [equal_pair_cons] at hpair
      rw [equals_elems, ht]
      by_cases hab : b = a
      · subst hab
        have hp2 : r2.Perm r1 := List.Perm.cons_inv hperm
        have hne2 : r2 ≠ r1 := fun h => hne (by rw [h])
        have hrest := ih r2 hp2 hne2 (fun h => hpair (Or.inr h))
          (fun x hx y hy => hret x (List.mem_cons_of_mem _ hx) y (List.mem_cons_of_mem _ hy))
        rw [hrest]
        cases t <;> rfl
      · have hb2 : b ∈ r1 := by
          rcases List.mem_cons.1 hb with h | h
          · exact absurd h hab
          · exact h
        cases t with
        | false => rfl
        | true => exact absurd (Or.inl ⟨b, hb2, ht⟩) hpair

theorem equals_value_slices (structs : List t_struct) (ori elem : t_type)
    (hT : ori.get_true_type = .list elem ∨ ori.get_true_type = .set elem)
    (tgt src : List go_value) :
    equals_value structs ori (.slice tgt) (.slice src) =
      if tgt.length != src.length then .ok false else equals_elems structs elem tgt src := by
  rw [equals_value]
  rcases hT with h | h <;>
    simp [equals_slice, h, t_type.is_list, t_type.is_set, t_type.get_elem_type, go_elems]

/-- C21: the comparison that the emitted `Equals` makes of a list or set field (the slices
themselves, or what the two pointers of a pointer field point to) holds iff the two slices
have the same length and the elements at each position are equal by the emitted comparison
of the element type; so when `src` holds the elements of `tgt`, no two of which are equal,
in another order, the comparison fails. A nil slice compares like an empty one. -/
theorem list_set_equals (structs : List t_struct) (m : t_field) (elem : t_type) (p : Bool)
    (hp : is_pointer_field m = .ok p)
    (hT : m.type_.get_true_type = .list elem ∨ m.type_.get_true_type = .set elem)
    (tgt src : List go_value) :
    (equals_field structs m (if p then go_value.pointer_to (.slice tgt) else .slice tgt)
        (if p then go_value.pointer_to (.slice src) else .slice src) = .ok true ↔
      tgt.length = src.length ∧
        ∀ (i : Nat) (x y : go_value), tgt[i]? = some x → src[i]? = some y →
          equals_value structs elem x y = .ok true) ∧
    (src.Perm tgt → src ≠ tgt → ¬ equal_pair structs elem tgt →
      (∀ x ∈ tgt, ∀ y ∈ tgt, ∃ b, equals_value structs elem x y = .ok b) →
      equals_field structs m (if p then go_value.pointer_to (.slice tgt) else .slice tgt)
        (if p then go_value.pointer_to (.slice src) else .slice src) = .ok false) ∧
    (p = false →
      equals_field structs m .nil (.slice src) = .ok (src.length == 0) ∧
      equals_field structs m (.slice tgt) .nil = .ok (tgt.length == 0) ∧
      equals_field structs m .nil .nil = .ok true) := by
  have hc : (m.type_.get_true_type.is_base_type || m.type_.get_true_type.is_enum
      || m.type_.get_true_type.is_container) = true := by
    rcases hT with h | h <;>
      simp [h, t_type.is_base_type, t_type.is_enum, t_type.is_container, t_type.is_list,
        t_type.is_set, t_type.is_map]
  have hfield : equals_field structs m
      (if p then go_value.pointer_to (.slice tgt) else .slice tgt)
      (if p then go_value.pointer_to (.slice src) else .slice src) =
      if tgt.length != src.length then .ok false else equals_elems structs elem tgt src := by
    cases p with
    | true =>
      simp only [if_true]
      rw [equals_field_pointer structs m _ _ hp hc, equals_value_slices structs _ elem hT]
    | false =>
      simp only [Bool.false_eq_true, if_false]
      rw [equals_field_direct structs m _ _ hp, equals_value_slices structs _ elem hT]
  refine ⟨?_, ?_, ?_⟩
  · rw [hfield]
    by_cases hl : tgt.length = src.length
    · simp only [hl, bne_self_eq_false, Bool.false_eq_true, if_false, true_and]
      exact equals_elems_true_iff structs elem tgt src hl
    · have hb : (tgt.length != src.length) = true := by simpa using hl
      simp only [hb, if_true]
      constructor
      · intro h; cases h
      · intro h; exact absurd h.1 hl
  · intro hperm hne hpair hret
    rw [hfield]
    have hl : tgt.length = src.length := hperm.length_eq.symm
    simp only [hl, bne_self_eq_false, Bool.false_eq_true, if_false]
    exact equals_elems_reordered structs elem tgt src hperm hne hpair hret
  · intro hpf
    subst hpf
    rw [equals_field_direct structs m _ _ hp, equals_field_direct structs m _ _ hp,
      equals_field_direct structs m _ _ hp]
    refine ⟨?_, ?_, ?_⟩ <;> rw [equals_value] <;> rcases hT with h | h <;>
      simp [equals_nil, equals_slice, h, t_type.is_list, t_type.is_set, t_type.is_struct,
        t_type.is_xception, t_type.is_container, t_type.is_map, go_len, go_elems, go_entries]

/-- Witness of C21: the sets `[1, 2]` and `[2, 1]` of a field of the type `set<i32>`. -/
theorem list_set_equals_witness :
    equals_field round_trip_program set_field (.slice [.int 1, .int 2])
      (.slice [.int 2, .int 1]) = .ok false ∧
    (equals_field round_trip_program set_field (.slice [.int 1, .int 2])
        (.slice [.int 1, .int 2]) = .ok true ↔
      [go_value.int 1, .int 2].length = [go_value.int 1, .int 2].length ∧
        ∀ (i : Nat) (x y : go_value), [go_value.int 1, .int 2][i]? = some x →
          [go_value.int 1, .int 2][i]? = some y →
          equals_value round_trip_program (.base_type .TYPE_I32 false) x y = .ok true) :=
  ⟨(list_set_equals round_trip_program set_field (.base_type .TYPE_I32 false) false rfl
      (Or.inr rfl) [.int 1, .int 2] [.int 2, .int 1]).2.1
      (List.Perm.swap _ _ _) (by simp)
      (by
        rintro ⟨i, j, x, y, hij, hi, hj, heq⟩
        have hj2 : j < 2 := by
          by_contra hcon
          rw [List.getElem?_eq_none (by simpa using hcon)] at hj
          cases hj
        have hi0 : i = 0 := by omega
        have hj1 : j = 1 := by omega
        subst hi0 hj1
        cases hi
        cases hj
        cases heq)
      (by
        intro x hx y hy
        simp only [List.mem_cons, List.mem_singleton, List.not_mem_nil, or_false] at hx hy
        rcases hx with rfl | rfl <;> rcases hy with rfl | rfl <;> exact ⟨_, rfl⟩),
   (list_set_equals round_trip_program set_field (.base_type .TYPE_I32 false) false rfl
      (Or.inr rfl) [.int 1, .int 2] [.int 1, .int 2]).1⟩

/-! ### Struct tags: the computed tags and `parse_go_tags` -/

theorem definition_loop_untouched (u : Bool) (q : Nat) :
    ∀ (ps : List Nat) (members : List t_field) (lines : List struct_line), q ∉ ps →
      (definition_loop u ps members lines).1[q]? = members[q]? := by
  intro ps
  induction ps with
  | nil => intro members lines _; rfl
  | cons pos rest ih =>
    intro members lines hq
    rw [List.mem_cons, not_or] at hq
    unfold definition_loop
    split
    · exact ih members lines hq.2
    · rw [ih _ _ hq.2]
      exact List.getElem?_set_ne (fun h => hq.1 h.symm)

theorem definition_loop_lines (u : Bool) :
    ∀ (ps : List Nat) (members : List t_field) (lines : List struct_line), ps.Nodup →
      (definition_loop u ps members lines).2.map (fun l => l.field) =
        lines.map (fun l => l.field) ++
          ps.filterMap (fun pos => (definition_loop u ps members lines).1[pos]?) := by
  intro ps
  induction ps with
  | nil => intro members lines _; simp [definition_loop]
  | cons pos rest ih =>
    intro members lines hnd
    rw [List.nodup_cons] at hnd
    have hfm : ∀ (f g : Nat → Option t_field), (∀ q ∈ rest, f q = g q) →
        rest.filterMap f = rest.filterMap g := by
      intro f g hfg
      exact List.filterMap_congr hfg
    unfold definition_loop
    split
    · rename_i hnone
      have hlen := definition_loop_length u rest members lines
      have hp : (definition_loop u rest members lines).1[pos]? = none := by
        rw [definition_loop_untouched u pos rest members lines hnd.1]
        exact hnone
      rw [ih members lines hnd.2, List.filterMap_cons, hp]
    · rename_i m0 hm0
      have hlt : pos < members.length := by
        rcases Nat.lt_or_ge pos members.length with h | h
        · exact h
        · rw [List.getElem?_eq_none h] at hm0
          cases hm0
      have hp : (definition_loop u rest (members.set pos
            (if u = true then m0.set_req e_req.T_OPTIONAL else m0))
            (lines ++ [struct_line_of (if u = true then m0.set_req e_req.T_OPTIONAL
              else m0)])).1[pos]? =
          some (if u = true then m0.set_req e_req.T_OPTIONAL else m0) := by
        rw [definition_loop_untouched u pos rest _ _ hnd.1]
        simp [hlt]
      rw [ih _ _ hnd.2, List.filterMap_cons, hp]
      simp [struct_line_of]

theorem field_tags_computed (escape_string : List Char → List Char) (m : t_field)
    (hno : m.annotations_find "go.tag".toList = none) :
    ∃ tags, field_tags escape_string m = .ok tags ∧
      map_find tags "db".toList = some (escape_string m.name_) ∧
      map_find tags "json".toList =
        some (if m.req_ = e_req.T_OPTIONAL ∧ m.value_.isSome = false
          then escape_string m.name_ ++ ",omitempty".toList else escape_string m.name_) ∧
      ∀ key, key ≠ "db".toList → key ≠ "json".toList → map_find tags key = none := by
  have hne : ("db".toList == "json".toList) = false := by decide
  unfold field_tags
  simp only [hno]
  by_cases hc : m.req_ = e_req.T_OPTIONAL ∧ m.value_.isSome = false
  · have hb : ((m.req_ == e_req.T_OPTIONAL) && !m.value_.isSome) = true := by
      simp [hc.1, hc.2]
    simp only [hb, if_true, if_pos hc]
    refine ⟨_, rfl, ?_, ?_, ?_⟩
    · simp [map_assign, map_find, hne]
    · simp [map_assign, map_find, hne]
    · intro key h1 h2
      have h1b : ("db".toList == key) = false := beq_eq_false_iff_ne.2 (Ne.symm h1)
      have h2b : ("json".toList == key) = false := beq_eq_false_iff_ne.2 (Ne.symm h2)
      simp only [map_assign, hne, Bool.false_eq_true, if_false, map_find, h1b, h2b]
  · have hb : ((m.req_ == e_req.T_OPTIONAL) && !m.value_.isSome) = false := by
      rw [Bool.and_eq_false_iff]
      by_cases hr : m.req_ = e_req.T_OPTIONAL
      · right
        cases hv : m.value_.isSome with
        | true => rfl
        | false => exact absurd ⟨hr, hv⟩ hc
      · left
        simpa using hr
    simp only [hb, Bool.false_eq_true, if_false, if_neg hc]
    refine ⟨_, rfl, ?_, ?_, ?_⟩
    · simp [map_assign, map_find, hne]
    · simp [map_assign, map_find, hne]
    · intro key h1 h2
      have h1b : ("db".toList == key) = false := beq_eq_false_iff_ne.2 (Ne.symm h1)
      have h2b : ("json".toList == key) = false := beq_eq_false_iff_ne.2 (Ne.symm h2)
      simp only [map_assign, hne, Bool.false_eq_true, if_false, map_find, h1b, h2b]

/-- C22 fails on the code: the struct `Label { string name }`, whose member is declared
without a wire id, takes the branch of line 1518: its field `name`, which has no `go.tag`
annotation, is emitted by lines 1519 to 1523 with its Go type only, and gets no struct tag at
all, neither a db tag nor a json tag. -/
theorem untagged_struct_no_tags :
    Label.tagged_branch = false ∧
    (definition_members Label).map (fun m => (m.name_, m.annotations_find "go.tag".toList)) =
      [("name".toList, none)] ∧
    struct_tags id Label = [] ∧
    (definition_fields Label).2.length = 0 := by
  decide

/-- C22 as amended: for every struct whose smallest wire id is not negative, or that has no
members (the branch of lines 1457 to 1517, the only one that emits struct tags): the struct
lines are those of the members in wire-id order, every member has its line, and without a
`go.tag` annotation the tags of a member are the db tag, which is the escaped name, and the
json tag, which is the escaped name followed by ",omitempty" when the member is OPTIONAL and
has no default value and the escaped name alone otherwise. A struct whose smallest wire id
is negative gets no struct tags. -/
theorem computed_tags (escape_string : List Char → List Char) (s : t_struct)
    (htag : s.tagged_branch = true) :
    struct_tags escape_string s =
      (s.get_sorted_members (definition_members s)).map (field_tags escape_string) ∧
    (∀ m ∈ definition_members s, m ∈ s.get_sorted_members (definition_members s)) ∧
    (∀ m ∈ s.get_sorted_members (definition_members s),
      m.annotations_find "go.tag".toList = none →
      ∃ tags, field_tags escape_string m = .ok tags ∧
        map_find tags "db".toList = some (escape_string m.name_) ∧
        map_find tags "json".toList =
          some (if m.req_ = e_req.T_OPTIONAL ∧ m.value_.isSome = false
            then escape_string m.name_ ++ ",omitempty".toList else escape_string m.name_) ∧
        ∀ key, key ≠ "db".toList → key ≠ "json".toList → map_find tags key = none) ∧
    ∀ t : t_struct, t.tagged_branch = false → struct_tags escape_string t = [] := by
  have hlines : (definition_fields s).2.map (fun l => l.field) =
      s.get_sorted_members (definition_members s) := by
    have h := definition_loop_lines s.is_union_ s.sorted_positions s.members_ []
      (sorted_positions_nodup s)
    unfold t_struct.tagged_branch at htag
    unfold t_struct.get_sorted_members definition_members definition_fields
    simp only [htag, if_true]
    simpa using h
  refine ⟨?_, ?_, fun m _ hno => field_tags_computed escape_string m hno, ?_⟩
  · unfold struct_tags
    rw [← hlines, List.map_map]
    rfl
  · intro m hm
    obtain ⟨i, hi, hget⟩ := List.getElem_of_mem hm
    unfold t_struct.get_sorted_members
    rw [List.mem_filterMap]
    refine ⟨i, mem_sorted_positions s i ?_, ?_⟩
    · rw [definition_members_length] at hi
      exact hi
    · rw [List.getElem?_eq_getElem hi, hget]
  · intro t ht
    unfold struct_tags
    rw [untagged_definition_fields t ht]
    rfl

/-- Witness of C22: the struct `Point`, whose smallest wire id is 1; its member `label` is
OPTIONAL without a default and gets the json tag "label,omitempty". -/
theorem computed_tags_witness :
    Point.tagged_branch = true ∧
    struct_tags id Point =
      (Point.get_sorted_members (definition_members Point)).map (field_tags id) ∧
    (struct_tags id Point).map (fun t => t.map (fun tags => map_find tags "json".toList)) =
      [.ok (some "x".toList), .ok (some "label,omitempty".toList)] :=
  ⟨by decide, (computed_tags id Point (by decide)).1, by decide⟩

theorem parse_loop_cons (mode : Nat) (key value : List Char) (first skip : Bool)
    (tags : string_map) (c : Char) (rest : List Char) :
    parse_go_tags_loop mode key value first skip tags (c :: rest) =
      if skip then parse_go_tags_loop mode key value false false tags rest
      else
        if ((if first && mode == 0 && c == ' ' then 2 else mode) == 2 && c == ' ') then
          parse_go_tags_loop (if first && mode == 0 && c == ' ' then 2 else mode) key value
            false false tags rest
        else
          if ((if (if first && mode == 0 && c == ' ' then 2 else mode) == 2 then 0
              else (if first && mode == 0 && c == ' ' then 2 else mode)) == 0) then
            if c == ':' then parse_go_tags_loop 1 key value false true tags rest
            else parse_go_tags_loop
              (if (if first && mode == 0 && c == ' ' then 2 else mode) == 2 then 0
                else (if first && mode == 0 && c == ' ' then 2 else mode))
              (key ++ [c]) value false false tags rest
          else if ((if (if first && mode == 0 && c == ' ' then 2 else mode) == 2 then 0
              else (if first && mode == 0 && c == ' ' then 2 else mode)) == 1) then
            if c == '"' then
              parse_go_tags_loop 2 [] [] false false (map_assign tags key value) rest
            else parse_go_tags_loop
              (if (if first && mode == 0 && c == ' ' then 2 else mode) == 2 then 0
                else (if first && mode == 0 && c == ' ' then 2 else mode))
              key (value ++ [c]) false false tags rest
          else parse_go_tags_loop
            (if (if first && mode == 0 && c == ' ' then 2 else mode) == 2 then 0
              else (if first && mode == 0 && c == ' ' then 2 else mode))
            key value false false tags rest := rfl

theorem parse_start (tags : string_map) (text : List Char) :
    parse_go_tags_loop 0 [] [] true false tags text =
      parse_go_tags_loop 2 [] [] false false tags text := by
  cases text with
  | nil => rfl
  | cons c rest =>
    rw [parse_loop_cons, parse_loop_cons]
    by_cases hc : c = ' '
    · subst hc
      simp
    · have hb : (c == ' ') = false := beq_eq_false_iff_ne.2 hc
      simp [hb]

theorem parse_spaces (tags : string_map) (n : Nat) (text : List Char) :
    parse_go_tags_loop 2 [] [] false false tags (List.replicate n ' ' ++ text) =
      parse_go_tags_loop 2 [] [] false false tags text := by
  induction n with
  | zero => rfl
  | succ n ih =>
    rw [List.replicate_succ, List.cons_append, parse_loop_cons]
    simpa using ih

theorem parse_key_chars (tags : string_map) (q : Char) (rest : List Char) :
    ∀ (k acc : List Char), ':' ∉ k →
      parse_go_tags_loop 0 acc [] false false tags (k ++ ':' :: q :: rest) =
        parse_go_tags_loop 1 (acc ++ k) [] false false tags rest := by
  intro k
  induction k with
  | nil =>
    intro acc _
    rw [List.nil_append, parse_loop_cons]
    simp only [Bool.false_and, Bool.false_eq_true, if_false, beq_self_eq_true, if_true,
      Nat.reduceBEq, Bool.and_false, Bool.and_true, Bool.true_and,
      show (':' == ' ') = false by decide]
    rw [parse_loop_cons]
    simp
  | cons c k ih =>
    intro acc hk
    have hc : c ≠ ':' := fun h => hk (by rw [h]; exact List.mem_cons_self _ _)
    have hk2 : ':' ∉ k := fun h => hk (List.mem_cons_of_mem _ h)
    have hb : (c == ':') = false := beq_eq_false_iff_ne.2 hc
    rw [List.cons_append, parse_loop_cons]
    simp only [Bool.false_and, Bool.false_eq_true, if_false, beq_self_eq_true, if_true, hb,
      Nat.reduceBEq]
    rw [ih (acc ++ [c]) hk2]
    simp

theorem parse_key (tags : string_map) (q : Char) (rest k : List Char)
    (hcolon : ':' ∉ k) (hspace : ' ' ∉ k) :
    parse_go_tags_loop 2 [] [] false false tags (k ++ ':' :: q :: rest) =
      parse_go_tags_loop 1 k [] false false tags rest := by
  cases k with
  | nil =>
    rw [List.nil_append, parse_loop_cons]
    simp only [Bool.false_and, Bool.false_eq_true, if_false, beq_self_eq_true, if_true,
      Nat.reduceBEq, Bool.and_false, Bool.and_true, Bool.true_and,
      show (':' == ' ') = false by decide]
    rw [parse_loop_cons]
    simp
  | cons c k =>
    have hc : c ≠ ':' := fun h => hcolon (by rw [h]; exact List.mem_cons_self _ _)
    have hs : c ≠ ' ' := fun h => hspace (by rw [h]; exact List.mem_cons_self _ _)
    have hk2 : ':' ∉ k := fun h => hcolon (List.mem_cons_of_mem _ h)
    have hb : (c == ':') = false := beq_eq_false_iff_ne.2 hc
    have hb2 : (c == ' ') = false := beq_eq_false_iff_ne.2 hs
    rw [List.cons_append, parse_loop_cons]
    simp only [Bool.false_and, Bool.false_eq_true, if_false, beq_self_eq_true, if_true, hb,
      hb2, Bool.and_false, Nat.reduceBEq]
    rw [parse_key_chars tags q rest k _ hk2]
    simp

theorem parse_value (tags : string_map) (key rest : List Char) :
    ∀ (v acc : List Char), '"' ∉ v →
      parse_go_tags_loop 1 key acc false false tags (v ++ '"' :: rest) =
        parse_go_tags_loop 2 [] [] false false (map_assign tags key (acc ++ v)) rest := by
  intro v
  induction v with
  | nil =>
    intro acc _
    rw [List.nil_append, parse_loop_cons]
    simp
  | cons c v ih =>
    intro acc hv
    have hc : c ≠ '"' := fun h => hv (by rw [h]; exact List.mem_cons_self _ _)
    have hv2 : '"' ∉ v := fun h => hv (List.mem_cons_of_mem _ h)
    have hb : (c == '"') = false := beq_eq_false_iff_ne.2 hc
    rw [List.cons_append, parse_loop_cons]
    simp only [Bool.false_and, Bool.false_eq_true, if_false, beq_self_eq_true, if_true, hb,
      Nat.reduceBEq]
    rw [ih (acc ++ [c]) hv2]
    simp

theorem parse_pairs :
    ∀ (pairs : List (Nat × List Char × List Char)) (tags : string_map),
      (∀ p ∈ pairs, ':' ∉ p.2.1 ∧ ' ' ∉ p.2.1 ∧ '"' ∉ p.2.2) →
      parse_go_tags_loop 2 [] [] false false tags (tags_text pairs) =
        .ok (assign_all tags pairs) := by
  intro pairs
  induction pairs with
  | nil => intro tags _; rfl
  | cons p rest ih =>
    intro tags h
    obtain ⟨n, k, v⟩ := p
    obtain ⟨h1, h2, h3⟩ := h (n, k, v) (List.mem_cons_self _ _)
    have e : tags_text ((n, k, v) :: rest) =
        List.replicate n ' ' ++ (k ++ ':' :: '"' :: (v ++ '"' :: tags_text rest)) := by
      simp [tags_text]
    rw [e, parse_spaces, parse_key tags '"' _ k h1 h2, parse_value tags k _ v [] h3,
      ih _ (fun q hq => h q (List.mem_cons_of_mem _ hq))]
    rfl

theorem find_assign_all (key : List Char) :
    ∀ (pairs : List (Nat × List Char × List Char)) (tags : string_map),
      map_find (assign_all tags pairs) key =
        match last_value key pairs with
        | some v => some v
        | none => map_find tags key := by
  intro pairs
  induction pairs with
  | nil => intro tags; rfl
  | cons p rest ih =>
    intro tags
    obtain ⟨n, k, v⟩ := p
    have e : assign_all tags ((n, k, v) :: rest) = assign_all (map_assign tags k v) rest := rfl
    rw [e, ih, last_value]
    cases last_value key rest with
    | some w => rfl
    | none =>
      simp only [map_find_assign]
      split <;> rfl

/-- C23: for pairs whose keys hold no colon and no space and whose values hold no double
quote, `parse_go_tags` on the text of the pairs `key:"value"`, each preceded by any number
of spaces, makes the assignments `tags[key] = value` of the pairs in order: afterwards a key
has the value of the last pair with that key, also when the map held a computed db or json
entry, and every other key has the value it had; and the tags of a member whose `go.tag`
annotation is that text are these assignments made on its computed db and json tags. -/
theorem parse_go_tags_pairs (tags : string_map) (pairs : List (Nat × List Char × List Char))
    (h : ∀ p ∈ pairs, ':' ∉ p.2.1 ∧ ' ' ∉ p.2.1 ∧ '"' ∉ p.2.2) :
    parse_go_tags tags (tags_text pairs) = .ok (assign_all tags pairs) ∧
    (∀ key, map_find (assign_all tags pairs) key =
      match last_value key pairs with
      | some v => some v
      | none => map_find tags key) ∧
    ∀ (escape_string : List Char → List Char) (m : t_field) (computed : string_map),
      m.annotations_find "go.tag".toList = some (tags_text pairs) →
      field_tags escape_string { m with annotations_ := [] } = .ok computed →
      field_tags escape_string m = .ok (assign_all computed pairs) := by
  have hparse : ∀ tags0 : string_map,
      parse_go_tags tags0 (tags_text pairs) = .ok (assign_all tags0 pairs) := by
    intro tags0
    unfold parse_go_tags
    rw [parse_start, parse_pairs pairs tags0 h]
  refine ⟨hparse tags, fun key => find_assign_all key pairs tags, ?_⟩
  intro escape_string m computed hfind hcomp
  unfold field_tags at hcomp ⊢
  rw [hfind]
  simp only [t_field.annotations_find, map_find] at hcomp
  cases hcomp
  exact hparse _

/-- Witness of C23: the text `  json:"uid"  xml:"user"` on a map with a db and a json
entry. -/
theorem parse_go_tags_pairs_witness :
    parse_go_tags [("db".toList, "x".toList), ("json".toList, "x".toList)]
        "  json:\"uid\"  xml:\"user\"".toList =
      .ok [("db".toList, "x".toList), ("json".toList, "uid".toList),
        ("xml".toList, "user".toList)] :=
  (parse_go_tags_pairs [("db".toList, "x".toList), ("json".toList, "x".toList)]
    [(2, "json".toList, "uid".toList), (2, "xml".toList, "user".toList)] (by decide)).1

/-! ### The comments on unused field ids -/

theorem advance_to_key_ok :
    ∀ (n fuel : Nat) (pos key : Int), key - pos = (n : Int) → n < fuel →
      key ≤ (INT_MAX : Int) → advance_to_key fuel pos key = .ok key := by
  intro n
  induction n with
  | zero =>
    intro fuel pos key h hf _
    cases fuel with
    | zero => omega
    | succ fuel =>
      have hpk : pos = key := by omega
      subst hpk
      simp [advance_to_key]
  | succ n ih =>
    intro fuel pos key h hf hk
    cases fuel with
    | zero => omega
    | succ fuel =>
      have hne : pos ≠ key := by omega
      have hlt : ¬ pos ≥ (INT_MAX : Int) := by omega
      have hb : (pos != key) = true := by simpa using hne
      unfold advance_to_key
      simp only [hb, if_true, int_incr, if_neg hlt, Except.bind]
      exact ih fuel (pos + 1) key (by omega) (by omega) hk

theorem unused_before_eq (pos key : Int) (h : pos ≤ key) (hk : key ≤ (INT_MAX : Int)) :
    unused_before pos key = .ok (unused_comment_of (max 1 pos) (key - 1), key) := by
  unfold unused_before
  by_cases hpk : pos = key
  · subst hpk
    have hnone : unused_comment_of (max 1 pos) (pos - 1) = none := by
      unfold unused_comment_of
      have h1 : ¬ max 1 pos < pos - 1 := by omega
      have h2 : ¬ max 1 pos = pos - 1 := by omega
      rw [if_neg h1, if_neg h2]
    simp [hnone]
  · have hb : (pos != key) = true := by simpa using hpk
    have hlt : ¬ pos ≥ (INT_MAX : Int) := by omega
    simp only [hb, if_true, int_incr, if_neg hlt, Except.bind]
    rw [advance_to_key_ok (key - (pos + 1)).toNat _ (pos + 1) key (by omega) (by omega) hk]

theorem unused_scan_eq :
    ∀ (keys : List Int) (pos : Int), keys.Pairwise (· < ·) →
      (∀ k ∈ keys, pos ≤ k ∧ k < (INT_MAX : Int)) →
      unused_scan keys pos = .ok (gap_comments pos keys) := by
  intro keys
  induction keys with
  | nil => intro pos _ _; rfl
  | cons key rest ih =>
    intro pos hs hb
    obtain ⟨h1, h2⟩ := hb key (List.mem_cons_self _ _)
    rw [List.pairwise_cons] at hs
    have hlt : ¬ key ≥ (INT_MAX : Int) := by omega
    unfold unused_scan
    rw [unused_before_eq pos key h1 (by omega)]
    simp only [Except.bind, int_incr, if_neg hlt]
    rw [ih (key + 1) hs.2 (fun k hk => ⟨by have := hs.1 k hk; omega,
      (hb k (List.mem_cons_of_mem _ hk)).2⟩)]
    rfl

theorem gap_comments_length : ∀ (keys : List Int) (pos : Int),
    (gap_comments pos keys).length = keys.length := by
  intro keys
  induction keys with
  | nil => intro pos; rfl
  | cons key rest ih => intro pos; simp [gap_comments, ih]

theorem covers_comment_of (first last i : Int) :
    (∃ c, unused_comment_of first last = some c ∧ c.covers i) ↔ first ≤ i ∧ i ≤ last := by
  unfold unused_comment_of
  by_cases h1 : first < last
  · rw [if_pos h1]
    constructor
    · rintro ⟨c, hc, hcov⟩
      cases hc
      exact hcov
    · intro h
      exact ⟨_, rfl, h⟩
  · rw [if_neg h1]
    by_cases h2 : first = last
    · rw [if_pos h2]
      constructor
      · rintro ⟨c, hc, hcov⟩
        cases hc
        simp only [unused_comment.covers] at hcov
        omega
      · intro h
        exact ⟨_, rfl, by simp only [unused_comment.covers]; omega⟩
    · rw [if_neg h2]
      constructor
      · rintro ⟨c, hc, -⟩
        cases hc
      · intro h
        omega

theorem singular_comment_of (first last : Int) (c : unused_comment)
    (h : unused_comment_of first last = some c) :
    (∃ a, c = .unused_field a) ↔ ∃ a, ∀ i, c.covers i ↔ i = a := by
  unfold unused_comment_of at h
  by_cases h1 : first < last
  · rw [if_pos h1] at h
    cases h
    constructor
    · rintro ⟨a, ha⟩
      cases ha
    · rintro ⟨a, ha⟩
      have e1 := (ha first).1 ⟨le_refl _, le_of_lt h1⟩
      have e2 := (ha last).1 ⟨le_of_lt h1, le_refl _⟩
      omega
  · rw [if_neg h1] at h
    by_cases h2 : first = last
    · rw [if_pos h2] at h
      cases h
      exact ⟨fun _ => ⟨first, fun i => Iff.rfl⟩, fun _ => ⟨first, rfl⟩⟩
    · rw [if_neg h2] at h
      cases h

theorem gap_comments_covers :
    ∀ (keys : List Int) (pos i : Int), keys.Pairwise (· < ·) → 0 ≤ pos →
      (∀ k ∈ keys, pos ≤ k) →
      ((∃ (j : Nat) (c : unused_comment),
          (gap_comments pos keys)[j]? = some (some c) ∧ c.covers i) ↔
        (max 1 pos ≤ i ∧ (∃ largest, keys.getLast? = some largest ∧ i < largest) ∧
          i ∉ keys)) := by
  intro keys
  induction keys with
  | nil =>
    intro pos i _ _ _
    simp [gap_comments]
  | cons key rest ih =>
    intro pos i hs hpos hb
    rw [List.pairwise_cons] at hs
    have hkey := hb key (List.mem_cons_self _ _)
    have ihr := ih (key + 1) i hs.2 (by omega) (fun k hk => by have := hs.1 k hk; omega)
    have hhead := covers_comment_of (max 1 pos) (key - 1) i
    constructor
    · rintro ⟨j, c, hj, hcov⟩
      cases j with
      | zero =>
        simp only [gap_comments, List.getElem?_cons_zero, Option.some.injEq] at hj
        obtain ⟨h1, h2⟩ := hhead.1 ⟨c, hj, hcov⟩
        refine ⟨h1, ?_, ?_⟩
        · cases hl : rest.getLast? with
          | none =>
            have hr : rest = [] := List.getLast?_eq_none_iff.1 hl
            subst hr
            exact ⟨key, rfl, by omega⟩
          | some l =>
            have hm : l ∈ rest := List.mem_of_getLast?_eq_some hl
            have := hs.1 l hm
            refine ⟨l, ?_, by omega⟩
            rw [List.getLast?_cons, hl]
            rfl
        · intro hmem
          rcases List.mem_cons.1 hmem with h | h
          · omega
          · have := hs.1 i h
            omega
      | succ j =>
        simp only [gap_comments, List.getElem?_cons_succ] at hj
        obtain ⟨h1, ⟨l, hl, hil⟩, h3⟩ := ihr.1 ⟨j, c, hj, hcov⟩
        refine ⟨by omega, ⟨l, ?_, hil⟩, ?_⟩
        · rw [List.getLast?_cons, hl]
          rfl
        · intro hmem
          rcases List.mem_cons.1 hmem with h | h
          · omega
          · exact h3 h
    · rintro ⟨h1, ⟨l, hl, hil⟩, h3⟩
      have hik : i ≠ key := fun h => h3 (by rw [h]; exact List.mem_cons_self _ _)
      by_cases hlt : i < key
      · obtain ⟨c, hc, hcov⟩ := hhead.2 ⟨h1, by omega⟩
        exact ⟨0, c, by simp [gap_comments, hc], hcov⟩
      · have hrest : rest ≠ [] := by
          intro hr
          subst hr
          simp at hl
          omega
        have hl2 : rest.getLast? = some l := by
          cases hr : rest.getLast? with
          | none => exact absurd (List.getLast?_eq_none_iff.1 hr) hrest
          | some l2 =>
            rw [List.getLast?_cons, hr] at hl
            simpa using hl
        obtain ⟨j, c, hj, hcov⟩ := ihr.2 ⟨by omega, ⟨l, hl2, hil⟩,
          fun h => h3 (List.mem_cons_of_mem _ h)⟩
        exact ⟨j + 1, c, by simp [gap_comments, hj], hcov⟩

theorem gap_comments_position :
    ∀ (keys : List Int) (pos : Int) (j : Nat) (c : unused_comment) (key i : Int),
      keys.Pairwise (· < ·) → (∀ k ∈ keys, pos ≤ k) →
      (gap_comments pos keys)[j]? = some (some c) → keys[j]? = some key → c.covers i →
      max 1 pos ≤ i ∧ i < key ∧
        ∀ (j2 : Nat) (k2 : Int), j2 < j → keys[j2]? = some k2 → k2 < i := by
  intro keys
  induction keys with
  | nil =>
    intro pos j c key i _ _ hj
    simp [gap_comments] at hj
  | cons k rest ih =>
    intro pos j c key i hs hb hj hkey hcov
    rw [List.pairwise_cons] at hs
    have hk := hb k (List.mem_cons_self _ _)
    cases j with
    | zero =>
      simp only [gap_comments, List.getElem?_cons_zero, Option.some.injEq] at hj hkey
      subst hkey
      obtain ⟨h1, h2⟩ := (covers_comment_of (max 1 pos) (k - 1) i).1 ⟨c, hj, hcov⟩
      exact ⟨h1, by omega, fun j2 k2 hlt _ => absurd hlt (Nat.not_lt_zero _)⟩
    | succ j =>
      simp only [gap_comments, List.getElem?_cons_succ] at hj hkey
      obtain ⟨h1, h2, h3⟩ := ih (k + 1) j c key i hs.2
        (fun k' hk' => by have := hs.1 k' hk'; omega) hj hkey hcov
      refine ⟨by omega, h2, ?_⟩
      intro j2 k2 hlt hk2
      cases j2 with
      | zero =>
        simp only [List.getElem?_cons_zero, Option.some.injEq] at hk2
        omega
      | succ j2 =>
        rw [List.getElem?_cons_succ] at hk2
        exact h3 j2 k2 (by omega) hk2

theorem gap_comments_singular :
    ∀ (keys : List Int) (pos : Int) (j : Nat) (c : unused_comment),
      (gap_comments pos keys)[j]? = some (some c) →
      ((∃ a, c = .unused_field a) ↔ ∃ a, ∀ i, c.covers i ↔ i = a) := by
  intro keys
  induction keys with
  | nil =>
    intro pos j c hj
    simp [gap_comments] at hj
  | cons k rest ih =>
    intro pos j c hj
    cases j with
    | zero =>
      simp only [gap_comments, List.getElem?_cons_zero, Option.some.injEq] at hj
      exact singular_comment_of _ _ c hj
    | succ j =>
      simp only [gap_comments, List.getElem?_cons_succ] at hj
      exact ih (k + 1) j c hj

/-- C24: for a struct whose members sorted by wire id have strictly increasing, non-negative
wire ids (below the largest `int`), the scan returns one entry per member, the comment
emitted right before the line of that member; the ids that the comments name are exactly
the integers `i` with `1 ≤ i` below the largest wire id that are the wire id of no member;
the comment before a member names only ids between the wire id of the member before and its
own; and a comment has the singular form iff it names one id. -/
theorem unused_comments_gaps (s : t_struct)
    (hsorted : (sorted_keys s).Pairwise (· < ·))
    (hrange : ∀ k ∈ sorted_keys s, 0 ≤ k ∧ k < (INT_MAX : Int)) :
    ∃ cs, struct_unused_comments s = .ok cs ∧ cs.length = (sorted_keys s).length ∧
      (∀ i : Int, (∃ (j : Nat) (c : unused_comment), cs[j]? = some (some c) ∧ c.covers i) ↔
        (1 ≤ i ∧ (∃ largest, (sorted_keys s).getLast? = some largest ∧ i < largest) ∧
          i ∉ sorted_keys s)) ∧
      (∀ (j : Nat) (c : unused_comment) (key i : Int), cs[j]? = some (some c) →
        (sorted_keys s)[j]? = some key → c.covers i →
        i < key ∧ ∀ (j2 : Nat) (k2 : Int), j2 < j → (sorted_keys s)[j2]? = some k2 → k2 < i) ∧
      (∀ (j : Nat) (c : unused_comment), cs[j]? = some (some c) →
        ((∃ a, c = .unused_field a) ↔ ∃ a, ∀ i, c.covers i ↔ i = a)) := by
  have hcond : (s.sorted_positions.isEmpty ||
      decide (key_at s.members_ (s.sorted_positions.headD 0) ≥ 0)) = true := by
    cases hp : s.sorted_positions with
    | nil => rfl
    | cons a rest =>
      have hmem : key_at s.members_ a ∈ sorted_keys s := by
        unfold sorted_keys
        rw [hp]
        exact List.mem_cons_self _ _
      have := (hrange _ hmem).1
      simp [this]
  have hb : ∀ k ∈ sorted_keys s, (0 : Int) ≤ k ∧ k < (INT_MAX : Int) := hrange
  refine ⟨gap_comments 0 (sorted_keys s), ?_, gap_comments_length _ _, ?_, ?_, ?_⟩
  · unfold struct_unused_comments
    rw [hcond, if_pos rfl]
    exact unused_scan_eq _ 0 hsorted hb
  · intro i
    have h := gap_comments_covers (sorted_keys s) 0 i hsorted (le_refl 0)
      (fun k hk => (hrange k hk).1)
    simpa using h
  · intro j c key i hj hkey hcov
    exact (gap_comments_position (sorted_keys s) 0 j c key i hsorted
      (fun k hk => (hrange k hk).1) hj hkey hcov).2
  · intro j c hj
    exact gap_comments_singular (sorted_keys s) 0 j c hj

/-- Witness of C24: a struct with the wire ids 2, 3 and 7 gets "unused field # 1" before
the first member and "unused fields # 4 to 6" before the last. -/
theorem unused_comments_gaps_witness :
    struct_unused_comments gap_struct =
      .ok [some (.unused_field 1), none, some (.unused_fields 4 6)] ∧
    ∃ cs, struct_unused_comments gap_struct = .ok cs ∧
      cs.length = (sorted_keys gap_struct).length :=
  ⟨by decide,
   match unused_comments_gaps gap_struct (by decide) (by decide) with
   | ⟨cs, h1, h2, _⟩ => ⟨cs, h1, h2⟩⟩

/-! ### ConstRenderer: struct constants -/

/-- The inner loop over the members leaves what it had when no member has the name. -/
theorem find_field_absent (fields : List t_field) (key : List Char)
    (found : Option (t_type × Bool)) (h : key ∉ fields.map (fun m => m.name_)) :
    find_field fields key found = .ok found := by
  induction fields generalizing found with
  | nil => rfl
  | cons f rest ih =>
    simp only [List.map_cons, List.mem_cons, not_or] at h
    have hne : (f.name_ == key) = false := beq_eq_false_iff_ne.2 (fun e => h.1 e.symm)
    simp only [find_field, hne, Bool.false_eq_true, if_false]
    exact ih found h.2

/-- The inner loop over members of distinct names finds the member of the name. -/
theorem find_field_member (fields : List t_field) (key : List Char) (m : t_field) (p : Bool)
    (hnodup : (fields.map (fun m => m.name_)).Nodup) (hm : m ∈ fields) (hkey : m.name_ = key)
    (hp : is_pointer_field m = .ok p) (found : Option (t_type × Bool)) :
    find_field fields key found = .ok (some (m.type_, p)) := by
  induction fields generalizing found with
  | nil => cases hm
  | cons f rest ih =>
    simp only [List.map_cons, List.nodup_cons] at hnodup
    rcases List.mem_cons.1 hm with e | hin
    · subst e
      have hk : (m.name_ == key) = true := by simp [hkey]
      simp only [find_field, hk, if_true, hp, Except.bind]
      exact find_field_absent rest key _ (hkey ▸ hnodup.1)
    · have hne : (f.name_ == key) = false := by
        apply beq_eq_false_iff_ne.2
        intro e
        apply hnodup.1
        rw [e, ← hkey]
        exact List.mem_map_of_mem (fun m => m.name_) hin
      simp only [find_field, hne, Bool.false_eq_true, if_false]
      exact ih hnodup.2 hin found

/-- The call for a struct type is the head with the publicized name, the loop over the
entries of the map of the value, and the closing brace. -/
theorem render_const_value_struct (c : const_context) (type : t_type) (opt : Bool) (level : Nat)
    (value : t_const_value)
    (hT : (type.get_true_type.is_struct || type.get_true_type.is_xception) = true) :
    render_const_value c type opt level value =
      (publicize2 c.types.g (type_name c.types type.get_true_type) false).bind fun name =>
        (render_struct_entries c type.get_true_type (level + 1) value.get_map).bind fun body =>
          .ok ("&".toList ++ name ++ "\x7b".toList ++ body ++ "\x7d".toList) := by
  have hb : type.get_true_type.is_base_type = false := by
    cases h : type.get_true_type <;> simp [h, t_type.is_struct, t_type.is_xception,
      t_type.is_base_type] at hT ⊢
  have he : type.get_true_type.is_enum = false := by
    cases h : type.get_true_type <;> simp [h, t_type.is_struct, t_type.is_xception,
      t_type.is_enum] at hT ⊢
  cases value <;> rw [render_const_value] <;>
    simp only [render_with, hb, he, hT, Bool.false_eq_true, if_false, if_true,
      t_const_value.get_map, render_struct_entries]

/-- The loop over the entries stops with the error of the first key that is the name of no
member, when the entries before it render. -/
theorem render_struct_entries_absent (c : const_context) (type : t_type) (level : Nat)
    (before after : List (t_const_value × t_const_value)) (k v : t_const_value)
    (text : List Char) (hbefore : render_struct_entries c type level before = .ok text)
    (hk : k.get_string ∉ (const_members c type).map (fun m => m.name_)) :
    render_struct_entries c type level (before ++ (k, v) :: after) =
      .error (no_field_error type k) := by
  induction before generalizing text with
  | nil =>
    rw [List.nil_append, render_struct_entries, find_field_absent _ _ _ hk]
    rfl
  | cons e rest ih =>
    obtain ⟨k1, v1⟩ := e
    rw [render_struct_entries] at hbefore
    rw [List.cons_append, render_struct_entries]
    cases hf : find_field (const_members c type) k1.get_string none with
    | error x => rw [hf] at hbefore; simp [struct_entry, Except.bind] at hbefore
    | ok f =>
      cases f with
      | none => rw [hf] at hbefore; simp [struct_entry, Except.bind] at hbefore
      | some ft =>
        rw [hf] at hbefore
        cases hp : publicize2 c.types.g k1.get_string false with
        | error x => simp [struct_entry, Except.bind, hp] at hbefore
        | ok name =>
          cases hr : render_const_value c (found_type (.ok (some ft)))
              (found_optional (.ok (some ft))) level v1 with
          | error x => simp [struct_entry, Except.bind, hp, hr] at hbefore
          | ok t1 =>
            cases hm : render_struct_entries c type level rest with
            | error x => simp [struct_entry, Except.bind, hp, hr, hm] at hbefore
            | ok t2 =>
              simp only [struct_entry, Except.bind, hp, hr, ih t2 hm]

/-- The loop over entries that all render gives the texts of the entries one after the
other. -/
theorem render_struct_entries_all (c : const_context) (type : t_type) (level : Nat)
    (hnodup : ((const_members c type).map (fun m => m.name_)).Nodup)
    (es : List rendered_entry)
    (hes : ∀ e ∈ es, e.member ∈ const_members c type ∧ e.member.name_ = e.key.get_string ∧
      is_pointer_field e.member = .ok e.is_optional ∧
      publicize2 c.types.g e.key.get_string false = .ok e.name ∧
      render_const_value c e.member.type_ e.is_optional level e.value = .ok e.text) :
    render_struct_entries c type level (es.map (fun e => (e.key, e.value))) =
      .ok (es.map (fun e => "\n".toList ++ c.indent level ++ e.name ++ ": ".toList ++ e.text ++
        ",\n".toList)).flatten := by
  induction es with
  | nil => rfl
  | cons e rest ih =>
    obtain ⟨hm, hn, hp, hpub, hr⟩ := hes e (List.mem_cons_self _ _)
    have hrest := ih (fun x hx => hes x (List.mem_cons_of_mem _ hx))
    rw [List.map_cons, render_struct_entries,
      find_field_member _ _ e.member e.is_optional hnodup hm hn hp none, hrest]
    simp only [found_type, found_optional, hr, struct_entry, Except.bind, hpub, List.map_cons,
      List.flatten_cons, List.append_assoc]

/-- C25 as amended: for a struct or exception type whose name publicizes,
`render_const_value` goes through the entries of the map of the constant in order. It fails
with the error `type error: <struct> has no field <key>` of the first entry whose key is the
name of no member, when the entries before it render. When the members have distinct names
and every key is the name of a member whose value renders against the type of that member
(as a pointer when the member is a pointer field), the result is `&`, the publicized type
name and, between braces, for each entry a line break, the indentation, the publicized key,
a colon and a space, the text of the value, a comma and a line break. -/
theorem struct_const_entries (c : const_context) (type : t_type) (opt : Bool) (level : Nat)
    (value : t_const_value) (name : List Char)
    (hT : (type.get_true_type.is_struct || type.get_true_type.is_xception) = true)
    (hname : publicize2 c.types.g (type_name c.types type.get_true_type) false = .ok name) :
    (∀ (before after : List (t_const_value × t_const_value)) (k v : t_const_value)
        (text : List Char),
        value.get_map = before ++ (k, v) :: after →
        render_struct_entries c type.get_true_type (level + 1) before = .ok text →
        k.get_string ∉ (const_members c type.get_true_type).map (fun m => m.name_) →
        render_const_value c type opt level value =
          .error (.thrown ("type error: ".toList ++ type.get_true_type.get_name ++
            " has no field ".toList ++ k.get_string))) ∧
    (∀ es : List rendered_entry,
        ((const_members c type.get_true_type).map (fun m => m.name_)).Nodup →
        value.get_map = es.map (fun e => (e.key, e.value)) →
        (∀ e ∈ es, e.member ∈ const_members c type.get_true_type ∧
          e.member.name_ = e.key.get_string ∧
          is_pointer_field e.member = .ok e.is_optional ∧
          publicize2 c.types.g e.key.get_string false = .ok e.name ∧
          render_const_value c e.member.type_ e.is_optional (level + 1) e.value = .ok e.text) →
        render_const_value c type opt level value =
          .ok ("&".toList ++ name ++ "\x7b".toList ++
            (es.map (fun e => "\n".toList ++ c.indent (level + 1) ++ e.name ++ ": ".toList ++
              e.text ++ ",\n".toList)).flatten ++ "\x7d".toList)) := by
  refine ⟨?_, ?_⟩
  · intro before after k v text hv hbefore hk
    rw [render_const_value_struct c type opt level value hT, hname, hv,
      render_struct_entries_absent c _ _ before after k v text hbefore hk]
    rfl
  · intro es hnodup hv hes
    rw [render_const_value_struct c type opt level value hT, hname, hv,
      render_struct_entries_all c _ _ hnodup es hes]
    rfl

/-- Witness of C25: the constant `{weight: 5, bogus: 1, next: {}}` for `Node` fails with the
error of its second key, the first entry being rendered. -/
theorem struct_const_entries_witness :
    render_const_value const_program (.struct ("Node".toList) false) false 0 second_bogus =
      .error (.thrown "type error: Node has no field bogus".toList) :=
  (struct_const_entries const_program (.struct ("Node".toList) false) false 0 second_bogus
    "Node".toList rfl rfl).1 [(.CV_STRING "weight".toList, .CV_INTEGER 5)]
    [(.CV_STRING "next".toList, .CV_MAP [])] (.CV_STRING "bogus".toList) (.CV_INTEGER 1)
    "\n  Weight: 5,\n".toList rfl rfl (by decide)

/-- C25 fails on the code: every key of the constant `{next: {bogus: 3}}` is the name of
a member of `Node`, yet rendering it fails with the error `has no field` of that struct; and
the key `zzz` of `{a: {}, zzz: 1}` is the name of no member of `Keyed`, yet rendering it
fails with another error, that of the entry before. -/
theorem nested_unknown_field :
    (∀ k ∈ map_keys nested_bogus, k ∈ member_names Node) ∧
    render_const_value const_program (.struct ("Node".toList) false) false 0 nested_bogus =
      .error (.thrown "type error: Node has no field bogus".toList) ∧
    "zzz".toList ∈ map_keys masked_bogus ∧ "zzz".toList ∉ member_names Keyed ∧
    render_const_value const_program (.struct ("Keyed".toList) false) false 0 masked_bogus =
      .error (.thrown
        "Cannot produce a valid type for a Go map key: []int32 - aborting.".toList) := by
  refine ⟨by decide, rfl, by decide, by decide, rfl⟩

/-! ### NameMangler: totality, `privatize`, reserved words -/

theorem fix_common_initialism_nil (g : t_go_generator) :
    fix_common_initialism g [] 0 = [] := by
  unfold fix_common_initialism
  split
  · dsimp only
    split <;> simp [replace, substr, find]
  · rfl

/-- On the empty string the loop bound of `camelcase` wraps, and the first round reads past
the end. -/
theorem camelcase_nil (g : t_go_generator) : camelcase g [] = .error .undefined_behaviour := by
  unfold camelcase
  rw [fix_common_initialism_nil, List.length_nil, camelcase_loop_succ]
  have h : 1 < (([] : List Char).length + SIZE_MAX) % (SIZE_MAX + 1) := by
    simp only [List.length_nil, SIZE_MAX]
    omega
  rw [if_pos h]
  rfl

theorem downcase_first_length (w : List Char) : (downcase_first w).length = w.length := by
  cases w <;> simp [downcase_first]

/-- The function `privatize` returns for every string shorter than `2 ^ 31` characters. -/
theorem privatize_ok (g : t_go_generator) (value : List Char) (hlen : value.length < 2 ^ 31) :
    ∃ r, privatize g value = .ok r := by
  unfold privatize
  by_cases h : value.length ≤ 0
  · rw [if_pos h]
    exact ⟨_, rfl⟩
  · rw [if_neg h]
    apply camelcase_ok
    · intro hnil
      have := downcase_first_length value
      rw [hnil] at this
      simp at this
      omega
    · rw [downcase_first_length]
      exact hlen

/-- C31 fails on the code: for every string that ends with a dot, `publicize` leaves the
empty string as the name after the module qualifier and calls `camelcase` on it, whose
loop bound `size() - 1` wraps to the largest `size_t`, so that the first round of the loop
reads `value2[1]` past the end of the empty string; no result is returned. -/
theorem publicize_trailing_dot (g : t_go_generator) (stem service_name : List Char)
    (is_args_or_result : Bool) :
    publicize g (stem ++ ['.']) is_args_or_result service_name =
      .error .undefined_behaviour := by
  have hl : ¬ (stem ++ ['.']).length ≤ 0 := by simp
  have hs : (split_qualifier (stem ++ ['.'])).2 = [] := by
    rw [split_qualifier_last_dot stem [] (by simp)]
  unfold publicize publicize_body
  rw [if_neg hl, hs]
  simp only [upcase_first, camelcase_nil]
  rfl

/-- C32 fails on the code: with initialism correction enabled, `privatize` of "id_list" is
"IDList" and `privatize` of "Api" is "API": the first character is lower-cased before
`camelcase` runs, and `camelcase` then spells the first word, an initialism, in upper
case. -/
theorem privatize_initialism :
    privatize a_generator "id_list".toList = .ok "IDList".toList ∧
    privatize a_generator "Api".toList = .ok "API".toList ∧
    (privatize a_generator "id_list".toList).map (fun r => r.head?.map islower) =
      .ok (some false) := by
  decide

theorem variable_name_cases (value : List Char) :
    variable_name_to_go_name value = value ∨
      variable_name_to_go_name value = value.map tolower ++ "_a1".toList := by
  cases value with
  | nil => exact Or.inl rfl
  | cons c cs =>
    unfold variable_name_to_go_name
    dsimp only
    cases switch_words c with
    | none => exact Or.inl rfl
    | some words =>
      dsimp only
      split
      · exact Or.inl rfl
      · exact Or.inr rfl

/-- C33: for every string, the result of `variable_name_to_go_name` is none of the 25 Go
keywords and is not the identifier "error". -/
theorem go_name_not_reserved (value : List Char) :
    variable_name_to_go_name value ∉
      ["break", "case", "chan", "const", "continue", "default", "defer", "else",
       "fallthrough", "for", "func", "go", "goto", "if", "import", "interface", "map",
       "package", "range", "return", "select", "struct", "switch", "type",
       "var"].map String.toList ∧
    variable_name_to_go_name value ≠ "error".toList := by
  have hfix : ∀ w ∈ reserved_words, variable_name_to_go_name w ≠ w := by decide
  have hlast : ∀ w ∈ reserved_words, w.getLast? ≠ some '1' := by decide
  have hsub : ∀ w ∈ ["break", "case", "chan", "const", "continue", "default", "defer", "else",
       "fallthrough", "for", "func", "go", "goto", "if", "import", "interface", "map",
       "package", "range", "return", "select", "struct", "switch", "type",
       "var"].map String.toList, w ∈ reserved_words := by decide
  have herr : "error".toList ∈ reserved_words := by decide
  have hno : variable_name_to_go_name value ∉ reserved_words := by
    intro hmem
    rcases variable_name_cases value with h | h
    · rw [h] at hmem
      exact hfix value hmem h
    · apply hlast _ hmem
      rw [h]
      simp
  exact ⟨fun h => hno (hsub _ h), fun h => hno (h ▸ herr)⟩

theorem replace_head (s r : List Char) (i n : Nat) (hi : 1 ≤ i) (hs : s ≠ []) :
    (replace s i n r).head? = s.head? := by
  cases s with
  | nil => exact absurd rfl hs
  | cons a t =>
    cases i with
    | zero => omega
    | succ j => simp [replace]

theorem fix_common_initialism_ignored (g : t_go_generator) (hg : g.ignore_initialisms_ = true)
    (value : List Char) (i : Nat) : fix_common_initialism g value i = value := by
  simp [fix_common_initialism, hg]

theorem fix_common_initialism_head (g : t_go_generator) (v : List Char) (i : Nat)
    (hi : 1 ≤ i) (hv : v ≠ []) : (fix_common_initialism g v i).head? = v.head? := by
  unfold fix_common_initialism
  split
  · dsimp only
    split
    · exact replace_head v _ i _ hi hv
    · rfl
  · rfl

theorem camelcase_loop_head (g : t_go_generator) :
    ∀ (fuel i : Nat) (v r : List Char), 1 ≤ i → camelcase_loop g fuel i v = .ok r →
      r.head? = v.head? := by
  intro fuel
  induction fuel with
  | zero =>
    intro i v r _ h
    simp [camelcase_loop] at h
  | succ fuel ih =>
    intro i v r hi h
    rw [camelcase_loop_succ] at h
    by_cases hlt : i < (v.length + SIZE_MAX) % (SIZE_MAX + 1)
    · rw [if_pos hlt] at h
      cases hvi : v[i]? with
      | none => rw [hvi] at h; cases h
      | some c =>
        have hne : v ≠ [] := by
          intro hnil
          rw [hnil] at hvi
          simp at hvi
        rw [hvi] at h
        dsimp only at h
        by_cases hc : c = '_'
        · rw [if_pos hc] at h
          cases hv1 : v[i + 1]? with
          | none => rw [hv1] at h; cases h
          | some d =>
            rw [hv1] at h
            dsimp only at h
            by_cases hmax : i > INT_MAX
            · rw [if_pos hmax] at h; cases h
            · rw [if_neg hmax] at h
              rw [ih (i + 1) _ r (by omega) h]
              have hrep : (if islower d = true then replace v i 2 [toupper d] else v).head? =
                  v.head? := by
                by_cases hd : islower d = true
                · rw [if_pos hd]
                  exact replace_head v _ i 2 hi hne
                · rw [if_neg hd]
              have hne2 : (if islower d = true then replace v i 2 [toupper d] else v) ≠ [] := by
                intro hnil
                rw [hnil] at hrep
                cases v with
                | nil => exact hne rfl
                | cons a t => cases hrep
              rw [fix_common_initialism_head g _ i hi hne2, hrep]
        · rw [if_neg hc] at h
          exact ih (i + 1) v r (by omega) h
    · rw [if_neg hlt] at h
      cases h
      rfl

theorem islower_tolower (c : Char) (h : isupper c = true) : islower (tolower c) = true := by
  have hm := isupper_mem c h
  revert hm
  generalize c = d
  revert d
  decide

theorem islower_not_underscore (d : Char) (h : islower d = true) : d ≠ '_' := by
  intro he
  subst he
  revert h
  decide

theorem isupper_toupper (c : Char) (h : islower c = true) :
    isupper (toupper c) = true ∧ islower (toupper c) = false := by
  have hm := islower_mem c h
  revert hm
  generalize c = d
  revert d
  decide

theorem initialism_word_head (d : Char) (cs : List Char) (h : d ≠ '_') :
    (initialism_word (d :: cs) 0).head? = some (toupper d) := by
  have hb : (d != '_') = true := by simpa using h
  unfold initialism_word find
  simp only [List.drop_zero]
  split
  · simp [substr, List.takeWhile_cons, hb, Nat.add_comm]
    rw [Nat.add_comm]
    rfl
  · simp [substr]

theorem fix_common_initialism_first (g : t_go_generator) (d : Char) (cs : List Char)
    (h : d ≠ '_') :
    (fix_common_initialism g (d :: cs) 0).head? =
      some (if g.ignore_initialisms_ = false ∧
          initialism_word (d :: cs) 0 ∈ g.commonInitialisms then toupper d else d) := by
  have hfix : fix_common_initialism g (d :: cs) 0 =
      if !g.ignore_initialisms_ then
        if initialism_word (d :: cs) 0 ∈ g.commonInitialisms then
          replace (d :: cs) 0 (initialism_word (d :: cs) 0).length (initialism_word (d :: cs) 0)
        else d :: cs
      else d :: cs := rfl
  rw [hfix]
  cases hg : g.ignore_initialisms_ with
  | true => simp
  | false =>
    simp only [Bool.not_false, if_true, true_and]
    by_cases hin : initialism_word (d :: cs) 0 ∈ g.commonInitialisms
    · rw [if_pos hin, if_pos hin]
      have hh := initialism_word_head d cs h
      unfold replace
      cases hw : initialism_word (d :: cs) 0 with
      | nil => rw [hw] at hh; cases hh
      | cons a t =>
        rw [hw] at hh
        simp only [List.head?_cons, Option.some.injEq] at hh
        simp [hh]
    · rw [if_neg hin, if_neg hin]
      rfl

/-- C32 as amended: for every identifier that begins with an ASCII letter (and is shorter
than `2 ^ 31` characters), `privatize` returns a string whose first character is a
lower-case letter when initialism correction is disabled or the first word of the
identifier, the characters up to the first underscore, put in upper case, is not a common
initialism; when initialism correction is enabled and that word is a common initialism, as
in "id_list" and "Api", `privatize` returns a string whose first character is the
upper-case first letter of the initialism. -/
theorem privatize_first_character (g : t_go_generator) (c : Char) (cs : List Char)
    (hc : isupper c = true ∨ islower c = true) (hlen : (c :: cs).length < 2 ^ 31) :
    ∃ r d, privatize g (c :: cs) = .ok r ∧ r.head? = some d ∧
      ((g.ignore_initialisms_ = true ∨
          initialism_word (downcase_first (c :: cs)) 0 ∉ g.commonInitialisms) →
        islower d = true) ∧
      ((g.ignore_initialisms_ = false ∧
          initialism_word (downcase_first (c :: cs)) 0 ∈ g.commonInitialisms) →
        isupper d = true ∧ islower d = false) := by
  obtain ⟨r, hr⟩ := privatize_ok g (c :: cs) hlen
  have hr2 := hr
  unfold privatize at hr2
  rw [if_neg (by simp)] at hr2
  unfold camelcase at hr2
  have hh := camelcase_loop_head g _ 1 _ r (le_refl 1) hr2
  have hd0 : islower (if !islower c then tolower c else c) = true := by
    by_cases hl : islower c = true
    · simp [hl]
    · have hu : isupper c = true := by
        rcases hc with h | h
        · exact h
        · exact absurd h hl
      have hl2 : islower c = false := by simpa using hl
      simp only [hl2, Bool.not_false, if_true]
      exact islower_tolower c hu
  have hdc : downcase_first (c :: cs) = (if !islower c then tolower c else c) :: cs := rfl
  rw [hdc] at hh ⊢
  generalize (if !islower c then tolower c else c) = d0 at hh hd0 ⊢
  rw [fix_common_initialism_first g d0 cs (islower_not_underscore d0 hd0)] at hh
  refine ⟨r, _, hr, hh, ?_, ?_⟩
  · intro h
    rw [if_neg]
    · exact hd0
    · rintro ⟨h1, h2⟩
      rcases h with h | h
      · rw [h] at h1
        cases h1
      · exact h h2
  · intro h
    rw [if_pos h]
    exact isupper_toupper d0 hd0

/-- Witness of C32: "name_list" begins with a letter and its first word "NAME" is no common
initialism: the result of `privatize` begins with a lower-case letter. -/
theorem privatize_first_character_witness :
    ∃ r d, privatize a_generator "name_list".toList = .ok r ∧ r.head? = some d ∧
      islower d = true :=
  match privatize_first_character a_generator 'n' "ame_list".toList (by decide) (by decide) with
  | ⟨r, d, h1, h2, h3, _⟩ => ⟨r, d, h1, h2, h3 (Or.inr (by decide))⟩

theorem go_type_resolving (c : type_context) (optional_field : Bool) :
    ∀ t : t_type, type_to_go_type_from c true t optional_field =
      type_to_go_type_from c true t.get_true_type optional_field := by
  intro t
  induction t with
  | typedef s t ih =>
    rw [type_to_go_type_from]
    simp only [Bool.true_or, if_true]
    rw [ih]
    rfl
  | base_type b bin => rfl
  | enum n => rfl
  | struct n x => rfl
  | map k v _ _ => rfl
  | set e _ => rfl
  | list e _ => rfl

theorem go_type_resolved (c : type_context) (r optional_field : Bool) (t : t_type)
    (h : t.is_typedef = false) :
    type_to_go_type_from c r t optional_field =
      type_to_go_type_from c false t optional_field := by
  cases t with
  | typedef s t => simp [t_type.is_typedef] at h
  | base_type b bin => cases r <;> simp [type_to_go_type_from]
  | enum n => cases r <;> simp [type_to_go_type_from]
  | struct n x => cases r <;> simp [type_to_go_type_from]
  | map k v => cases r <;> simp [type_to_go_type_from]
  | set e => cases r <;> simp [type_to_go_type_from]
  | list e => cases r <;> simp [type_to_go_type_from]

theorem success_pointer (T : t_type) (hvoid : T.get_true_type.is_void = false) :
    is_pointer_field (success_field T) =
      .ok (type_need_reference T || T.get_true_type.is_struct
        || T.get_true_type.is_xception) := by
  have hnt := get_true_type_not_typedef T
  unfold is_pointer_field type_need_reference success_field t_field.set_req
    t_field.annotations_count
  dsimp only
  cases hX : T.get_true_type with
  | typedef s t => rw [hX] at hnt; simp [t_type.is_typedef] at hnt
  | base_type b bin =>
    rw [hX] at hvoid
    cases b <;> cases bin <;>
      simp [t_type.is_void, t_type.is_struct, t_type.is_xception, t_type.is_base_type,
        t_type.get_base, t_type.is_binary, t_type.is_map, t_type.is_set,
        t_type.is_list] at hvoid ⊢
  | enum n =>
    simp [t_type.is_struct, t_type.is_xception, t_type.is_base_type, t_type.is_enum,
      t_type.is_binary, t_type.is_map, t_type.is_set, t_type.is_list]
  | struct n x =>
    cases x <;> simp [t_type.is_struct, t_type.is_xception, t_type.is_binary, t_type.is_map,
      t_type.is_set, t_type.is_list]
  | map k v =>
    simp [t_type.is_struct, t_type.is_xception, t_type.is_base_type, t_type.is_enum,
      t_type.is_binary, t_type.is_map, t_type.is_set, t_type.is_list]
  | set e =>
    simp [t_type.is_struct, t_type.is_xception, t_type.is_base_type, t_type.is_enum,
      t_type.is_binary, t_type.is_map, t_type.is_set, t_type.is_list]
  | list e =>
    simp [t_type.is_struct, t_type.is_xception, t_type.is_base_type, t_type.is_enum,
      t_type.is_binary, t_type.is_map, t_type.is_set, t_type.is_list]

theorem bind_ok_id (x : Except Failure (List Char)) : (x.bind fun t => .ok t) = x := by
  cases x <;> rfl

theorem go_type_pointer (c : type_context) (X : t_type) (hX : X.is_typedef = false)
    (hs : (X.is_struct || X.is_xception) = false) (p : Bool) :
    type_to_go_type_from c false X p =
      (type_to_go_type_from c false X false).bind fun t =>
        .ok (if p then "*".toList ++ t else t) := by
  cases X with
  | typedef s t => simp [t_type.is_typedef] at hX
  | struct n x => cases x <;> simp [t_type.is_struct, t_type.is_xception] at hs
  | base_type b bin =>
    cases b <;> cases bin <;> cases p <;>
      simp [type_to_go_type_from, maybe_pointer, Except.bind]
  | enum n =>
    rw [type_to_go_type_from, type_to_go_type_from]
    cases publicize2 c.g (type_name c (.enum n)) false <;> cases p <;>
      simp [maybe_pointer, Except.bind]
  | map k v =>
    rw [type_to_go_type_from, type_to_go_type_from]
    cases go_key_type_of k (type_to_go_type_from c false k false) <;>
      cases type_to_go_type_from c false v false <;> cases p <;>
      simp [maybe_pointer, Except.bind]
  | set e =>
    rw [type_to_go_type_from, type_to_go_type_from]
    cases type_to_go_type_from c false e false <;> cases p <;>
      simp [maybe_pointer, Except.bind]
  | list e =>
    rw [type_to_go_type_from, type_to_go_type_from]
    cases type_to_go_type_from c false e false <;> cases p <;>
      simp [maybe_pointer, Except.bind]

theorem go_type_struct (c : type_context) (X : t_type)
    (hs : (X.is_struct || X.is_xception) = true) (hX : X.is_typedef = false) (p : Bool) :
    type_to_go_type_from c false X p = type_to_go_type_from c false X false := by
  cases X with
  | struct n x => rw [type_to_go_type_from, type_to_go_type_from]
  | typedef s t => simp [t_type.is_typedef] at hX
  | base_type b bin => simp [t_type.is_struct, t_type.is_xception] at hs
  | enum n => simp [t_type.is_struct, t_type.is_xception] at hs
  | map k v => simp [t_type.is_struct, t_type.is_xception] at hs
  | set e => simp [t_type.is_struct, t_type.is_xception] at hs
  | list e => simp [t_type.is_struct, t_type.is_xception] at hs

theorem go_type_true_type (c : type_context) (T : t_type)
    (h : T.is_typedef = false ∨ c.is_forward_typedef T = true) (q : Bool) :
    type_to_go_type_from c false T q = type_to_go_type_from c false T.get_true_type q := by
  cases T with
  | typedef s t =>
    rcases h with h | h
    · simp [t_type.is_typedef] at h
    · rw [type_to_go_type_from]
      simp only [h, Bool.or_true, if_true]
      rw [go_type_resolving, go_type_resolved c true q _ (get_true_type_not_typedef t)]
      rfl
  | base_type b bin => rfl
  | enum n => rfl
  | struct n x => rfl
  | map k v => rfl
  | set e => rfl
  | list e => rfl

theorem need_reference_struct (T : t_type)
    (hs : (T.get_true_type.is_struct || T.get_true_type.is_xception) = true) :
    type_need_reference T = false := by
  unfold type_need_reference
  dsimp only
  rw [Bool.or_eq_true] at hs
  rcases hs with h | h <;> simp [h]

/-- The Go type of the field `Success` is the Go type of the expression assigned to it for
every return type that is not void and not a typedef, other than a forward typedef, of a
struct or exception. -/
theorem success_type_agrees (c : type_context) (T : t_type)
    (hvoid : T.get_true_type.is_void = false)
    (h : (T.is_typedef && !c.is_forward_typedef T &&
      (T.get_true_type.is_struct || T.get_true_type.is_xception)) = false) :
    success_go_type c T = assigned_go_type c T := by
  have hsf : (success_field T).type_ = T := rfl
  unfold success_go_type assigned_go_type retval_go_type type_to_go_type field_go_type
    type_to_go_type_with_opt
  rw [success_pointer T hvoid, hsf]
  simp only [Except.bind]
  have hnt := get_true_type_not_typedef T
  by_cases hres : T.is_typedef = false ∨ c.is_forward_typedef T = true
  · rw [go_type_true_type c T hres, go_type_true_type c T hres]
    by_cases hs : (T.get_true_type.is_struct || T.get_true_type.is_xception) = true
    · rw [need_reference_struct T hs]
      have hP : (false || T.get_true_type.is_struct || T.get_true_type.is_xception) = true := by
        simpa using hs
      rw [hP, go_type_struct c _ hs hnt]
      simp only [Bool.false_eq_true, if_false]
      cases type_to_go_type_from c false T.get_true_type false <;> rfl
    · have hs2 : (T.get_true_type.is_struct || T.get_true_type.is_xception) = false := by
        simpa using hs
      have hP : (type_need_reference T || T.get_true_type.is_struct
          || T.get_true_type.is_xception) = type_need_reference T := by
        rw [Bool.or_assoc, hs2, Bool.or_false]
      rw [hP, go_type_pointer c _ hnt hs2]
      rfl
  · rw [not_or] at hres
    obtain ⟨h1, h2⟩ := hres
    have h1b : T.is_typedef = true := by simpa using h1
    have h2b : c.is_forward_typedef T = false := by simpa using h2
    have hs2 : (T.get_true_type.is_struct || T.get_true_type.is_xception) = false := by
      simpa [h1b, h2b] using h
    have hP : (type_need_reference T || T.get_true_type.is_struct
        || T.get_true_type.is_xception) = type_need_reference T := by
      rw [Bool.or_assoc, hs2, Bool.or_false]
    rw [hP]
    cases T with
    | typedef s t =>
      rw [type_to_go_type_from, type_to_go_type_from]
      simp only [h2b, Bool.false_or, Bool.false_eq_true, if_false]
      cases publicize2 c.g (type_name c (.typedef s t)) false <;>
        cases type_need_reference (.typedef s t) <;> simp [maybe_pointer, Except.bind]
    | base_type b bin => simp [t_type.is_typedef] at h1b
    | enum n => simp [t_type.is_typedef] at h1b
    | struct n x => simp [t_type.is_typedef] at h1b
    | map k v => simp [t_type.is_typedef] at h1b
    | set e => simp [t_type.is_typedef] at h1b
    | list e => simp [t_type.is_typedef] at h1b

/-! ### The result struct, map equality, the `Ptr` functions -/

/-- C34 fails on the code: for the return type `Bar` of `typedef Foo Bar`, a typedef of a
struct, the field `Success` of the result struct has the Go type "*Bar" and the handler
returns a "Bar", while `type_need_reference` is false: the emitted
`result.Success = retval` assigns a "Bar" to a field of the type "*Bar". -/
theorem success_type_mismatch :
    success_go_type local_types Bar = .ok "*Bar".toList ∧
    retval_go_type local_types Bar = .ok "Bar".toList ∧
    type_need_reference Bar = false ∧
    assigned_go_type local_types Bar = .ok "Bar".toList ∧
    success_go_type local_types Bar ≠ assigned_go_type local_types Bar := by
  decide

/-- C35 fails on the code: for `Tally { 1: map<i32, i32> counts }`, the struct with the map
`{1: 0}` equals the struct with the map `{2: 5}` by the emitted `Equals`, although the maps
have different keys, and the struct with `{2: 5}` does not equal the struct with `{1: 0}`:
the loop compares the value of each key of the receiver's map with `src[k]`, which is the
zero value for a key that the other map lacks. -/
theorem map_equals_asymmetric :
    struct_Equals [Tally] Tally tally_one tally_two = .ok true ∧
    struct_Equals [Tally] Tally tally_two tally_one = .ok false ∧
    first_map_keys tally_one = [.int 1] ∧ first_map_keys tally_two = [.int 2] :=
  ⟨rfl, rfl, rfl, rfl⟩

/-- C36 fails on the code: `render_const_value` names the constructor by the type name as
it is in the IDL, followed by "Ptr": "color_kindPtr" for the enum `color_kind` and
"user_idPtr" for the typedef `user_id`, while `generate_enum` and `generate_typedef`
declare the functions "ColorKindPtr" and "UserIDPtr" by the publicized names; the constant
`{owner: 5, shade: 1}` of a struct with optional members of the two types is rendered with
the two names that are not declared. -/
theorem ptr_name_not_publicized :
    render_const_value const_program color_kind true 0 (.CV_INTEGER 1) =
      .ok "color_kindPtr(1)".toList ∧
    enum_ptr_function a_generator "color_kind".toList = .ok "ColorKindPtr".toList ∧
    render_const_value const_program user_id true 0 (.CV_INTEGER 5) =
      .ok "user_idPtr(5)".toList ∧
    typedef_ptr_function local_types "user_id".toList (.base_type .TYPE_I32 false) =
      .ok (some "UserIDPtr".toList) ∧
    render_const_value paint_program (.struct ("Paint".toList) false) false 0 a_paint =
      .ok "&Paint\x7b\n  Owner: user_idPtr(5),\n\n  Shade: color_kindPtr(1),\n\x7d".toList :=
  ⟨rfl, by decide, rfl, by decide, rfl⟩

/-! ### IsSet helpers, default holders and thrift tags -/

/-- C37: for every union without a member of the type void, whose members are OPTIONAL when
the helpers are generated (set so by the generator in the branch of lines 1457 to 1517, and
as the parser hands them over when the smallest wire id is negative): the members on which
the emitted `CountSetFields` calls an IsSet helper are computed, each of them is a member
that is not REQUIRED and is setable (pointer, map, set, list or binary), and for each of
them, and for every OPTIONAL member, on which the emitted writer calls the helper,
`generate_isset_helpers` emits the helper. -/
theorem union_isset_helpers (s : t_struct) (hu : s.is_union_ = true)
    (hin : s.tagged_branch = true ∨ s.union_members_parsed = true)
    (hvoid : ∀ m ∈ s.members_, m.type_.get_true_type.is_void = false) :
    (∃ cs, countsetfields_members (definition_members s) = .ok cs ∧
      ∀ m ∈ cs, m ∈ definition_members s ∧ m.req_ ≠ e_req.T_REQUIRED ∧
        is_setable m = .ok true ∧ ∃ body, isset_helper m = .ok (some body)) ∧
    (∀ m ∈ definition_members s, m.req_ = e_req.T_OPTIONAL →
      ∃ body, isset_helper m = .ok (some body)) := by
  have hv2 : ∀ m ∈ definition_members s, m.type_.get_true_type.is_void = false := by
    intro m hm
    have h1 : m.type_ ∈ (definition_members s).map (fun x => x.type_) :=
      List.mem_map.2 ⟨m, hm, rfl⟩
    rw [definition_members_map (fun x => x.type_) (fun _ _ => rfl) s] at h1
    obtain ⟨m2, hm2, he⟩ := List.mem_map.1 h1
    rw [← he]
    exact hvoid m2 hm2
  have hopt := (union_definition_optional s hu hin).2.1
  have hhelp : ∀ m ∈ definition_members s, ∃ body, isset_helper m = .ok (some body) := by
    intro m hm
    obtain ⟨p, hp⟩ := is_pointer_field_ok m (hv2 m hm)
    exact ⟨_, isset_helper_eq m p hp (Or.inl (hopt m hm))⟩
  have hset : ∀ m ∈ definition_members s, is_setable m = .ok (setable m) := by
    intro m hm
    obtain ⟨p, hp⟩ := is_pointer_field_ok m (hv2 m hm)
    simp [setable, is_setable, hp, Except.bind]
  refine ⟨⟨_, countsetfields_members_eq _ hset, ?_⟩, fun m hm _ => hhelp m hm⟩
  intro m hm
  obtain ⟨hm1, hm2⟩ := List.mem_filter.1 hm
  unfold counted at hm2
  rw [Bool.and_eq_true] at hm2
  refine ⟨hm1, ?_, ?_, hhelp m hm1⟩
  · intro h
    rw [h] at hm2
    simp at hm2
  · rw [hset m hm1, hm2.2]

/-- Witness of C37: the union `union_negative_list`, whose only member is a `list<i32>` with
a negative wire id and is OPTIONAL as the parser hands it over: `CountSetFields` calls the
IsSet helper of that member, and the helper is emitted. -/
theorem union_isset_helpers_witness :
    union_negative_list.tagged_branch = false ∧
    ((countsetfields_members (definition_members union_negative_list)).map
      (fun l => l.map (fun m => m.name_)) = .ok ["xs".toList]) ∧
    ∀ m ∈ definition_members union_negative_list, m.req_ = e_req.T_OPTIONAL →
      ∃ body, isset_helper m = .ok (some body) :=
  ⟨by decide, by decide,
    (union_isset_helpers union_negative_list rfl (Or.inr rfl) (by decide)).2⟩

/-- C38: the default holder of a member is declared iff the member is OPTIONAL or a pointer
field; the guarded getter, the only one that names the default holder, is emitted for a
pointer field, and an IsSet helper, whose body may name the default holder, is emitted for a
member that is OPTIONAL or a pointer field; so whenever one of the two names the default
holder, the holder is declared. -/
theorem default_holder_declared (m : t_field) :
    ((∃ v, default_holder m = .ok (some v)) ↔
      (m.req_ = e_req.T_OPTIONAL ∨ is_pointer_field m = .ok true)) ∧
    (getter_is_guarded m = .ok true → ∃ v, default_holder m = .ok (some v)) ∧
    (∀ body, isset_helper m = .ok (some body) → ∃ v, default_holder m = .ok (some v)) := by
  have hiff : (∃ v, default_holder m = .ok (some v)) ↔
      (m.req_ = e_req.T_OPTIONAL ∨ is_pointer_field m = .ok true) := by
    unfold default_holder
    by_cases hr : m.req_ = e_req.T_OPTIONAL
    · simp [hr]
    · have hb : (m.req_ == e_req.T_OPTIONAL) = false := by simpa using hr
      simp only [hb, Bool.false_eq_true, if_false, hr, false_or]
      cases hp : is_pointer_field m with
      | error e => simp [Except.bind]
      | ok p => cases p <;> simp [Except.bind]
  refine ⟨hiff, ?_, ?_⟩
  · intro hg
    exact hiff.2 (Or.inr hg)
  · intro body hb
    apply hiff.2
    by_cases hr : m.req_ = e_req.T_OPTIONAL
    · exact Or.inl hr
    · right
      have hbq : (m.req_ == e_req.T_OPTIONAL) = false := by simpa using hr
      unfold isset_helper at hb
      simp only [hbq, Bool.false_eq_true, if_false] at hb
      cases hp : is_pointer_field m with
      | error e => rw [hp] at hb; simp [Except.bind] at hb
      | ok p =>
        cases p with
        | true => rfl
        | false => rw [hp] at hb; simp [Except.bind] at hb

/-- Witness of C38: an OPTIONAL binary field with a default has an IsSet helper that names
its default holder, and the holder is declared. -/
theorem default_holder_declared_witness :
    isset_helper binary_default_field = .ok (some .not_bytes_equal_default) ∧
    ∃ v, default_holder binary_default_field = .ok (some v) :=
  ⟨by decide,
   (default_holder_declared binary_default_field).2.2 .not_bytes_equal_default (by decide)⟩

theorem tag_scan_eq :
    ∀ (keys : List Int) (pos : Int), keys.Pairwise (· < ·) →
      (∀ k ∈ keys, pos ≤ k ∧ k < (INT_MAX : Int)) →
      tag_scan keys pos = .ok keys := by
  intro keys
  induction keys with
  | nil => intro pos _ _; rfl
  | cons key rest ih =>
    intro pos hs hb
    obtain ⟨h1, h2⟩ := hb key (List.mem_cons_self _ _)
    rw [List.pairwise_cons] at hs
    have hlt : ¬ key ≥ (INT_MAX : Int) := by omega
    unfold tag_scan
    rw [unused_before_eq pos key h1 (by omega)]
    simp only [Except.bind, int_incr, if_neg hlt]
    rw [ih (key + 1) hs.2 (fun k hk => ⟨by have := hs.1 k hk; omega,
      (hb k (List.mem_cons_of_mem _ hk)).2⟩)]

/-- C39: for a struct whose members sorted by wire id have strictly increasing, non-negative
wire ids (below the largest `int`), the scan for unused ids ends before every member and
the loop over the members returns, and the wire id written into the thrift tag of each
member, the value of the running position, is the wire id of that member. -/
theorem tag_ids_own (s : t_struct)
    (hsorted : (sorted_keys s).Pairwise (· < ·))
    (hrange : ∀ k ∈ sorted_keys s, 0 ≤ k ∧ k < (INT_MAX : Int)) :
    struct_tag_ids s = .ok (sorted_keys s) ∧
    ∀ (pos key : Int), pos ≤ key → key ≤ (INT_MAX : Int) →
      ∃ c, unused_before pos key = .ok (c, key) := by
  have hcond : (s.sorted_positions.isEmpty ||
      decide (key_at s.members_ (s.sorted_positions.headD 0) ≥ 0)) = true := by
    cases hp : s.sorted_positions with
    | nil => rfl
    | cons a rest =>
      have hmem : key_at s.members_ a ∈ sorted_keys s := by
        unfold sorted_keys
        rw [hp]
        exact List.mem_cons_self _ _
      have := (hrange _ hmem).1
      simp [this]
  refine ⟨?_, fun pos key h hk => ⟨_, unused_before_eq pos key h hk⟩⟩
  unfold struct_tag_ids
  rw [hcond, if_pos rfl]
  exact tag_scan_eq _ 0 hsorted hrange

/-- Witness of C39: the struct with the wire ids 2, 3 and 7 gets these ids in its tags. -/
theorem tag_ids_own_witness : struct_tag_ids gap_struct = .ok [2, 3, 7] :=
  (tag_ids_own gap_struct (by decide) (by decide)).1

end GoGen
